import Mathlib

/-! EITHelper (mythtv/libs/libmythtv/eithelper.cpp)

A shallow embedding of the EIT correlation engine: the two pending maps of the
ATSC path (`incomplete_events`, `unmatched_etts`), the channel-id cache
(`srv_to_chanid`), the completion queue (`db_events`) and the operations on
them.  Machine integers are natural numbers reduced modulo `2^32` / `2^64`
where the C++ code computes in `uint` / `uint64_t`; `int` values are integers.
The mutex `eitList_lock` is not modelled: every operation runs to completion
before the next one starts.
-/

namespace MythTV

/-! ## Machine integers -/

/-- Value of a C++ `uint` (32 bit) expression. -/
def u32 (n : Nat) : Nat := n % 2 ^ 32

/-- Value of a C++ `uint64_t` expression. -/
def u64 (n : Nat) : Nat := n % 2 ^ 64

/-- Conversion `uint -> int` (two's complement, 32 bit), as performed by an
assignment of a `uint` to an `int` lvalue or by passing a `uint` for an `int`
parameter. -/
def toInt32 (n : Nat) : Int :=
  if u32 n < 2 ^ 31 then (u32 n : Int) else (u32 n : Int) - 2 ^ 32

/-- Conversion `int -> uint`. -/
def ofInt32 (i : Int) : Nat := (i % 2 ^ 32).toNat

/-! ## QMap -/

/-- The Qt container `QMap<K,T>` with integer keys: a finite map, kept as an
association list.  All key types of the engine (`uint`, `uint64_t`) are
naturals here. -/
abbrev QMap (V : Type) := List (Nat × V)

namespace QMap

variable {V : Type}

/-- Lookup `QMap::find(k)`: `none` stands for the iterator `end()`. -/
def find : QMap V → Nat → Option V
  | [], _ => none
  | (k', v) :: m, k => if k' = k then some v else find m k

/-- Assignment `m[k] = v`: replaces the value of an existing key, inserts the
pair otherwise. -/
def insert : QMap V → Nat → V → QMap V
  | [], k, v => [(k, v)]
  | (k', v') :: m, k, v => if k' = k then (k, v) :: m else (k', v') :: insert m k v

/-- Removal `m.erase(it)` of the entry with key `k`. -/
def erase (m : QMap V) (k : Nat) : QMap V := m.filter (fun p => decide (p.1 ≠ k))

/-- Effect on the map of the non-const `m[k]` used as an rvalue or bound to a
reference: a default-constructed value is inserted when `k` is missing. -/
def touch (m : QMap V) (k : Nat) (dflt : V) : QMap V :=
  match find m k with
  | some _ => m
  | none => insert m k dflt

/-- Value read through the non-const `m[k]`. -/
def value (m : QMap V) (k : Nat) (dflt : V) : V := (find m k).getD dflt

/-- Number of entries, `QMap::size()`. -/
def size (m : QMap V) : Nat := m.length

/-- Lookup in a map of maps: the value under `id` in the inner map stored
under `key`, if both exist. -/
def find2 (m : QMap (QMap V)) (key id : Nat) : Option V :=
  (find m key).bind (fun inner => find inner id)

end QMap

/-! ## Strings, times, events -/

/-- A `QString`: `none` is `QString::null`. -/
abbrev QString := Option String

/-- Concatenation `a += b` of two `QString`s; the result is never null. -/
def QString.append (a b : QString) : QString := some (a.getD "" ++ b.getD "")

/-- A `QDateTime` of Qt 3 is a naive calendar date and time; it is represented
by its number of seconds since 1970-01-01T00:00:00 of the same calendar. -/
abbrev QDateTime := Int

/-- The method `QDateTime::addSecs(int)`. -/
def QDateTime.addSecs (t : QDateTime) (secs : Int) : QDateTime := t + secs

/-- An ATSC multiple string structure: the language-tagged variants of a text
(language key, text). -/
abbrev MultipleStringStructure := List (Nat × String)

/-- A pointer `const unsigned char*` to descriptor bytes: the null pointer, a
pointer into the section buffer of the table being parsed, or the start of
block number `a` obtained from `new unsigned char[]`; `bytes` is what the
pointer points to. -/
inductive DescPtr where
  | null
  | buffer (bytes : List Nat)
  | heap (a : Nat) (bytes : List Nat)
  deriving DecidableEq, Repr

/-- Bytes readable through a descriptor pointer. -/
def DescPtr.bytes : DescPtr → List Nat
  | .null => []
  | .buffer bs => bs
  | .heap _ bs => bs

/-- The struct `ATSCEvent` as built by the constructor call in `AddEIT`. -/
structure ATSCEvent where
  start_time : Nat
  length : Nat
  etm : Nat
  desc_length : Nat
  title : QString
  desc : DescPtr
  deriving DecidableEq, Repr

/-- A `DBEvent`, represented by the constructor call that built it: the
eight-argument constructor used by `CompleteEvent` (its third argument is the
extended text) and the thirteen-argument constructor used by the DVB
`AddEIT`. -/
inductive DBEvent where
  | atsc (chanid : Nat) (title ett : QString) (starttime endtime : QDateTime)
      (fixup : Nat) (captioned stereo : Bool)
  | dvb (chanid : Nat) (title subtitle description category : QString)
      (category_type : Nat) (starttime endtime : QDateTime) (fixup : Nat)
      (captioned subtitled stereo hdtv : Bool)
  deriving DecidableEq, Repr

namespace DBEvent

/-- Channel id of the event. -/
def chanid : DBEvent → Nat
  | atsc c _ _ _ _ _ _ _ => c
  | dvb c _ _ _ _ _ _ _ _ _ _ _ _ => c

/-- Extended text handed to the eight-argument constructor; the DVB
constructor has no such argument. -/
def ett : DBEvent → QString
  | atsc _ _ e _ _ _ _ _ => e
  | dvb _ _ _ _ _ _ _ _ _ _ _ _ _ => none

/-- Start time of the event. -/
def starttime : DBEvent → QDateTime
  | atsc _ _ _ s _ _ _ _ => s
  | dvb _ _ _ _ _ _ s _ _ _ _ _ _ => s

/-- End time of the event. -/
def endtime : DBEvent → QDateTime
  | atsc _ _ _ _ e _ _ _ => e
  | dvb _ _ _ _ _ _ _ e _ _ _ _ _ => e

/-- Fix-up bitmask of the event. -/
def fixup : DBEvent → Nat
  | atsc _ _ _ _ _ f _ _ => f
  | dvb _ _ _ _ _ _ _ _ f _ _ _ _ => f

end DBEvent

/-- Modelled from the spec: the container `MythDeque<T>` (declared in
`mythdeque.h`, which is not among the sources) is the FIFO completion queue of
section 4.6.  The oldest entry comes first: `enqueue` appends at the back,
`dequeue` removes and returns the entry at the front, `size()` is the
length. -/
abbrev MythDeque (T : Type) := List T

/-! ## The channel table of the external store -/

/-- Outcome of running the `SELECT chanid, useonairguide ...` statement:
`failed` when `exec()` fails or the query is not active, otherwise the rows of
the result set in cursor order: the `uint` that `value(0).toUInt()` reads from
the `chanid` column and the `bool` that `value(1).toBool()` reads from the
`useonairguide` column. -/
inductive QueryResult where
  | failed
  | rows (rs : List (Fin (2 ^ 32) × Bool))
  deriving DecidableEq, Repr

/-- A lookup sent to the external store by `get_chan_id_from_db`. -/
inductive DBQuery where
  | atsc (sourceid atsc_major atsc_minor : Nat)
  | dvb (sourceid serviceid networkid transportid : Nat)
  deriving DecidableEq, Repr

/-- Content of the external store at the time of a call, as seen through the
two `SELECT` statements. -/
abbrev ChannelDB := DBQuery → QueryResult

/-- Common tail of both `get_chan_id_from_db` overloads: error and empty
result give 0, the first row gives its `chanid` when `useonairguide` is set
and 0 otherwise. -/
def chanid_of_result : QueryResult → Nat
  | .failed => 0
  | .rows [] => 0
  | .rows ((chanid, useOnAirGuide) :: _) => if useOnAirGuide then chanid.val else 0

/-- The function `get_chan_id_from_db(sourceid, atsc_major, atsc_minor)`. -/
def get_chan_id_from_db (db : ChannelDB) (sourceid atsc_major atsc_minor : Nat) : Nat :=
  chanid_of_result (db (.atsc sourceid atsc_major atsc_minor))

/-- The function `get_chan_id_from_db(sourceid, serviceid, networkid,
transportid)`.  The statement carries the `sourceid` predicate only when
`sourceid` is non-zero; the store sees that through the query's `sourceid`
field being 0. -/
def get_chan_id_from_db_dvb (db : ChannelDB)
    (sourceid serviceid networkid transportid : Nat) : Nat :=
  chanid_of_result (db (.dvb sourceid serviceid networkid transportid))

/-! ## Collaborators that are declared in other files -/

/-- The type `desc_list_t`: the descriptors found by `MPEGDescriptor::Parse`. -/
abbrev desc_list_t := List (List Nat)

/-- The descriptor tags of `DescriptorID` used by the engine. -/
structure DescriptorID where
  caption_service : Nat
  dish_event_name : Nat
  dish_event_description : Nat
  short_event : Nat
  extended_event : Nat
  component : Nat
  content : Nat

/-- The fix-up bits of `EITFixUp` used by the engine. -/
structure FixUpBits where
  kFixBell : Nat
  kFixUK : Nat
  kFixComHem : Nat
  kFixSubtitle : Nat
  kFixAUStar : Nat
  kEFixPro7Sat : Nat
  kFixGenericDVB : Nat

/-- Functions, constants and objects the engine uses but does not define
(declared in `eitfixup.h`, `eitcache.h`, `atsctables.h`, `dvbtables.h`,
`dishdescriptors.h`, `util.h`, `iso639.h` and the C library).  `EC` is the
state of the `EITCache` object. -/
structure Collab (EC : Type) where
  /-- The constant `secs_Between_1Jan1970_6Jan1980`. -/
  secs_Between_1Jan1970_6Jan1980 : Int
  /-- The constant `GPS_LEAP_SECONDS`. -/
  GPS_LEAP_SECONDS : Int
  /-- The descriptor tags. -/
  ids : DescriptorID
  /-- The fix-up bits. -/
  bits : FixUpBits
  /-- The constant `kCategoryNone`. -/
  kCategoryNone : Nat
  /-- Whether `gmtime_r` succeeds on a `time_t`. -/
  gmtime_r_ok : Int → Bool
  /-- Local civil time of a `time_t`, `QDateTime::setTime_t(t, Qt::LocalTime)`. -/
  setTime_t_local : Int → QDateTime
  /-- The function `MythUTCToLocal`. -/
  MythUTCToLocal : QDateTime → QDateTime
  /-- The function `EITFixUp::TimeFix`. -/
  TimeFix : QDateTime → QDateTime
  /-- The method `EITFixUp::Fix`. -/
  Fix : DBEvent → DBEvent
  /-- The method `MultipleStringStructure::GetBestMatch`. -/
  GetBestMatch : MultipleStringStructure → QMap Nat → QString
  /-- The function `iso639_str3_to_key`. -/
  iso639_str3_to_key : String → Nat
  /-- The function `iso639_key_to_canonical_key`. -/
  iso639_key_to_canonical_key : Nat → Nat
  /-- The method `EITCache::IsNewEIT` (networkid, tsid, serviceid, tableid,
  version, eventid, endtime). -/
  IsNewEIT : EC → Nat → Nat → Nat → Nat → Nat → Nat → Nat → Bool × EC
  /-- The method `EITCache::PruneOldEntries`. -/
  PruneOldEntries : EC → Nat → EC
  /-- The function `MPEGDescriptor::Parse(data, length)`. -/
  Parse : List Nat → Nat → desc_list_t
  /-- The function `MPEGDescriptor::Find`. -/
  Find : desc_list_t → Nat → Option (List Nat)
  /-- The function `MPEGDescriptor::FindAll`. -/
  FindAll : desc_list_t → Nat → desc_list_t
  /-- The function `MPEGDescriptor::FindBestMatch`. -/
  FindBestMatch : desc_list_t → Nat → QMap Nat → Option (List Nat)
  /-- The function `MPEGDescriptor::FindBestMatches`; an element may be the
  null pointer. -/
  FindBestMatches : desc_list_t → Nat → QMap Nat → List (Option (List Nat))
  /-- The method `DishEventNameDescriptor::HasName`. -/
  dishHasName : List Nat → Bool
  /-- The method `DishEventNameDescriptor::Name(compression)`. -/
  dishName : List Nat → Nat → QString
  /-- The method `DishEventDescriptionDescriptor::HasDescription`. -/
  dishHasDescription : List Nat → Bool
  /-- The method `DishEventDescriptionDescriptor::Description(compression)`. -/
  dishDescription : List Nat → Nat → QString
  /-- The method `ShortEventDescriptor::EventName`, with or without an
  encoding override (`true`: called as `EventName(enc, 1)`). -/
  shortEventName : List Nat → Bool → QString
  /-- The method `ShortEventDescriptor::Text`, with or without an encoding
  override. -/
  shortText : List Nat → Bool → QString
  /-- The method `ExtendedEventDescriptor::Text`, with or without an encoding
  override. -/
  extendedText : List Nat → Bool → QString
  /-- The method `ComponentDescriptor::IsHDTV`. -/
  IsHDTV : List Nat → Bool
  /-- The method `ComponentDescriptor::IsStereo`. -/
  IsStereo : List Nat → Bool
  /-- The method `ComponentDescriptor::IsReallySubtitled`. -/
  IsReallySubtitled : List Nat → Bool
  /-- The method `ContentDescriptor::GetDescription(0)`. -/
  contentDescription : List Nat → QString
  /-- The method `ContentDescriptor::GetMythCategory(0)`. -/
  contentMythCategory : List Nat → Nat

/-! ## The engine state -/

/-- The data members of `EITHelper` (`eitfixup` is stateless and lives in
`Collab`), together with two bookkeeping components that the object does not
hold itself: the blocks obtained from `new unsigned char[]` and not yet
released, and the log of the statements sent to the external store. -/
structure EITHelper (EC : Type) where
  eitcache : EC
  gps_offset : Int
  utc_offset : Int
  fixup : QMap Nat
  languagePreferences : QMap Nat
  sourceid : Nat
  /-- The map `ServiceToChanID`.  Its values are `int`: `GetChanID` returns
  `max(*it, 0)`, and `std::max` takes two arguments of one type, here that of
  the literal `0`.  The `uint` channel id is converted on assignment. -/
  srv_to_chanid : QMap Int
  /-- The completion queue `db_events`. -/
  db_events : MythDeque DBEvent
  incomplete_events : QMap (QMap ATSCEvent)
  unmatched_etts : QMap (QMap QString)
  /-- Blocks allocated with `new unsigned char[]` and not yet deleted. -/
  heap_live : List Nat
  /-- Number of the next block `new` hands out. -/
  heap_next : Nat
  /-- Statements executed by `get_chan_id_from_db`, oldest first. -/
  db_queries : List DBQuery

namespace EITHelper

variable {EC : Type}

/-- The constant `EITHelper::kChunkSize`. -/
def kChunkSize : Nat := 20

/-- The key `(atsc_major << 16) | atsc_minor`, computed in `uint`. -/
def atsc_key (atsc_major atsc_minor : Nat) : Nat :=
  u32 (u32 (u32 atsc_major <<< 16) ||| u32 atsc_minor)

/-- The cache key built by `GetChanID(atsc_major, atsc_minor)`. -/
def chan_key (sourceid atsc_major atsc_minor : Nat) : Nat :=
  u64 (u64 (u32 sourceid ||| u64 (u32 atsc_minor <<< 16)) ||| u64 (u32 atsc_major <<< 32))

/-- The cache key built by `GetChanID(serviceid, networkid, tsid)`. -/
def chan_key_dvb (sourceid serviceid networkid tsid : Nat) : Nat :=
  u64 (u64 (u64 (u32 sourceid ||| u64 (u32 serviceid <<< 16)) ||| u64 (u32 networkid <<< 32))
    ||| u64 (u32 tsid <<< 48))

/-- The method `EITHelper::GetChanID(atsc_major, atsc_minor)`: the returned
channel id and the state afterwards. -/
def GetChanID (db : ChannelDB) (st : EITHelper EC) (atsc_major atsc_minor : Nat) :
    Nat × EITHelper EC :=
  let key := chan_key st.sourceid atsc_major atsc_minor
  match st.srv_to_chanid.find key with
  | some v => (ofInt32 (max v 0), st)
  | none =>
    let chanid := get_chan_id_from_db db st.sourceid atsc_major atsc_minor
    let st1 := { st with db_queries := st.db_queries ++ [.atsc st.sourceid atsc_major atsc_minor] }
    if chanid ≠ 0 then
      (chanid, { st1 with srv_to_chanid := st1.srv_to_chanid.insert key (toInt32 chanid) })
    else
      (chanid, st1)

/-- The method `EITHelper::GetChanID(serviceid, networkid, tsid)`. -/
def GetChanID_dvb (db : ChannelDB) (st : EITHelper EC) (serviceid networkid tsid : Nat) :
    Nat × EITHelper EC :=
  let key := chan_key_dvb st.sourceid serviceid networkid tsid
  match st.srv_to_chanid.find key with
  | some v => (ofInt32 (max v 0), st)
  | none =>
    let chanid := get_chan_id_from_db_dvb db st.sourceid serviceid networkid tsid
    let st1 := { st with db_queries := st.db_queries ++ [.dvb st.sourceid serviceid networkid tsid] }
    if chanid ≠ 0 then
      (chanid, { st1 with srv_to_chanid := st1.srv_to_chanid.insert key (toInt32 chanid) })
    else
      (chanid, st1)

/-- The method `EITHelper::CompleteEvent`.  `time_t` is 64 bits wide, so the
sums `off` and `tmp` do not wrap. -/
def CompleteEvent (c : Collab EC) (db : ChannelDB) (st : EITHelper EC)
    (atsc_major atsc_minor : Nat) (event : ATSCEvent) (ett : QString) : EITHelper EC :=
  let r := GetChanID db st atsc_major atsc_minor
  let chanid := r.1
  let st1 := r.2
  if chanid = 0 then st1
  else
    let off : Int := c.secs_Between_1Jan1970_6Jan1980 + st1.gps_offset + st1.utc_offset
    let tmp : Int := (u32 event.start_time : Int) + off
    let starttime0 : QDateTime :=
      if c.gmtime_r_ok tmp then tmp else c.setTime_t_local (tmp - st1.utc_offset)
    let starttime := c.TimeFix starttime0
    let endtime := QDateTime.addSecs starttime (toInt32 event.length)
    let list := c.Parse event.desc.bytes event.desc_length
    let captioned := (c.Find list c.ids.caption_service).isSome
    let stereo := false
    let key := atsc_key atsc_major atsc_minor
    { st1 with
      db_events := st1.db_events ++
        [DBEvent.atsc chanid event.title ett starttime endtime
          (st1.fixup.value key 0) captioned stereo]
      fixup := st1.fixup.touch key 0 }

/-- One row of an `EventInformationTable`, through its accessors. -/
structure EITEvent where
  EventID : Nat
  StartTimeRaw : Nat
  LengthInSeconds : Nat
  ETMLocation : Nat
  title : MultipleStringStructure
  Descriptors : List Nat
  DescriptorsLength : Nat
  deriving DecidableEq, Repr

/-- An `EventInformationTable`: its rows, `EventCount()` is the length. -/
abbrev EventInformationTable := List EITEvent

/-- An `ExtendedTextTable`, through its accessors. -/
structure ExtendedTextTable where
  EventID : Nat
  ExtendedTextMessage : MultipleStringStructure
  deriving DecidableEq, Repr

/-- The `ATSCEvent ev` built at the head of the loop body of `AddEIT`. -/
def ATSCEvent.ofRow (c : Collab EC) (prefs : QMap Nat) (e : EITEvent) : ATSCEvent :=
  { start_time := e.StartTimeRaw, length := e.LengthInSeconds, etm := e.ETMLocation,
    title := c.GetBestMatch e.title prefs,
    desc := .buffer e.Descriptors, desc_length := e.DescriptorsLength }

/-- Body of the loop of `AddEIT(atsc_major, atsc_minor, eit)` for row `e`. -/
def AddEIT_event (c : Collab EC) (db : ChannelDB) (atsc_major atsc_minor : Nat)
    (st : EITHelper EC) (e : EITEvent) : EITHelper EC :=
  let key := atsc_key atsc_major atsc_minor
  let ev : ATSCEvent := ATSCEvent.ofRow c st.languagePreferences e
  let etts := st.unmatched_etts.value key []
  match etts.find e.EventID with
  | some ett =>
    let st1 := CompleteEvent c db st atsc_major atsc_minor ev ett
    { st1 with unmatched_etts := st1.unmatched_etts.insert key (etts.erase e.EventID) }
  | none =>
    if ev.etm = 0 then
      CompleteEvent c db st atsc_major atsc_minor ev none
    else
      let tmp := DescPtr.heap st.heap_next (e.Descriptors.take ev.desc_length)
      let events := st.incomplete_events.value key []
      { st with
        heap_live := st.heap_next :: st.heap_live
        heap_next := st.heap_next + 1
        incomplete_events :=
          st.incomplete_events.insert key (events.insert e.EventID { ev with desc := tmp }) }

/-- Entry of `AddEIT(atsc_major, atsc_minor, eit)`: the references `events`
and `etts` are bound through the non-const `operator[]` of the two outer
maps. -/
def AddEIT_entry (st : EITHelper EC) (atsc_major atsc_minor : Nat) : EITHelper EC :=
  { st with
    incomplete_events := st.incomplete_events.touch (atsc_key atsc_major atsc_minor) []
    unmatched_etts := st.unmatched_etts.touch (atsc_key atsc_major atsc_minor) [] }

/-- The method `EITHelper::AddEIT(atsc_major, atsc_minor, eit)`. -/
def AddEIT (c : Collab EC) (db : ChannelDB) (st : EITHelper EC)
    (atsc_major atsc_minor : Nat) (eit : EventInformationTable) : EITHelper EC :=
  eit.foldl (AddEIT_event c db atsc_major atsc_minor) (AddEIT_entry st atsc_major atsc_minor)

/-- The statement `delete [] p`. -/
def delete_array (live : List Nat) : DescPtr → List Nat
  | .heap a _ => live.filter (fun b => decide (b ≠ a))
  | _ => live

/-- Tail of `AddETT`, reached when no matching primary fragment is pending: the
text is stored unless the unmatched-ETT map already has the event id. -/
def AddETT_unmatched (st : EITHelper EC) (key id : Nat) (text : QString) : EITHelper EC :=
  let elist := st.unmatched_etts.value key []
  match elist.find id with
  | none => { st with unmatched_etts := st.unmatched_etts.insert key (elist.insert id text) }
  | some _ => { st with unmatched_etts := st.unmatched_etts.touch key [] }

/-- The method `EITHelper::AddETT`. -/
def AddETT (c : Collab EC) (db : ChannelDB) (st : EITHelper EC)
    (atsc_major atsc_minor : Nat) (ett : ExtendedTextTable) : EITHelper EC :=
  let key := atsc_key atsc_major atsc_minor
  let text := c.GetBestMatch ett.ExtendedTextMessage st.languagePreferences
  match st.incomplete_events.find key with
  | none => AddETT_unmatched st key ett.EventID text
  | some events =>
    match events.find ett.EventID with
    | none => AddETT_unmatched st key ett.EventID text
    | some ev =>
      let st1 := CompleteEvent c db st atsc_major atsc_minor ev text
      let live := if ev.desc = DescPtr.null then st1.heap_live
        else delete_array st1.heap_live ev.desc
      { st1 with
        heap_live := live
        incomplete_events := st1.incomplete_events.insert key (events.erase ett.EventID) }

/-- One row of a `DVBEventInformationTable`, through its accessors. -/
structure DVBEvent where
  EventID : Nat
  StartTimeUTC : QDateTime
  EndTimeUnixUTC : Nat
  DurationInSeconds : Nat
  Descriptors : List Nat
  DescriptorsLength : Nat
  deriving DecidableEq, Repr

/-- A `DVBEventInformationTable`, through its accessors; `EventCount()` is the
length of `events`. -/
structure DVBEventInformationTable where
  TableID : Nat
  OriginalNetworkID : Nat
  TSID : Nat
  ServiceID : Nat
  Version : Nat
  events : List DVBEvent
  deriving DecidableEq, Repr

/-- The four rule keys looked up by the DVB `AddEIT`, in the order of the
source: network only, stream+network, network+service,
stream+network+service. -/
def fixup_keys (eit : DVBEventInformationTable) : List Nat :=
  [ u32 (u32 eit.OriginalNetworkID <<< 16),
    u64 (u64 (u32 eit.TSID <<< 32) ||| u32 (u32 eit.OriginalNetworkID <<< 16)),
    u32 (u32 (u32 eit.OriginalNetworkID <<< 16) ||| u32 eit.ServiceID),
    u64 (u64 (u64 (u32 eit.TSID <<< 32) ||| u32 (u32 eit.OriginalNetworkID <<< 16))
      ||| u32 eit.ServiceID) ]

/-- The value `fix` computed at the head of the DVB `AddEIT`. -/
def dvb_fix (c : Collab EC) (fixup : QMap Nat) (eit : DVBEventInformationTable) : Nat :=
  u32 ((fixup_keys eit).foldl (fun fix k => fix ||| fixup.value k 0) 0
    ||| c.bits.kFixGenericDVB)

/-- The loop that concatenates the texts of the best extended event
descriptors; a null element resets the description and ends the loop. -/
def extended_description (c : Collab EC) (enc : Bool) :
    List (Option (List Nat)) → QString → QString
  | [], description => description
  | none :: _, _ => some ""
  | some d :: rest, description =>
    extended_description c enc rest (QString.append description (c.extendedText d enc))

/-- Title, subtitle and description as the DVB `AddEIT` extracts them from the
parsed descriptors. -/
def dvb_texts (c : Collab EC) (prefs : QMap Nat) (descCompression fix : Nat)
    (list : desc_list_t) : QString × QString × QString :=
  match c.Find list c.ids.dish_event_name with
  | some dish_event_name =>
    let title : QString :=
      if c.dishHasName dish_event_name then c.dishName dish_event_name descCompression
      else none
    let description : QString :=
      match c.Find list c.ids.dish_event_description with
      | some dedd =>
        if c.dishHasDescription dedd then c.dishDescription dedd descCompression else none
      | none => none
    (title, none, description)
  | none =>
    let enc : Bool := decide (fix &&& c.bits.kEFixPro7Sat ≠ 0)
    let ts : QString × QString :=
      match c.FindBestMatch list c.ids.short_event prefs with
      | some sed => (c.shortEventName sed enc, c.shortText sed enc)
      | none => (none, none)
    let description :=
      extended_description c enc (c.FindBestMatches list c.ids.extended_event prefs) (some "")
    (ts.1, ts.2, description)

/-- Body of the loop of `AddEIT(const DVBEventInformationTable*)` for row `e`. -/
def AddEIT_dvb_event (c : Collab EC) (db : ChannelDB) (eit : DVBEventInformationTable)
    (descCompression fix : Nat) (st : EITHelper EC) (e : DVBEvent) : EITHelper EC :=
  let r0 := c.IsNewEIT st.eitcache eit.OriginalNetworkID eit.TSID eit.ServiceID eit.TableID
    eit.Version e.EventID e.EndTimeUnixUTC
  let st1 := { st with eitcache := r0.2 }
  if r0.1 = false then st1
  else
    let list := c.Parse e.Descriptors e.DescriptorsLength
    let texts := dvb_texts c st1.languagePreferences descCompression fix list
    let components := c.FindAll list c.ids.component
    let hdtv := components.any c.IsHDTV
    let stereo := components.any c.IsStereo
    let subtitled := components.any c.IsReallySubtitled
    let cat : QString × Nat :=
      match c.Find list c.ids.content with
      | some content => (c.contentDescription content, c.contentMythCategory content)
      | none => (none, c.kCategoryNone)
    let r := GetChanID_dvb db st1 eit.ServiceID eit.OriginalNetworkID eit.TSID
    let chanid := r.1
    let st2 := r.2
    if chanid = 0 then st2
    else
      let starttime := c.TimeFix (c.MythUTCToLocal e.StartTimeUTC)
      let endtime := QDateTime.addSecs starttime (toInt32 e.DurationInSeconds)
      { st2 with
        db_events := st2.db_events ++
          [DBEvent.dvb chanid texts.1 texts.2.1 texts.2.2 cat.1 cat.2 starttime endtime fix
            false subtitled stereo hdtv] }

/-- The method `EITHelper::AddEIT(const DVBEventInformationTable*)`.  The four
reads `fixup[...]` go through the non-const `operator[]`. -/
def AddEIT_dvb (c : Collab EC) (db : ChannelDB) (st : EITHelper EC)
    (eit : DVBEventInformationTable) : EITHelper EC :=
  let descCompression := if eit.TableID > 0x80 then 2 else 1
  let fix := dvb_fix c st.fixup eit
  let st0 := { st with fixup := (fixup_keys eit).foldl (fun m k => m.touch k 0) st.fixup }
  eit.events.foldl (AddEIT_dvb_event c db eit descCompression fix) st0

/-- The method `EITHelper::PruneCache`. -/
def PruneCache (c : Collab EC) (st : EITHelper EC) (timestamp : Nat) : EITHelper EC :=
  { st with eitcache := c.PruneOldEntries st.eitcache timestamp }

/-- The method `EITHelper::SetFixup`. -/
def SetFixup (st : EITHelper EC) (atsc_major atsc_minor eitfixup : Nat) : EITHelper EC :=
  { st with fixup := st.fixup.insert (atsc_key atsc_major atsc_minor) (u32 eitfixup) }

/-- Loop of `SetLanguagePreferences`: the map and the next priority. -/
def SetLanguagePreferences_loop (c : Collab EC) :
    List String → QMap Nat × Nat → QMap Nat × Nat
  | [], acc => acc
  | it :: rest, (prefs, priority) =>
    if it ≠ "" then
      let language_key := c.iso639_str3_to_key it
      let canonoical_key := c.iso639_key_to_canonical_key language_key
      SetLanguagePreferences_loop c rest (prefs.insert canonoical_key priority, u32 (priority + 1))
    else
      SetLanguagePreferences_loop c rest (prefs, priority)

/-- The method `EITHelper::SetLanguagePreferences`. -/
def SetLanguagePreferences (c : Collab EC) (st : EITHelper EC) (langPref : List String) :
    EITHelper EC :=
  { st with
    languagePreferences := (SetLanguagePreferences_loop c langPref (st.languagePreferences, 1)).1 }

/-- The method `EITHelper::SetSourceID`. -/
def SetSourceID (st : EITHelper EC) (_sourceid : Nat) : EITHelper EC :=
  { st with sourceid := u32 _sourceid }

/-- The method `EITHelper::GetListSize`. -/
def GetListSize (st : EITHelper EC) : Nat := st.db_events.length

/-- What a `ProcessEvents` call produced: the returned count, the events on
which `UpdateDB` was invoked (in call order, after `eitfixup->Fix`), the engine
state and the state of the store. -/
structure ProcessResult (EC PS : Type) where
  insertCount : Nat
  handed : List DBEvent
  state : EITHelper EC
  store : PS

/-- The `for` loop of `ProcessEvents`, entered with counter `i`, queue
`queue`, running sum `insertCount`, store `ps` and the events handed over so
far.  `UpdateDB ps event 1000` is `event->UpdateDB(query, 1000)`.  Each round
removes the head of the queue, so the recursion is on the queue. -/
def ProcessEvents_loop {PS : Type} (c : Collab EC) (UpdateDB : PS → DBEvent → Nat → Nat × PS) :
    Nat → List DBEvent → Nat → PS → List DBEvent → Nat × List DBEvent × PS × List DBEvent
  | _, [], insertCount, ps, handed => (insertCount, [], ps, handed)
  | i, event :: rest, insertCount, ps, handed =>
    if i < kChunkSize ∧ i < (event :: rest).length then
      let fixed := c.Fix event
      let r := UpdateDB ps fixed 1000
      ProcessEvents_loop c UpdateDB (i + 1) rest (u32 (insertCount + r.1)) r.2
        (handed ++ [fixed])
    else (insertCount, event :: rest, ps, handed)

/-- The method `EITHelper::ProcessEvents`. -/
def ProcessEvents {PS : Type} (c : Collab EC) (UpdateDB : PS → DBEvent → Nat → Nat × PS)
    (ps : PS) (st : EITHelper EC) : ProcessResult EC PS :=
  if st.db_events.length = 0 then
    { insertCount := 0, handed := [], state := st, store := ps }
  else
    let r := ProcessEvents_loop c UpdateDB 0 st.db_events 0 ps []
    { insertCount := if r.1 = 0 then 0 else r.1
      handed := r.2.2.2
      state := { st with db_events := r.2.1 }
      store := r.2.2.1 }

/-- The loop of the destructor: `delete db_events.dequeue()` while
`i < db_events.size()`; returns the events still queued when it ends. -/
def destructor_loop : Nat → List DBEvent → List DBEvent
  | _, [] => []
  | i, event :: rest =>
    if i < (event :: rest).length then destructor_loop (i + 1) rest else event :: rest

/-- The destructor `EITHelper::~EITHelper`: the state of the object's
containers when it has run. -/
def destructor (st : EITHelper EC) : EITHelper EC :=
  { st with db_events := destructor_loop 0 st.db_events }

/-- The assignments of `init_fixup`, in source order (key, value). -/
def init_fixup_rules (b : FixUpBits) : List (Nat × Nat) :=
  [ (256 <<< 16, b.kFixBell), (257 <<< 16, b.kFixBell), (4100 <<< 16, b.kFixBell),
    (4101 <<< 16, b.kFixBell), (4102 <<< 16, b.kFixBell), (4103 <<< 16, b.kFixBell),
    (4104 <<< 16, b.kFixBell), (4105 <<< 16, b.kFixBell), (4106 <<< 16, b.kFixBell),
    (4107 <<< 16, b.kFixBell), (4097 <<< 16, b.kFixBell), (4098 <<< 16, b.kFixBell),
    (9018 <<< 16, b.kFixUK),
    (40999 <<< 16, b.kFixComHem),
    (40999 <<< 16 ||| 1070, b.kFixSubtitle), (40999 <<< 16 ||| 1308, b.kFixSubtitle),
    (40999 <<< 16 ||| 1041, b.kFixSubtitle), (40999 <<< 16 ||| 1306, b.kFixSubtitle),
    (40999 <<< 16 ||| 1307, b.kFixSubtitle), (40999 <<< 16 ||| 1030, b.kFixSubtitle),
    (40999 <<< 16 ||| 1016, b.kFixSubtitle), (40999 <<< 16 ||| 1131, b.kFixSubtitle),
    (40999 <<< 16 ||| 1068, b.kFixSubtitle), (40999 <<< 16 ||| 1069, b.kFixSubtitle),
    (4096 <<< 16, b.kFixAUStar), (4096 <<< 16, b.kFixAUStar),
    (112 <<< 32 ||| 61441 <<< 16, b.kEFixPro7Sat),
    (10000 <<< 32 ||| 61441 <<< 16, b.kEFixPro7Sat),
    (10001 <<< 32 ||| 61441 <<< 16, b.kEFixPro7Sat),
    (10002 <<< 32 ||| 61441 <<< 16, b.kEFixPro7Sat),
    (10003 <<< 32 ||| 61441 <<< 16, b.kEFixPro7Sat),
    (10005 <<< 32 ||| 61441 <<< 16, b.kEFixPro7Sat),
    (10006 <<< 32 ||| 61441 <<< 16, b.kEFixPro7Sat),
    (10009 <<< 32 ||| 61441 <<< 16, b.kEFixPro7Sat),
    (10004 <<< 32 ||| 61441 <<< 16 ||| 50403, b.kEFixPro7Sat),
    (10004 <<< 32 ||| 61441 <<< 16 ||| 53101, b.kEFixPro7Sat),
    (10004 <<< 32 ||| 61441 <<< 16 ||| 53108, b.kEFixPro7Sat),
    (10004 <<< 32 ||| 61441 <<< 16 ||| 53109, b.kEFixPro7Sat),
    (10004 <<< 32 ||| 61441 <<< 16 ||| 53406, b.kEFixPro7Sat),
    (10004 <<< 32 ||| 61441 <<< 16 ||| 53407, b.kEFixPro7Sat),
    (10004 <<< 32 ||| 61441 <<< 16 ||| 53404, b.kEFixPro7Sat),
    (10004 <<< 32 ||| 61441 <<< 16 ||| 53408, b.kEFixPro7Sat),
    (10004 <<< 32 ||| 61441 <<< 16 ||| 53409, b.kEFixPro7Sat),
    (10004 <<< 32 ||| 61441 <<< 16 ||| 53410, b.kEFixPro7Sat),
    (10004 <<< 32 ||| 61441 <<< 16 ||| 53503, b.kEFixPro7Sat),
    (10004 <<< 32 ||| 61441 <<< 16 ||| 53411, b.kEFixPro7Sat),
    (10004 <<< 32 ||| 61441 <<< 16 ||| 53412, b.kEFixPro7Sat),
    (10004 <<< 32 ||| 61441 <<< 16 ||| 53112, b.kEFixPro7Sat),
    (10004 <<< 32 ||| 61441 <<< 16 ||| 53513, b.kEFixPro7Sat),
    (10004 <<< 32 ||| 61441 <<< 16 ||| 53618, b.kEFixPro7Sat),
    (10004 <<< 32 ||| 61441 <<< 16 ||| 53619, b.kEFixPro7Sat),
    (10007 <<< 32 ||| 61441 <<< 16 ||| 53605, b.kEFixPro7Sat),
    (10007 <<< 32 ||| 61441 <<< 16 ||| 53607, b.kEFixPro7Sat),
    (10007 <<< 32 ||| 61441 <<< 16 ||| 53608, b.kEFixPro7Sat),
    (10007 <<< 32 ||| 61441 <<< 16 ||| 53609, b.kEFixPro7Sat),
    (10007 <<< 32 ||| 61441 <<< 16 ||| 53628, b.kEFixPro7Sat),
    (10008 <<< 32 ||| 61441 <<< 16 ||| 53002, b.kEFixPro7Sat),
    (10008 <<< 32 ||| 61441 <<< 16 ||| 53624, b.kEFixPro7Sat),
    (10008 <<< 32 ||| 61441 <<< 16 ||| 53630, b.kEFixPro7Sat),
    (774 <<< 32 ||| 8468 <<< 16 ||| 16392, b.kEFixPro7Sat),
    (772 <<< 32 ||| 8468 <<< 16 ||| 16387, b.kEFixPro7Sat),
    (8707 <<< 32 ||| 8468 <<< 16 ||| 16413, b.kEFixPro7Sat),
    (1082 <<< 32 ||| 1 <<< 16 ||| 20001, b.kEFixPro7Sat),
    (1082 <<< 32 ||| 1 <<< 16 ||| 20002, b.kEFixPro7Sat),
    (1082 <<< 32 ||| 1 <<< 16 ||| 20003, b.kEFixPro7Sat),
    (1082 <<< 32 ||| 1 <<< 16 ||| 20004, b.kEFixPro7Sat),
    (1082 <<< 32 ||| 1 <<< 16 ||| 20005, b.kEFixPro7Sat),
    (133 <<< 16, b.kEFixPro7Sat) ]

/-- The function `init_fixup`. -/
def init_fixup (b : FixUpBits) (fix : QMap Nat) : QMap Nat :=
  (init_fixup_rules b).foldl (fun m r => m.insert r.1 (u32 r.2)) fix

/-- The constructor `EITHelper::EITHelper()`.  `ec` is the fresh `EITCache`
and `offset` the value returned by `calc_eit_utc_offset()`. -/
def new (c : Collab EC) (ec : EC) (offset : Int) : EITHelper EC :=
  { eitcache := ec
    gps_offset := -1 * c.GPS_LEAP_SECONDS
    utc_offset := offset
    fixup := init_fixup c.bits []
    languagePreferences := []
    sourceid := 0
    srv_to_chanid := []
    db_events := []
    incomplete_events := []
    unmatched_etts := []
    heap_live := []
    heap_next := 0
    db_queries := [] }

/-- One call of a method of the engine, from state `st` to state `st'`.  The
content `db` of the store, and the persistence layer behind `UpdateDB`, may
differ from call to call. -/
inductive Step (c : Collab EC) : EITHelper EC → EITHelper EC → Prop
  | setFixup (st) (atsc_major atsc_minor eitfixup : Nat) :
      Step c st (SetFixup st atsc_major atsc_minor eitfixup)
  | setLanguagePreferences (st) (langPref : List String) :
      Step c st (SetLanguagePreferences c st langPref)
  | setSourceID (st) (sourceid : Nat) : Step c st (SetSourceID st sourceid)
  | addEIT (st) (db : ChannelDB) (atsc_major atsc_minor : Nat) (eit : EventInformationTable) :
      Step c st (AddEIT c db st atsc_major atsc_minor eit)
  | addETT (st) (db : ChannelDB) (atsc_major atsc_minor : Nat) (ett : ExtendedTextTable) :
      Step c st (AddETT c db st atsc_major atsc_minor ett)
  | addEIT_dvb (st) (db : ChannelDB) (eit : DVBEventInformationTable) :
      Step c st (AddEIT_dvb c db st eit)
  | pruneCache (st) (timestamp : Nat) : Step c st (PruneCache c st timestamp)
  | processEvents (st) {PS : Type} (UpdateDB : PS → DBEvent → Nat → Nat × PS) (ps : PS) :
      Step c st (ProcessEvents c UpdateDB ps st).state
  | getChanID (st) (db : ChannelDB) (atsc_major atsc_minor : Nat) :
      Step c st (GetChanID db st atsc_major atsc_minor).2
  | getChanID_dvb (st) (db : ChannelDB) (serviceid networkid tsid : Nat) :
      Step c st (GetChanID_dvb db st serviceid networkid tsid).2

/-- States the engine can be in: those obtained from a freshly constructed
object by any number of method calls. -/
def Reachable (c : Collab EC) (st : EITHelper EC) : Prop :=
  ∃ ec offset, Relation.ReflTransGen (Step c) (new c ec offset) st

/-- State `st'` is obtained from `st` by any number of method calls none of
which changes the source id. -/
def Later (c : Collab EC) (st st' : EITHelper EC) : Prop :=
  Relation.ReflTransGen (fun a b => Step c a b ∧ b.sourceid = a.sourceid) st st'

/-- A key of the channel resolver, in either of its two schemas. -/
inductive ChanKey where
  | atsc (atsc_major atsc_minor : Nat)
  | dvb (serviceid networkid tsid : Nat)
  deriving DecidableEq, Repr

/-- The cache key `GetChanID` builds for a resolver key. -/
def ChanKey.cache_key (sourceid : Nat) : ChanKey → Nat
  | .atsc atsc_major atsc_minor => chan_key sourceid atsc_major atsc_minor
  | .dvb serviceid networkid tsid => chan_key_dvb sourceid serviceid networkid tsid

/-- The statement `get_chan_id_from_db` sends for a resolver key. -/
def ChanKey.query (sourceid : Nat) : ChanKey → DBQuery
  | .atsc atsc_major atsc_minor => .atsc sourceid atsc_major atsc_minor
  | .dvb serviceid networkid tsid => .dvb sourceid serviceid networkid tsid

/-- The overload of `GetChanID` that matches the shape of the key. -/
def GetChanID_key (db : ChannelDB) (st : EITHelper EC) : ChanKey → Nat × EITHelper EC
  | .atsc atsc_major atsc_minor => GetChanID db st atsc_major atsc_minor
  | .dvb serviceid networkid tsid => GetChanID_dvb db st serviceid networkid tsid

/-- A sequence of `GetChanID` calls, each with the store content of its time. -/
def GetChanID_seq : List (ChannelDB × ChanKey) → EITHelper EC → EITHelper EC
  | [], st => st
  | (db, k) :: calls, st => GetChanID_seq calls (GetChanID_key db st k).2

/-- A non-zero value of type `int`. -/
def IsId (v : Int) : Prop := v ≠ 0 ∧ -(2 ^ 31) ≤ v ∧ v < 2 ^ 31

/-- Cache `b` extends cache `a`: every entry of `a` is in `b` with the same
value, and the entries of `b` that are not in `a` hold a non-zero `int`. -/
def CacheExt (a b : QMap Int) : Prop :=
  ∀ k, (∀ v, a.find k = some v → b.find k = some v) ∧
    (a.find k = none → ∀ v, b.find k = some v → IsId v)

/-- Pending primary fragment stored under (channel key, event id). -/
def pendingEIT (st : EITHelper EC) (key id : Nat) : Option ATSCEvent :=
  QMap.find2 st.incomplete_events key id

/-- Unmatched extended text stored under (channel key, event id). -/
def pendingETT (st : EITHelper EC) (key id : Nat) : Option QString :=
  QMap.find2 st.unmatched_etts key id

/-! ## The configured UTC offset -/

/-- The `QString` method `left(n)`, on the characters of the string. -/
def QString_left (s : List Char) (n : Nat) : List Char := s.take n

/-- The `QString` method `mid(index, len)`. -/
def QString_mid (s : List Char) (index len : Nat) : List Char := (s.drop index).take len

/-- The `QString` method `right(n)`: the last `n` characters, the whole string
when it is shorter. -/
def QString_right (s : List Char) (n : Nat) : List Char := s.drop (s.length - n)

/-- Value of a string of decimal digits, `none` when a character is not a
digit or the string is empty. -/
def parseDigits : List Char → Option Nat
  | [] => none
  | cs => cs.foldl
      (fun acc ch =>
        match acc with
        | none => none
        | some n => if '0' ≤ ch ∧ ch ≤ '9' then some (10 * n + (ch.toNat - 48)) else none)
      (some 0)

/-- The `QString` method `toInt()`: the value of an optionally signed decimal
number, 0 when the string is not one. -/
def QString_toInt : List Char → Int
  | '-' :: cs => match parseDigits cs with
    | some n => -(n : Int)
    | none => 0
  | '+' :: cs => match parseDigits cs with
    | some n => (n : Int)
    | none => 0
  | cs => match parseDigits cs with
    | some n => (n : Int)
    | none => 0

/-- The function `calc_eit_utc_offset`.  `config_offset` is the value of the
setting `EITTimeOffset` and `measured` the value of `MythSecsTo(utc, loc)`,
the local time minus UTC in seconds.  The operator `%` of C++ truncates
towards zero (`Int.tmod`). -/
def calc_eit_utc_offset (config_offset : String) (measured : Int) : Int :=
  if config_offset = "Auto" then
    let utc_offset := measured
    let off := Int.tmod utc_offset 60
    let utc_offset1 := if |off| < 10 then utc_offset - off else utc_offset
    let utc_offset2 := if off < -50 ∧ off > -60 then utc_offset1 - (60 + off) else utc_offset1
    let utc_offset3 := if off > 50 ∧ off < 60 then utc_offset2 + (60 - off) else utc_offset2
    utc_offset3
  else if config_offset = "None" then 0
  else
    let sign : Int := if QString_left config_offset.data 1 = ['-'] then -1 else 1
    let hours := QString_toInt (QString_mid config_offset.data 1 2)
    let minutes := QString_toInt (QString_right config_offset.data 2)
    sign * (hours * 60 * 60) + (minutes * 60)

/-- The offset a string `sign HH .. MM` denotes: the sign applied to hours and
minutes alike. -/
def denoted_offset (negative : Bool) (hours minutes : Nat) : Int :=
  (if negative then -1 else 1) * ((hours : Int) * 3600 + (minutes : Int) * 60)

/-! ## Traces used to state the claims -/

/-- The counts that successive `UpdateDB` calls report for the events of a
list, the first call being made on store `ps`. -/
def UpdateDB_counts {PS : Type} (UpdateDB : PS → DBEvent → Nat → Nat × PS) :
    PS → List DBEvent → List Nat
  | _, [] => []
  | ps, e :: es => (UpdateDB ps e 1000).1 :: UpdateDB_counts UpdateDB (UpdateDB ps e 1000).2 es

/-- The store after successive `UpdateDB` calls on the events of a list. -/
def UpdateDB_store {PS : Type} (UpdateDB : PS → DBEvent → Nat → Nat × PS) :
    PS → List DBEvent → PS
  | ps, [] => ps
  | ps, e :: es => UpdateDB_store UpdateDB (UpdateDB ps e 1000).2 es

/-- The canonical language keys of the non-empty entries of a preference
list, in list order. -/
def canonical_keys (c : Collab EC) (langPref : List String) : List Nat :=
  (langPref.filter (fun it => decide (it ≠ ""))).map
    (fun it => c.iso639_key_to_canonical_key (c.iso639_str3_to_key it))

/-- The assignments `languagePreferences[key] = priority++` for a list of
keys, starting with priority `priority`. -/
def assign_priorities : List Nat → QMap Nat → Nat → QMap Nat
  | [], prefs, _ => prefs
  | key :: keys, prefs, priority =>
    assign_priorities keys (prefs.insert key priority) (u32 (priority + 1))

/-- The rule-table value read by `fixup[key]`: 0 where the table has no rule. -/
def rule (fixup : QMap Nat) (key : Nat) : Nat := fixup.value key 0

/-- The start time `CompleteEvent` gives an event: the GPS start time of the
fragment moved to the Unix epoch and the configured offsets, as a civil time,
after `EITFixUp::TimeFix`. -/
def atsc_starttime (c : Collab EC) (st : EITHelper EC) (event : ATSCEvent) : QDateTime :=
  c.TimeFix
    (if c.gmtime_r_ok ((u32 event.start_time : Int) +
        (c.secs_Between_1Jan1970_6Jan1980 + st.gps_offset + st.utc_offset)) then
      (u32 event.start_time : Int) +
        (c.secs_Between_1Jan1970_6Jan1980 + st.gps_offset + st.utc_offset)
    else
      c.setTime_t_local ((u32 event.start_time : Int) +
        (c.secs_Between_1Jan1970_6Jan1980 + st.gps_offset + st.utc_offset) - st.utc_offset))

/-- The start time the DVB `AddEIT` gives an event. -/
def dvb_starttime (c : Collab EC) (e : DVBEvent) : QDateTime :=
  c.TimeFix (c.MythUTCToLocal e.StartTimeUTC)

/-- The keys of the assignments of `init_fixup`, in source order. -/
def init_fixup_keys : List Nat :=
  (init_fixup_rules
    { kFixBell := 0, kFixUK := 0, kFixComHem := 0, kFixSubtitle := 0, kFixAUStar := 0,
      kEFixPro7Sat := 0, kFixGenericDVB := 0 }).map Prod.fst

/-- Every queued event has a non-zero channel id. -/
def QueueOK (q : List DBEvent) : Prop := ∀ ev ∈ q, ev.chanid ≠ 0

/-- No (channel key, event id) is present both in the pending-primary map and
in the unmatched-ETT map. -/
def PendingDisjoint (st : EITHelper EC) : Prop :=
  ∀ key id, pendingEIT st key id = none ∨ pendingETT st key id = none

/-- States obtained from a freshly constructed object by method calls none of
which is a `SetFixup` call for a channel whose key `(atsc_major << 16) |
atsc_minor` is `key`. -/
def ReachableWithoutSetFixup (c : Collab EC) (key : Nat) (st : EITHelper EC) : Prop :=
  ∃ ec offset,
    Relation.ReflTransGen
      (fun a b => Step c a b ∧
        ¬ ∃ atsc_major atsc_minor eitfixup,
          atsc_key atsc_major atsc_minor = key ∧ b = SetFixup a atsc_major atsc_minor eitfixup)
      (new c ec offset) st

/-- Number of rounds of a loop `for (i = ...; i < limit && i < queue.size();
i++)` whose body dequeues one entry, entered with counter `i` and `n` queued
entries. -/
def drain_rounds (limit i n : Nat) : Nat := min (limit - i) ((n - i + 1) / 2)

end EITHelper

/-! ## A concrete instance used to evaluate the definitions -/

namespace Sample

/-- Descriptor tags of the MPEG/ATSC/DVB standards. -/
def ids : DescriptorID :=
  { caption_service := 0x86, dish_event_name := 0x91, dish_event_description := 0x92,
    short_event := 0x4D, extended_event := 0x4E, component := 0x50, content := 0x54 }

/-- Seven distinct fix-up bits. -/
def bits : FixUpBits :=
  { kFixGenericDVB := 0x01, kFixBell := 0x02, kFixUK := 0x04, kFixComHem := 0x10,
    kFixSubtitle := 0x20, kFixAUStar := 0x40, kEFixPro7Sat := 0x100 }

/-- Collaborators with the simplest behaviour: an `EITCache` that holds
nothing and reports every event as new, decoders that find no descriptor, a
`GetBestMatch` that returns the first variant, identity time fixes. -/
def collab : Collab Unit :=
  { secs_Between_1Jan1970_6Jan1980 := 315964800
    GPS_LEAP_SECONDS := 14
    ids := ids
    bits := bits
    kCategoryNone := 0
    gmtime_r_ok := fun _ => true
    setTime_t_local := fun t => t
    MythUTCToLocal := fun t => t
    TimeFix := fun t => t
    Fix := fun e => e
    GetBestMatch := fun m _ => m.head?.map Prod.snd
    iso639_str3_to_key := fun s => s.data.foldl (fun key ch => key * 256 + ch.toNat) 0
    iso639_key_to_canonical_key := fun k => k
    IsNewEIT := fun ec _ _ _ _ _ _ _ => (true, ec)
    PruneOldEntries := fun ec _ => ec
    Parse := fun _ _ => []
    Find := fun _ _ => none
    FindAll := fun _ _ => []
    FindBestMatch := fun _ _ _ => none
    FindBestMatches := fun _ _ _ => []
    dishHasName := fun _ => false
    dishName := fun _ _ => none
    dishHasDescription := fun _ => false
    dishDescription := fun _ _ => none
    shortEventName := fun _ _ => none
    shortText := fun _ _ => none
    extendedText := fun _ _ => none
    IsHDTV := fun _ => false
    IsStereo := fun _ => false
    IsReallySubtitled := fun _ => false
    contentDescription := fun _ => none
    contentMythCategory := fun _ => 0 }

/-- A freshly constructed engine. -/
def fresh : EITHelper Unit := EITHelper.new collab () 0

/-- A store in which every channel has id `chanid` and admission flag `flag`. -/
def store (chanid : Fin (2 ^ 32)) (flag : Bool) : ChannelDB :=
  fun _ => .rows [(chanid, flag)]

/-- A primary fragment: event 7, duration 1800 s, ETM flag `etm`. -/
def eit (etm : Nat) : EITHelper.EITEvent :=
  { EventID := 7, StartTimeRaw := 1000000000, LengthInSeconds := 1800, ETMLocation := etm,
    title := [(0, "News")], Descriptors := [], DescriptorsLength := 0 }

/-- The extended-text fragment of event 7. -/
def ett : EITHelper.ExtendedTextTable :=
  { EventID := 7, ExtendedTextMessage := [(0, "Synopsis")] }

/-- A table of 25 primary fragments, events 0 to 24, none of which expects
extended text. -/
def eit25 : EITHelper.EventInformationTable :=
  (List.range 25).map (fun i => { eit 0 with EventID := i })

/-- The engine after the 25 fragments of `eit25` were submitted for channel
5.1 of a store that admits it as channel 1001. -/
def engine25 : EITHelper Unit :=
  EITHelper.AddEIT collab (store 1001 true) fresh 5 1 eit25

/-- The engine after channel 5.1 was resolved against a store that admits it
under the channel id `2^31`. -/
def engineBigId : EITHelper Unit :=
  (EITHelper.GetChanID (store 2147483648 true) fresh 5 1).2

/-- The engine after channel 5.1 was resolved against a store that admits it
as channel 1001. -/
def engineResolved : EITHelper Unit :=
  (EITHelper.GetChanID (store 1001 true) fresh 5 1).2

/-- The collaborators of `collab` with a duplicate suppressor that reports
every event as already seen. -/
def collabNoNew : Collab Unit :=
  { collab with IsNewEIT := fun ec _ _ _ _ _ _ _ => (false, ec) }

/-- A primary fragment of duration 0 that expects no extended text. -/
def eitZeroLength : EITHelper.EITEvent :=
  { eit 0 with LengthInSeconds := 0 }

/-- A DVB event of half an hour. -/
def dvbEvent : EITHelper.DVBEvent :=
  { EventID := 7, StartTimeUTC := 1000000000, EndTimeUnixUTC := 1000001800,
    DurationInSeconds := 1800, Descriptors := [], DescriptorsLength := 0 }

/-- A DVB table of network 40999, stream 5, service 1070 with one event. -/
def dvbTable : EITHelper.DVBEventInformationTable :=
  { TableID := 0x4E, OriginalNetworkID := 40999, TSID := 5, ServiceID := 1070, Version := 1,
    events := [dvbEvent] }

/-- The engine after two fragments that expect no extended text were
submitted for channel 5.1: two completed events are queued. -/
def engine2 : EITHelper Unit :=
  EITHelper.AddEIT collab (store 1001 true) fresh 5 1 [eit 0, eit 0]

/-- A persistence layer that inserts every event it is given. -/
def UpdateDB : Unit → DBEvent → Nat → Nat × Unit := fun ps _ _ => (1, ps)

/-- The engine after an unmatched extended text for event 7 of channel 5.1
was submitted. -/
def engineWithText : EITHelper Unit :=
  EITHelper.AddETT collab (store 1001 true) fresh 5 1 ett

end Sample

/-! ## Lemmas on `QMap` -/

namespace QMap

variable {V : Type}

theorem find_insert_self (m : QMap V) (k : Nat) (v : V) : find (insert m k v) k = some v := by
  induction m with
  | nil => simp [insert, find]
  | cons p m ih =>
    obtain ⟨k', v'⟩ := p
    by_cases h : k' = k
    · simp [insert, find, h]
    · simp [insert, find, h, ih]

theorem find_insert_ne (m : QMap V) {k k' : Nat} (v : V) (h : k ≠ k') :
    find (insert m k v) k' = find m k' := by
  induction m with
  | nil => simp [insert, find, h]
  | cons p m ih =>
    obtain ⟨k0, v0⟩ := p
    by_cases h0 : k0 = k
    · subst h0
      simp [insert, find, h]
    · simp [insert, find, h0, ih]

theorem find_erase_self (m : QMap V) (k : Nat) : find (erase m k) k = none := by
  induction m with
  | nil => simp [erase, find]
  | cons p m ih =>
    obtain ⟨k0, v0⟩ := p
    by_cases h0 : k0 = k
    · simpa [erase, List.filter, h0] using ih
    · simpa [erase, List.filter, h0, find] using ih

theorem find_erase_ne (m : QMap V) {k k' : Nat} (h : k ≠ k') :
    find (erase m k) k' = find m k' := by
  induction m with
  | nil => simp [erase, find]
  | cons p m ih =>
    obtain ⟨k0, v0⟩ := p
    by_cases h0 : k0 = k
    · subst h0
      simpa [erase, List.filter, find, h] using ih
    · by_cases h1 : k0 = k'
      · subst h1
        simp [erase, List.filter, find, h0]
      · simpa [erase, List.filter, find, h0, h1] using ih

theorem find_touch_self (m : QMap V) (k : Nat) (d : V) :
    find (touch m k d) k = some (value m k d) := by
  unfold touch value
  cases h : find m k with
  | none => simp [find_insert_self]
  | some v => simp [h]

theorem find_touch_ne (m : QMap V) {k k' : Nat} (d : V) (h : k ≠ k') :
    find (touch m k d) k' = find m k' := by
  unfold touch
  cases h0 : find m k with
  | none => simp [find_insert_ne m d h]
  | some v => rfl

theorem find2_value (m : QMap (QMap V)) (key id : Nat) :
    find (value m key []) id = find2 m key id := by
  unfold value find2
  cases find m key <;> simp [find]

theorem find2_touch (m : QMap (QMap V)) (key key' id : Nat) :
    find2 (touch m key []) key' id = find2 m key' id := by
  by_cases h : key = key'
  · subst h
    unfold find2
    rw [find_touch_self]
    exact find2_value m key id
  · unfold find2
    rw [find_touch_ne m [] h]

theorem find2_insert_same (m : QMap (QMap V)) (key id : Nat) (inner : QMap V) :
    find2 (insert m key inner) key id = find inner id := by
  unfold find2
  rw [find_insert_self]
  rfl

theorem find2_insert_other (m : QMap (QMap V)) {key key' : Nat} (id : Nat) (inner : QMap V)
    (h : key ≠ key') : find2 (insert m key inner) key' id = find2 m key' id := by
  unfold find2
  rw [find_insert_ne m inner h]

end QMap

/-! ## Integer conversions -/

theorem chanid_of_result_lt (r : QueryResult) : chanid_of_result r < 2 ^ 32 := by
  unfold chanid_of_result
  split
  · norm_num
  · norm_num
  · rename_i chanid flag _
    split
    · exact chanid.isLt
    · norm_num

theorem toInt32_isId {n : Nat} (h0 : n ≠ 0) (h : n < 2 ^ 32) : EITHelper.IsId (toInt32 n) := by
  unfold EITHelper.IsId toInt32 u32
  rw [Nat.mod_eq_of_lt h]
  split <;> omega

theorem toInt32_of_lt {n : Nat} (h : n < 2 ^ 31) : toInt32 n = (n : Int) := by
  unfold toInt32 u32
  have h2 : n % 2 ^ 32 = n := Nat.mod_eq_of_lt (by omega)
  rw [h2, if_pos h]

theorem ofInt32_max_natCast {n : Nat} (h : n < 2 ^ 32) : ofInt32 (max (n : Int) 0) = n := by
  unfold ofInt32
  have h1 : max (n : Int) 0 = (n : Int) := max_eq_left (by omega)
  rw [h1]
  have h2 : (n : Int) % 2 ^ 32 = (n : Int) := Int.emod_eq_of_lt (by omega) (by omega)
  rw [h2]
  simp

theorem ofInt32_max_lt (v : Int) (h : v < 2 ^ 31) : ofInt32 (max v 0) < 2 ^ 31 := by
  unfold ofInt32
  have h0 : (0 : Int) ≤ max v 0 := le_max_right _ _
  have h1 : max v 0 < 2 ^ 31 := max_lt h (by norm_num)
  have h2 : (max v 0) % 2 ^ 32 = max v 0 := Int.emod_eq_of_lt h0 (by omega)
  rw [h2]
  omega

/-! ## The channel resolver -/

namespace EITHelper

variable {EC : Type}

theorem CacheExt_refl (a : QMap Int) : CacheExt a a := by
  intro k
  refine ⟨fun _ h => h, fun h v hv => ?_⟩
  rw [h] at hv
  cases hv

theorem CacheExt_trans {a b d : QMap Int} (h1 : CacheExt a b) (h2 : CacheExt b d) :
    CacheExt a d := by
  intro k
  refine ⟨fun v hv => (h2 k).1 v ((h1 k).1 v hv), fun hn v hv => ?_⟩
  cases hb : QMap.find b k with
  | none => exact (h2 k).2 hb v hv
  | some w =>
    have hw := (h2 k).1 w hb
    rw [hw] at hv
    have e : w = v := Option.some.inj hv
    rw [← e]
    exact (h1 k).2 hn w hb

theorem CacheExt_insert (a : QMap Int) (k : Nat) (v : Int) (hk : QMap.find a k = none)
    (hv : IsId v) : CacheExt a (QMap.insert a k v) := by
  intro k'
  by_cases h : k = k'
  · subst h
    refine ⟨fun w hw => ?_, fun _ w hw => ?_⟩
    · rw [hk] at hw
      cases hw
    · rw [QMap.find_insert_self] at hw
      have e : v = w := Option.some.inj hw
      rw [← e]
      exact hv
  · rw [QMap.find_insert_ne a v h]
    refine ⟨fun _ hw => hw, fun hn w hw => ?_⟩
    rw [hn] at hw
    cases hw

theorem GetChanID_key_hit (db : ChannelDB) (st : EITHelper EC) (k : ChanKey) (v : Int)
    (h : st.srv_to_chanid.find (k.cache_key st.sourceid) = some v) :
    GetChanID_key db st k = (ofInt32 (max v 0), st) := by
  cases k <;> simp only [GetChanID_key, GetChanID, GetChanID_dvb, ChanKey.cache_key] at h ⊢ <;>
    rw [h]

theorem GetChanID_key_miss (db : ChannelDB) (st : EITHelper EC) (k : ChanKey)
    (h : st.srv_to_chanid.find (k.cache_key st.sourceid) = none) :
    GetChanID_key db st k =
      (chanid_of_result (db (k.query st.sourceid)),
        { st with
          db_queries := st.db_queries ++ [k.query st.sourceid]
          srv_to_chanid :=
            if chanid_of_result (db (k.query st.sourceid)) ≠ 0 then
              st.srv_to_chanid.insert (k.cache_key st.sourceid)
                (toInt32 (chanid_of_result (db (k.query st.sourceid))))
            else st.srv_to_chanid }) := by
  cases k <;>
    simp only [GetChanID_key, GetChanID, GetChanID_dvb, ChanKey.cache_key, ChanKey.query,
      get_chan_id_from_db, get_chan_id_from_db_dvb] at h ⊢ <;>
    rw [h] <;> simp only <;> split <;> rfl

theorem GetChanID_key_sourceid (db : ChannelDB) (st : EITHelper EC) (k : ChanKey) :
    (GetChanID_key db st k).2.sourceid = st.sourceid := by
  cases h : st.srv_to_chanid.find (k.cache_key st.sourceid) with
  | none => rw [GetChanID_key_miss db st k h]
  | some v => rw [GetChanID_key_hit db st k v h]

theorem GetChanID_key_cacheExt (db : ChannelDB) (st : EITHelper EC) (k : ChanKey) :
    CacheExt st.srv_to_chanid (GetChanID_key db st k).2.srv_to_chanid := by
  cases h : st.srv_to_chanid.find (k.cache_key st.sourceid) with
  | some v =>
    rw [GetChanID_key_hit db st k v h]
    exact CacheExt_refl _
  | none =>
    rw [GetChanID_key_miss db st k h]
    simp only
    split
    · rename_i hne
      exact CacheExt_insert _ _ _ h (toInt32_isId hne (chanid_of_result_lt _))
    · exact CacheExt_refl _

theorem GetChanID_cacheExt (db : ChannelDB) (st : EITHelper EC) (atsc_major atsc_minor : Nat) :
    CacheExt st.srv_to_chanid (GetChanID db st atsc_major atsc_minor).2.srv_to_chanid :=
  GetChanID_key_cacheExt db st (.atsc atsc_major atsc_minor)

theorem GetChanID_dvb_cacheExt (db : ChannelDB) (st : EITHelper EC)
    (serviceid networkid tsid : Nat) :
    CacheExt st.srv_to_chanid (GetChanID_dvb db st serviceid networkid tsid).2.srv_to_chanid :=
  GetChanID_key_cacheExt db st (.dvb serviceid networkid tsid)

/-- What `GetChanID` leaves alone: every member but the cache and the log. -/
theorem GetChanID_frame (db : ChannelDB) (st : EITHelper EC) (atsc_major atsc_minor : Nat) :
    (GetChanID db st atsc_major atsc_minor).2.sourceid = st.sourceid ∧
    (GetChanID db st atsc_major atsc_minor).2.db_events = st.db_events ∧
    (GetChanID db st atsc_major atsc_minor).2.incomplete_events = st.incomplete_events ∧
    (GetChanID db st atsc_major atsc_minor).2.unmatched_etts = st.unmatched_etts ∧
    (GetChanID db st atsc_major atsc_minor).2.languagePreferences = st.languagePreferences ∧
    (GetChanID db st atsc_major atsc_minor).2.heap_live = st.heap_live ∧
    (GetChanID db st atsc_major atsc_minor).2.heap_next = st.heap_next ∧
    (GetChanID db st atsc_major atsc_minor).2.fixup = st.fixup := by
  unfold GetChanID
  simp only
  split
  · simp
  · split <;> simp

theorem GetChanID_dvb_frame (db : ChannelDB) (st : EITHelper EC)
    (serviceid networkid tsid : Nat) :
    (GetChanID_dvb db st serviceid networkid tsid).2.sourceid = st.sourceid ∧
    (GetChanID_dvb db st serviceid networkid tsid).2.db_events = st.db_events ∧
    (GetChanID_dvb db st serviceid networkid tsid).2.incomplete_events = st.incomplete_events ∧
    (GetChanID_dvb db st serviceid networkid tsid).2.unmatched_etts = st.unmatched_etts := by
  unfold GetChanID_dvb
  simp only
  split
  · simp
  · split <;> simp

/-! ## `CompleteEvent` -/

theorem CompleteEvent_cacheExt (c : Collab EC) (db : ChannelDB) (st : EITHelper EC)
    (atsc_major atsc_minor : Nat) (event : ATSCEvent) (ett : QString) :
    CacheExt st.srv_to_chanid
      (CompleteEvent c db st atsc_major atsc_minor event ett).srv_to_chanid := by
  unfold CompleteEvent
  simp only
  split
  · exact GetChanID_cacheExt db st atsc_major atsc_minor
  · exact GetChanID_cacheExt db st atsc_major atsc_minor

/-- What `CompleteEvent` leaves alone. -/
theorem CompleteEvent_frame (c : Collab EC) (db : ChannelDB) (st : EITHelper EC)
    (atsc_major atsc_minor : Nat) (event : ATSCEvent) (ett : QString) :
    (CompleteEvent c db st atsc_major atsc_minor event ett).sourceid = st.sourceid ∧
    (CompleteEvent c db st atsc_major atsc_minor event ett).incomplete_events
      = st.incomplete_events ∧
    (CompleteEvent c db st atsc_major atsc_minor event ett).unmatched_etts
      = st.unmatched_etts ∧
    (CompleteEvent c db st atsc_major atsc_minor event ett).languagePreferences
      = st.languagePreferences ∧
    (CompleteEvent c db st atsc_major atsc_minor event ett).heap_live = st.heap_live ∧
    (CompleteEvent c db st atsc_major atsc_minor event ett).heap_next = st.heap_next := by
  have h := GetChanID_frame db st atsc_major atsc_minor
  unfold CompleteEvent
  simp only
  split
  · exact ⟨h.1, h.2.2.1, h.2.2.2.1, h.2.2.2.2.1, h.2.2.2.2.2.1, h.2.2.2.2.2.2.1⟩
  · exact ⟨h.1, h.2.2.1, h.2.2.2.1, h.2.2.2.2.1, h.2.2.2.2.2.1, h.2.2.2.2.2.2.1⟩

/-- A fragment whose channel resolves to 0 is dropped. -/
theorem CompleteEvent_dropped (c : Collab EC) (db : ChannelDB) (st : EITHelper EC)
    (atsc_major atsc_minor : Nat) (event : ATSCEvent) (ett : QString)
    (h : (GetChanID db st atsc_major atsc_minor).1 = 0) :
    (CompleteEvent c db st atsc_major atsc_minor event ett).db_events = st.db_events := by
  unfold CompleteEvent
  simp only
  rw [if_pos h]
  exact (GetChanID_frame db st atsc_major atsc_minor).2.1

/-- A fragment whose channel resolves to a non-zero id yields exactly one new
event, at the end of the queue, carrying that id, the fragment's title and the
extended text given to `CompleteEvent`. -/
theorem CompleteEvent_enqueued (c : Collab EC) (db : ChannelDB) (st : EITHelper EC)
    (atsc_major atsc_minor : Nat) (event : ATSCEvent) (ett : QString)
    (h : (GetChanID db st atsc_major atsc_minor).1 ≠ 0) :
    ∃ ev : DBEvent,
      (CompleteEvent c db st atsc_major atsc_minor event ett).db_events = st.db_events ++ [ev] ∧
      ev.ett = ett ∧ ev.chanid = (GetChanID db st atsc_major atsc_minor).1 := by
  unfold CompleteEvent
  simp only
  rw [if_neg h]
  rw [(GetChanID_frame db st atsc_major atsc_minor).2.1]
  exact ⟨_, rfl, rfl, rfl⟩

theorem GetChanID_fst_congr (db : ChannelDB) (a b : EITHelper EC) (atsc_major atsc_minor : Nat)
    (h1 : a.srv_to_chanid = b.srv_to_chanid) (h2 : a.sourceid = b.sourceid) :
    (GetChanID db a atsc_major atsc_minor).1 = (GetChanID db b atsc_major atsc_minor).1 := by
  unfold GetChanID
  simp only [h1, h2]
  cases b.srv_to_chanid.find (chan_key b.sourceid atsc_major atsc_minor) with
  | some v => rfl
  | none =>
    simp only
    split <;> rfl

/-! ## Every method extends the cache -/

theorem foldl_cacheExt {α : Type} (f : EITHelper EC → α → EITHelper EC)
    (hf : ∀ s a, CacheExt s.srv_to_chanid (f s a).srv_to_chanid) :
    ∀ (l : List α) (s : EITHelper EC), CacheExt s.srv_to_chanid (l.foldl f s).srv_to_chanid := by
  intro l
  induction l with
  | nil => intro s; exact CacheExt_refl _
  | cons a l ih => intro s; exact CacheExt_trans (hf s a) (ih (f s a))

theorem AddEIT_event_cacheExt (c : Collab EC) (db : ChannelDB) (atsc_major atsc_minor : Nat)
    (s : EITHelper EC) (e : EITEvent) :
    CacheExt s.srv_to_chanid (AddEIT_event c db atsc_major atsc_minor s e).srv_to_chanid := by
  unfold AddEIT_event
  simp only
  split
  · exact CompleteEvent_cacheExt c db s atsc_major atsc_minor _ _
  · split
    · exact CompleteEvent_cacheExt c db s atsc_major atsc_minor _ _
    · exact CacheExt_refl _

theorem AddEIT_cacheExt (c : Collab EC) (db : ChannelDB) (st : EITHelper EC)
    (atsc_major atsc_minor : Nat) (eit : EventInformationTable) :
    CacheExt st.srv_to_chanid (AddEIT c db st atsc_major atsc_minor eit).srv_to_chanid :=
  foldl_cacheExt _ (AddEIT_event_cacheExt c db atsc_major atsc_minor) eit
    (AddEIT_entry st atsc_major atsc_minor)

theorem AddETT_cacheExt (c : Collab EC) (db : ChannelDB) (st : EITHelper EC)
    (atsc_major atsc_minor : Nat) (t : ExtendedTextTable) :
    CacheExt st.srv_to_chanid (AddETT c db st atsc_major atsc_minor t).srv_to_chanid := by
  have hu : ∀ key id text, CacheExt st.srv_to_chanid
      (AddETT_unmatched st key id text).srv_to_chanid := by
    intro key id text
    unfold AddETT_unmatched
    simp only
    split <;> exact CacheExt_refl _
  unfold AddETT
  simp only
  split
  · exact hu _ _ _
  · split
    · exact hu _ _ _
    · exact CompleteEvent_cacheExt c db st atsc_major atsc_minor _ _

theorem AddEIT_dvb_event_cacheExt (c : Collab EC) (db : ChannelDB)
    (eit : DVBEventInformationTable) (descCompression fix : Nat) (s : EITHelper EC)
    (e : DVBEvent) :
    CacheExt s.srv_to_chanid
      (AddEIT_dvb_event c db eit descCompression fix s e).srv_to_chanid := by
  have hg := GetChanID_dvb_cacheExt db
    { s with eitcache := (c.IsNewEIT s.eitcache eit.OriginalNetworkID eit.TSID eit.ServiceID
        eit.TableID eit.Version e.EventID e.EndTimeUnixUTC).2 }
    eit.ServiceID eit.OriginalNetworkID eit.TSID
  unfold AddEIT_dvb_event
  simp only
  split
  · exact CacheExt_refl _
  · split
    · exact hg
    · exact hg

theorem AddEIT_dvb_cacheExt (c : Collab EC) (db : ChannelDB) (st : EITHelper EC)
    (eit : DVBEventInformationTable) :
    CacheExt st.srv_to_chanid (AddEIT_dvb c db st eit).srv_to_chanid := by
  exact foldl_cacheExt _
    (AddEIT_dvb_event_cacheExt c db eit (if eit.TableID > 0x80 then 2 else 1)
      (dvb_fix c st.fixup eit)) eit.events
    { st with fixup := (fixup_keys eit).foldl (fun m k => m.touch k 0) st.fixup }

theorem ProcessEvents_cache {PS : Type} (c : Collab EC)
    (UpdateDB : PS → DBEvent → Nat → Nat × PS) (ps : PS) (st : EITHelper EC) :
    (ProcessEvents c UpdateDB ps st).state.srv_to_chanid = st.srv_to_chanid ∧
    (ProcessEvents c UpdateDB ps st).state.sourceid = st.sourceid := by
  unfold ProcessEvents
  split <;> exact ⟨rfl, rfl⟩

/-- Every method call extends the cache. -/
theorem Step_cacheExt {c : Collab EC} {a b : EITHelper EC} (h : Step c a b) :
    CacheExt a.srv_to_chanid b.srv_to_chanid := by
  cases h with
  | setFixup => exact CacheExt_refl _
  | setLanguagePreferences => exact CacheExt_refl _
  | setSourceID => exact CacheExt_refl _
  | addEIT db atsc_major atsc_minor eit => exact AddEIT_cacheExt c db a atsc_major atsc_minor eit
  | addETT db atsc_major atsc_minor t => exact AddETT_cacheExt c db a atsc_major atsc_minor t
  | addEIT_dvb db eit => exact AddEIT_dvb_cacheExt c db a eit
  | pruneCache => exact CacheExt_refl _
  | processEvents UpdateDB ps =>
    rw [(ProcessEvents_cache c UpdateDB ps a).1]
    exact CacheExt_refl _
  | getChanID db atsc_major atsc_minor => exact GetChanID_cacheExt db a atsc_major atsc_minor
  | getChanID_dvb db serviceid networkid tsid =>
    exact GetChanID_dvb_cacheExt db a serviceid networkid tsid

theorem Later_cacheExt {c : Collab EC} {a b : EITHelper EC} (h : Later c a b) :
    b.sourceid = a.sourceid ∧ CacheExt a.srv_to_chanid b.srv_to_chanid := by
  induction h with
  | refl => exact ⟨rfl, CacheExt_refl _⟩
  | tail _ hstep ih => exact ⟨hstep.2.trans ih.1, CacheExt_trans ih.2 (Step_cacheExt hstep.1)⟩

/-- In a reachable state every cache entry holds a non-zero `int`. -/
theorem Reachable_isId {c : Collab EC} {st : EITHelper EC} (h : Reachable c st) :
    ∀ k v, st.srv_to_chanid.find k = some v → IsId v := by
  obtain ⟨ec, offset, hr⟩ := h
  have hext : CacheExt (new c ec offset).srv_to_chanid st.srv_to_chanid := by
    induction hr with
    | refl => exact CacheExt_refl _
    | tail _ hstep ih => exact CacheExt_trans ih (Step_cacheExt hstep)
  intro k v hv
  exact (hext k).2 rfl v hv

/-! ## The correlator: `AddEIT` and `AddETT` -/

theorem AddEIT_single (c : Collab EC) (db : ChannelDB) (st : EITHelper EC)
    (atsc_major atsc_minor : Nat) (e : EITEvent) :
    AddEIT c db st atsc_major atsc_minor [e]
      = AddEIT_event c db atsc_major atsc_minor (AddEIT_entry st atsc_major atsc_minor) e := rfl

theorem AddEIT_entry_pendingETT (st : EITHelper EC) (atsc_major atsc_minor k i : Nat) :
    pendingETT (AddEIT_entry st atsc_major atsc_minor) k i = pendingETT st k i :=
  QMap.find2_touch st.unmatched_etts _ k i

theorem AddEIT_entry_pendingEIT (st : EITHelper EC) (atsc_major atsc_minor k i : Nat) :
    pendingEIT (AddEIT_entry st atsc_major atsc_minor) k i = pendingEIT st k i :=
  QMap.find2_touch st.incomplete_events _ k i

theorem AddEIT_entry_GetChanID (db : ChannelDB) (st : EITHelper EC)
    (atsc_major atsc_minor : Nat) :
    (GetChanID db (AddEIT_entry st atsc_major atsc_minor) atsc_major atsc_minor).1
      = (GetChanID db st atsc_major atsc_minor).1 :=
  GetChanID_fst_congr db _ _ _ _ rfl rfl

/-- Loop body, first branch: an unmatched extended text is pending. -/
theorem AddEIT_event_matched (c : Collab EC) (db : ChannelDB) (s : EITHelper EC)
    (atsc_major atsc_minor : Nat) (e : EITEvent) (x : QString)
    (h : pendingETT s (atsc_key atsc_major atsc_minor) e.EventID = some x) :
    AddEIT_event c db atsc_major atsc_minor s e =
      { (CompleteEvent c db s atsc_major atsc_minor
          (ATSCEvent.ofRow c s.languagePreferences e) x)
        with unmatched_etts :=
                QMap.insert
                  (CompleteEvent c db s atsc_major atsc_minor
                    (ATSCEvent.ofRow c s.languagePreferences e) x).unmatched_etts
                  (atsc_key atsc_major atsc_minor)
                  ((s.unmatched_etts.value (atsc_key atsc_major atsc_minor) []).erase
                    e.EventID) } := by
  have hs : QMap.find (QMap.value s.unmatched_etts (atsc_key atsc_major atsc_minor) []) e.EventID
      = some x := by
    rw [QMap.find2_value]
    exact h
  unfold AddEIT_event
  simp only [hs]

/-- Loop body, second branch: nothing pending and no extended text expected. -/
theorem AddEIT_event_immediate (c : Collab EC) (db : ChannelDB) (s : EITHelper EC)
    (atsc_major atsc_minor : Nat) (e : EITEvent)
    (h : pendingETT s (atsc_key atsc_major atsc_minor) e.EventID = none)
    (hetm : e.ETMLocation = 0) :
    AddEIT_event c db atsc_major atsc_minor s e =
      CompleteEvent c db s atsc_major atsc_minor (ATSCEvent.ofRow c s.languagePreferences e)
        none := by
  have hs : QMap.find (QMap.value s.unmatched_etts (atsc_key atsc_major atsc_minor) []) e.EventID
      = none := by
    rw [QMap.find2_value]
    exact h
  have he : (ATSCEvent.ofRow c s.languagePreferences e).etm = 0 := hetm
  unfold AddEIT_event
  simp only [hs, he, if_true]

/-- Loop body, third branch: nothing pending and extended text expected. -/
theorem AddEIT_event_stored (c : Collab EC) (db : ChannelDB) (s : EITHelper EC)
    (atsc_major atsc_minor : Nat) (e : EITEvent)
    (h : pendingETT s (atsc_key atsc_major atsc_minor) e.EventID = none)
    (hetm : e.ETMLocation ≠ 0) :
    AddEIT_event c db atsc_major atsc_minor s e =
      { s with
        heap_live := s.heap_next :: s.heap_live
        heap_next := s.heap_next + 1
        incomplete_events :=
          s.incomplete_events.insert (atsc_key atsc_major atsc_minor)
            ((s.incomplete_events.value (atsc_key atsc_major atsc_minor) []).insert e.EventID
              { (ATSCEvent.ofRow c s.languagePreferences e) with
                desc := DescPtr.heap s.heap_next (e.Descriptors.take e.DescriptorsLength) }) } := by
  have hs : QMap.find (QMap.value s.unmatched_etts (atsc_key atsc_major atsc_minor) []) e.EventID
      = none := by
    rw [QMap.find2_value]
    exact h
  have he : ¬ (ATSCEvent.ofRow c s.languagePreferences e).etm = 0 := hetm
  unfold AddEIT_event
  simp only [hs, he, if_false]
  rfl

/-- Lookups in a map of maps after `outer[key][id] = v`. -/
theorem find2_store {V : Type} (m : QMap (QMap V)) (key id : Nat) (v : V) (k i : Nat) :
    QMap.find2 (m.insert key ((m.value key []).insert id v)) k i
      = if k = key ∧ i = id then some v else QMap.find2 m k i := by
  by_cases hk : key = k
  · subst hk
    rw [QMap.find2_insert_same]
    by_cases hi : id = i
    · subst hi
      simp [QMap.find_insert_self]
    · rw [QMap.find_insert_ne _ _ hi, QMap.find2_value]
      have : ¬ i = id := fun h => hi h.symm
      simp [this]
  · rw [QMap.find2_insert_other m i _ hk]
    have : ¬ k = key := fun h => hk h.symm
    simp [this]

/-- Lookups in a map of maps after erasing `id` from the inner map of `key`. -/
theorem find2_remove {V : Type} (m : QMap (QMap V)) (key id : Nat) (k i : Nat) :
    QMap.find2 (m.insert key ((m.value key []).erase id)) k i
      = if k = key ∧ i = id then none else QMap.find2 m k i := by
  by_cases hk : key = k
  · subst hk
    rw [QMap.find2_insert_same]
    by_cases hi : id = i
    · subst hi
      simp [QMap.find_erase_self]
    · rw [QMap.find_erase_ne _ hi, QMap.find2_value]
      have : ¬ i = id := fun h => hi h.symm
      simp [this]
  · rw [QMap.find2_insert_other m i _ hk]
    have : ¬ k = key := fun h => hk h.symm
    simp [this]

theorem AddETT_of_none (c : Collab EC) (db : ChannelDB) (s : EITHelper EC)
    (atsc_major atsc_minor : Nat) (t : ExtendedTextTable)
    (h : pendingEIT s (atsc_key atsc_major atsc_minor) t.EventID = none) :
    AddETT c db s atsc_major atsc_minor t =
      AddETT_unmatched s (atsc_key atsc_major atsc_minor) t.EventID
        (c.GetBestMatch t.ExtendedTextMessage s.languagePreferences) := by
  unfold pendingEIT QMap.find2 at h
  cases hf : s.incomplete_events.find (atsc_key atsc_major atsc_minor) with
  | none => simp only [AddETT, hf]
  | some events =>
    rw [hf] at h
    have h' : QMap.find events t.EventID = none := h
    simp only [AddETT, hf, h']

theorem AddETT_unmatched_pendingETT (s : EITHelper EC) (key id : Nat) (text : QString)
    (k i : Nat) :
    pendingETT (AddETT_unmatched s key id text) k i =
      if k = key ∧ i = id then some ((pendingETT s key id).getD text) else pendingETT s k i := by
  have hv := QMap.find2_value s.unmatched_etts key id
  unfold AddETT_unmatched
  simp only
  cases hf : QMap.find (QMap.value s.unmatched_etts key []) id with
  | none =>
    rw [hf] at hv
    simp only [pendingETT]
    rw [find2_store, ← hv]
    rfl
  | some x =>
    rw [hf] at hv
    simp only [pendingETT]
    rw [QMap.find2_touch]
    by_cases hki : k = key ∧ i = id
    · rw [if_pos hki, hki.1, hki.2, ← hv]
      rfl
    · rw [if_neg hki]

/-- What the tail of `AddETT` leaves alone. -/
theorem AddETT_unmatched_frame (s : EITHelper EC) (key id : Nat) (text : QString) :
    (AddETT_unmatched s key id text).db_events = s.db_events ∧
    (AddETT_unmatched s key id text).incomplete_events = s.incomplete_events ∧
    (AddETT_unmatched s key id text).srv_to_chanid = s.srv_to_chanid ∧
    (AddETT_unmatched s key id text).sourceid = s.sourceid ∧
    (AddETT_unmatched s key id text).languagePreferences = s.languagePreferences := by
  unfold AddETT_unmatched
  simp only
  split <;> exact ⟨rfl, rfl, rfl, rfl, rfl⟩

/-- The first branch of `AddETT`: the matching primary fragment is completed
with the text and removed from the pending-primary map. -/
theorem AddETT_of_some (c : Collab EC) (db : ChannelDB) (s : EITHelper EC)
    (atsc_major atsc_minor : Nat) (t : ExtendedTextTable) (ev0 : ATSCEvent)
    (h : pendingEIT s (atsc_key atsc_major atsc_minor) t.EventID = some ev0) :
    (AddETT c db s atsc_major atsc_minor t).db_events =
      (CompleteEvent c db s atsc_major atsc_minor ev0
        (c.GetBestMatch t.ExtendedTextMessage s.languagePreferences)).db_events ∧
    (AddETT c db s atsc_major atsc_minor t).unmatched_etts = s.unmatched_etts ∧
    ∀ k i, pendingEIT (AddETT c db s atsc_major atsc_minor t) k i =
      if k = atsc_key atsc_major atsc_minor ∧ i = t.EventID then none else pendingEIT s k i := by
  unfold pendingEIT QMap.find2 at h
  cases hf : s.incomplete_events.find (atsc_key atsc_major atsc_minor) with
  | none =>
    rw [hf] at h
    cases h
  | some events =>
    rw [hf] at h
    have h' : QMap.find events t.EventID = some ev0 := h
    have hval : QMap.value s.incomplete_events (atsc_key atsc_major atsc_minor) [] = events := by
      simp [QMap.value, hf]
    have hfr := CompleteEvent_frame c db s atsc_major atsc_minor ev0
      (c.GetBestMatch t.ExtendedTextMessage s.languagePreferences)
    refine ⟨?_, ?_, fun k i => ?_⟩
    · simp only [AddETT, hf, h']
    · simp only [AddETT, hf, h']
      exact hfr.2.2.1
    · simp only [AddETT, hf, h', pendingEIT]
      rw [hfr.2.1, ← find2_remove, hval]

/-- Effect of `AddEIT` on a fragment that finds nothing pending and expects no
extended text. -/
theorem AddEIT_immediate_effect (c : Collab EC) (db : ChannelDB) (st : EITHelper EC)
    (atsc_major atsc_minor : Nat) (e : EITEvent)
    (h : pendingETT st (atsc_key atsc_major atsc_minor) e.EventID = none)
    (hetm : e.ETMLocation = 0) :
    AddEIT c db st atsc_major atsc_minor [e] =
      CompleteEvent c db (AddEIT_entry st atsc_major atsc_minor) atsc_major atsc_minor
        (ATSCEvent.ofRow c st.languagePreferences e) none ∧
    (∀ k i, pendingEIT (AddEIT c db st atsc_major atsc_minor [e]) k i = pendingEIT st k i) ∧
    (∀ k i, pendingETT (AddEIT c db st atsc_major atsc_minor [e]) k i = pendingETT st k i) ∧
    ((GetChanID db st atsc_major atsc_minor).1 ≠ 0 →
      ∃ ev : DBEvent,
        (AddEIT c db st atsc_major atsc_minor [e]).db_events = st.db_events ++ [ev] ∧
        ev.ett = none ∧ ev.chanid = (GetChanID db st atsc_major atsc_minor).1) ∧
    ((GetChanID db st atsc_major atsc_minor).1 = 0 →
      (AddEIT c db st atsc_major atsc_minor [e]).db_events = st.db_events) := by
  have h0 : pendingETT (AddEIT_entry st atsc_major atsc_minor) (atsc_key atsc_major atsc_minor)
      e.EventID = none := by
    rw [AddEIT_entry_pendingETT]
    exact h
  have heq : AddEIT_event c db atsc_major atsc_minor (AddEIT_entry st atsc_major atsc_minor) e
      = CompleteEvent c db (AddEIT_entry st atsc_major atsc_minor) atsc_major atsc_minor
        (ATSCEvent.ofRow c st.languagePreferences e) none :=
    AddEIT_event_immediate c db (AddEIT_entry st atsc_major atsc_minor)
      atsc_major atsc_minor e h0 hetm
  have hfr := CompleteEvent_frame c db (AddEIT_entry st atsc_major atsc_minor)
    atsc_major atsc_minor (ATSCEvent.ofRow c st.languagePreferences e) none
  rw [AddEIT_single, heq]
  refine ⟨rfl, fun k i => ?_, fun k i => ?_, fun hc => ?_, fun hc => ?_⟩
  · simp only [pendingEIT]
    rw [hfr.2.1]
    exact AddEIT_entry_pendingEIT st atsc_major atsc_minor k i
  · simp only [pendingETT]
    rw [hfr.2.2.1]
    exact AddEIT_entry_pendingETT st atsc_major atsc_minor k i
  · rw [← AddEIT_entry_GetChanID db st atsc_major atsc_minor] at hc ⊢
    exact CompleteEvent_enqueued c db (AddEIT_entry st atsc_major atsc_minor)
      atsc_major atsc_minor _ none hc
  · rw [← AddEIT_entry_GetChanID db st atsc_major atsc_minor] at hc
    exact CompleteEvent_dropped c db (AddEIT_entry st atsc_major atsc_minor)
      atsc_major atsc_minor _ none hc

/-- Effect of `AddEIT` on a fragment that finds an unmatched extended text
pending, whatever its ETM flag: the fragment is completed with the pending
text and the pending entry is erased. -/
theorem AddEIT_matched_effect (c : Collab EC) (db : ChannelDB) (st : EITHelper EC)
    (atsc_major atsc_minor : Nat) (e : EITEvent) (x : QString)
    (h : pendingETT st (atsc_key atsc_major atsc_minor) e.EventID = some x) :
    (∀ k i, pendingETT (AddEIT c db st atsc_major atsc_minor [e]) k i =
      if k = atsc_key atsc_major atsc_minor ∧ i = e.EventID then none else pendingETT st k i) ∧
    (∀ k i, pendingEIT (AddEIT c db st atsc_major atsc_minor [e]) k i = pendingEIT st k i) ∧
    ((GetChanID db st atsc_major atsc_minor).1 ≠ 0 →
      ∃ ev : DBEvent,
        (AddEIT c db st atsc_major atsc_minor [e]).db_events = st.db_events ++ [ev] ∧
        ev.ett = x ∧ ev.chanid = (GetChanID db st atsc_major atsc_minor).1) ∧
    ((GetChanID db st atsc_major atsc_minor).1 = 0 →
      (AddEIT c db st atsc_major atsc_minor [e]).db_events = st.db_events) := by
  have h0 : pendingETT (AddEIT_entry st atsc_major atsc_minor) (atsc_key atsc_major atsc_minor)
      e.EventID = some x := by
    rw [AddEIT_entry_pendingETT]
    exact h
  have heq := AddEIT_event_matched c db (AddEIT_entry st atsc_major atsc_minor)
    atsc_major atsc_minor e x h0
  have hfr := CompleteEvent_frame c db (AddEIT_entry st atsc_major atsc_minor)
    atsc_major atsc_minor
    (ATSCEvent.ofRow c (AddEIT_entry st atsc_major atsc_minor).languagePreferences e) x
  rw [AddEIT_single, heq]
  refine ⟨fun k i => ?_, fun k i => ?_, fun hc => ?_, fun hc => ?_⟩
  · simp only [pendingETT]
    rw [hfr.2.2.1, find2_remove]
    have := AddEIT_entry_pendingETT st atsc_major atsc_minor k i
    simp only [pendingETT] at this
    rw [this]
  · simp only [pendingEIT]
    rw [hfr.2.1]
    exact AddEIT_entry_pendingEIT st atsc_major atsc_minor k i
  · rw [← AddEIT_entry_GetChanID db st atsc_major atsc_minor] at hc ⊢
    exact CompleteEvent_enqueued c db (AddEIT_entry st atsc_major atsc_minor)
      atsc_major atsc_minor _ x hc
  · rw [← AddEIT_entry_GetChanID db st atsc_major atsc_minor] at hc
    exact CompleteEvent_dropped c db (AddEIT_entry st atsc_major atsc_minor)
      atsc_major atsc_minor _ x hc

/-- Effect of `AddEIT` on a fragment that finds nothing pending and expects
extended text: it is stored with a copy of its descriptors. -/
theorem AddEIT_stored_effect (c : Collab EC) (db : ChannelDB) (st : EITHelper EC)
    (atsc_major atsc_minor : Nat) (e : EITEvent)
    (h : pendingETT st (atsc_key atsc_major atsc_minor) e.EventID = none)
    (hetm : e.ETMLocation ≠ 0) :
    (AddEIT c db st atsc_major atsc_minor [e]).db_events = st.db_events ∧
    (∀ k i, pendingEIT (AddEIT c db st atsc_major atsc_minor [e]) k i =
      if k = atsc_key atsc_major atsc_minor ∧ i = e.EventID then
        some { (ATSCEvent.ofRow c st.languagePreferences e) with
                desc := DescPtr.heap st.heap_next (e.Descriptors.take e.DescriptorsLength) }
      else pendingEIT st k i) ∧
    (∀ k i, pendingETT (AddEIT c db st atsc_major atsc_minor [e]) k i = pendingETT st k i) ∧
    (AddEIT c db st atsc_major atsc_minor [e]).srv_to_chanid = st.srv_to_chanid ∧
    (AddEIT c db st atsc_major atsc_minor [e]).sourceid = st.sourceid ∧
    (AddEIT c db st atsc_major atsc_minor [e]).languagePreferences = st.languagePreferences := by
  have h0 : pendingETT (AddEIT_entry st atsc_major atsc_minor) (atsc_key atsc_major atsc_minor)
      e.EventID = none := by
    rw [AddEIT_entry_pendingETT]
    exact h
  have heq := AddEIT_event_stored c db (AddEIT_entry st atsc_major atsc_minor)
    atsc_major atsc_minor e h0 hetm
  rw [AddEIT_single, heq]
  refine ⟨rfl, fun k i => ?_, fun k i => ?_, rfl, rfl, rfl⟩
  · simp only [pendingEIT]
    rw [find2_store]
    have := AddEIT_entry_pendingEIT st atsc_major atsc_minor k i
    simp only [pendingEIT] at this
    rw [this]
    rfl
  · exact AddEIT_entry_pendingETT st atsc_major atsc_minor k i

/-- C3.  A primary fragment submitted with `AddEIT` while no extended text is
pending for its (channel key, event id).  If it expects no extended text
(`ETMLocation = 0`) it is handed to `CompleteEvent` at once with the null
text: both pending maps keep their contents, and the event that is enqueued
when the channel resolves carries the null text.  Otherwise nothing is
enqueued and the fragment, with a copy of its descriptors, is stored in the
pending-primary map under (channel key, event id). -/
theorem AddEIT_without_pending_text (c : Collab EC) (db : ChannelDB) (st : EITHelper EC)
    (atsc_major atsc_minor : Nat) (e : EITEvent)
    (h : pendingETT st (atsc_key atsc_major atsc_minor) e.EventID = none) :
    (e.ETMLocation = 0 →
      AddEIT c db st atsc_major atsc_minor [e] =
        CompleteEvent c db (AddEIT_entry st atsc_major atsc_minor) atsc_major atsc_minor
          (ATSCEvent.ofRow c st.languagePreferences e) none ∧
      (∀ k i, pendingEIT (AddEIT c db st atsc_major atsc_minor [e]) k i = pendingEIT st k i) ∧
      (∀ k i, pendingETT (AddEIT c db st atsc_major atsc_minor [e]) k i = pendingETT st k i) ∧
      ((GetChanID db st atsc_major atsc_minor).1 ≠ 0 →
        ∃ ev : DBEvent,
          (AddEIT c db st atsc_major atsc_minor [e]).db_events = st.db_events ++ [ev] ∧
          ev.ett = none ∧ ev.chanid = (GetChanID db st atsc_major atsc_minor).1) ∧
      ((GetChanID db st atsc_major atsc_minor).1 = 0 →
        (AddEIT c db st atsc_major atsc_minor [e]).db_events = st.db_events)) ∧
    (e.ETMLocation ≠ 0 →
      (AddEIT c db st atsc_major atsc_minor [e]).db_events = st.db_events ∧
      pendingEIT (AddEIT c db st atsc_major atsc_minor [e]) (atsc_key atsc_major atsc_minor)
          e.EventID =
        some { (ATSCEvent.ofRow c st.languagePreferences e) with
                desc := DescPtr.heap st.heap_next (e.Descriptors.take e.DescriptorsLength) } ∧
      (∀ k i, ¬ (k = atsc_key atsc_major atsc_minor ∧ i = e.EventID) →
        pendingEIT (AddEIT c db st atsc_major atsc_minor [e]) k i = pendingEIT st k i) ∧
      (∀ k i, pendingETT (AddEIT c db st atsc_major atsc_minor [e]) k i = pendingETT st k i)) := by
  constructor
  · intro hetm
    exact AddEIT_immediate_effect c db st atsc_major atsc_minor e h hetm
  · intro hetm
    have hs := AddEIT_stored_effect c db st atsc_major atsc_minor e h hetm
    refine ⟨hs.1, ?_, fun k i hki => ?_, hs.2.2.1⟩
    · rw [hs.2.1, if_pos ⟨rfl, rfl⟩]
    · rw [hs.2.1, if_neg hki]

/-- C4.  First arrival wins for unmatched extended text: when `AddETT` finds
no pending primary fragment for (channel key, event id), no event is enqueued;
the fragment's text is stored if the unmatched-ETT map has no entry for that
key, an entry already stored keeps its text, and no other entry changes. -/
theorem AddETT_first_arrival_wins (c : Collab EC) (db : ChannelDB) (st : EITHelper EC)
    (atsc_major atsc_minor : Nat) (t : ExtendedTextTable)
    (h : pendingEIT st (atsc_key atsc_major atsc_minor) t.EventID = none) :
    (AddETT c db st atsc_major atsc_minor t).db_events = st.db_events ∧
    (pendingETT st (atsc_key atsc_major atsc_minor) t.EventID = none →
      pendingETT (AddETT c db st atsc_major atsc_minor t) (atsc_key atsc_major atsc_minor)
          t.EventID =
        some (c.GetBestMatch t.ExtendedTextMessage st.languagePreferences)) ∧
    (∀ x, pendingETT st (atsc_key atsc_major atsc_minor) t.EventID = some x →
      pendingETT (AddETT c db st atsc_major atsc_minor t) (atsc_key atsc_major atsc_minor)
          t.EventID = some x) ∧
    (∀ k i, ¬ (k = atsc_key atsc_major atsc_minor ∧ i = t.EventID) →
      pendingETT (AddETT c db st atsc_major atsc_minor t) k i = pendingETT st k i) ∧
    (∀ k i, pendingEIT (AddETT c db st atsc_major atsc_minor t) k i = pendingEIT st k i) := by
  rw [AddETT_of_none c db st atsc_major atsc_minor t h]
  have hfr := AddETT_unmatched_frame st (atsc_key atsc_major atsc_minor) t.EventID
    (c.GetBestMatch t.ExtendedTextMessage st.languagePreferences)
  refine ⟨hfr.1, fun hn => ?_, fun x hx => ?_, fun k i hki => ?_, fun k i => ?_⟩
  · rw [AddETT_unmatched_pendingETT, if_pos ⟨rfl, rfl⟩, hn]
    rfl
  · rw [AddETT_unmatched_pendingETT, if_pos ⟨rfl, rfl⟩, hx]
    rfl
  · rw [AddETT_unmatched_pendingETT, if_neg hki]
  · simp only [pendingEIT]
    rw [hfr.2.1]

/-- C2, as the code has it.  A primary fragment that expects no extended text
(`ETMLocation = 0`) is completed by `AddEIT` at once.  An unmatched extended
text pending under the same (channel key, event id) is not left alone: the
fragment is completed with that text and the entry is erased.  Every other
entry of the unmatched-ETT map, and the whole pending-primary map, stay as
they were. -/
theorem AddEIT_no_etm_completes (c : Collab EC) (db : ChannelDB) (st : EITHelper EC)
    (atsc_major atsc_minor : Nat) (e : EITEvent) (hetm : e.ETMLocation = 0) :
    pendingETT (AddEIT c db st atsc_major atsc_minor [e]) (atsc_key atsc_major atsc_minor)
      e.EventID = none ∧
    (∀ k i, ¬ (k = atsc_key atsc_major atsc_minor ∧ i = e.EventID) →
      pendingETT (AddEIT c db st atsc_major atsc_minor [e]) k i = pendingETT st k i) ∧
    (∀ k i, pendingEIT (AddEIT c db st atsc_major atsc_minor [e]) k i = pendingEIT st k i) ∧
    ((GetChanID db st atsc_major atsc_minor).1 ≠ 0 →
      ∃ ev : DBEvent,
        (AddEIT c db st atsc_major atsc_minor [e]).db_events = st.db_events ++ [ev] ∧
        ev.ett = (pendingETT st (atsc_key atsc_major atsc_minor) e.EventID).getD none ∧
        ev.chanid = (GetChanID db st atsc_major atsc_minor).1) ∧
    ((GetChanID db st atsc_major atsc_minor).1 = 0 →
      (AddEIT c db st atsc_major atsc_minor [e]).db_events = st.db_events) := by
  cases hp : pendingETT st (atsc_key atsc_major atsc_minor) e.EventID with
  | none =>
    have hi := AddEIT_immediate_effect c db st atsc_major atsc_minor e hp hetm
    refine ⟨?_, fun k i _ => hi.2.2.1 k i, hi.2.1, hi.2.2.2.1, hi.2.2.2.2⟩
    rw [hi.2.2.1]
    exact hp
  | some x =>
    have hm := AddEIT_matched_effect c db st atsc_major atsc_minor e x hp
    refine ⟨?_, fun k i hki => ?_, hm.2.1, hm.2.2.1, hm.2.2.2⟩
    · rw [hm.1, if_pos ⟨rfl, rfl⟩]
    · rw [hm.1, if_neg hki]

/-- C1, as the code has it.  A primary fragment and an extended-text fragment
with the same (channel key, event id), submitted to an engine that has nothing
pending for that key and whose channel resolves to a non-zero id when the
second of the two arrives: in the order `AddETT`, `AddEIT` exactly one event
is enqueued and its extended text is the ETT fragment's text; in the order
`AddEIT`, `AddETT` the same holds when the primary fragment expects extended
text (`ETMLocation ≠ 0`). -/
theorem correlation_either_order (c : Collab EC) (db1 db2 : ChannelDB) (st : EITHelper EC)
    (atsc_major atsc_minor : Nat) (e : EITEvent) (t : ExtendedTextTable)
    (hid : t.EventID = e.EventID)
    (hP : pendingEIT st (atsc_key atsc_major atsc_minor) e.EventID = none)
    (hT : pendingETT st (atsc_key atsc_major atsc_minor) e.EventID = none)
    (hchan : (GetChanID db2 st atsc_major atsc_minor).1 ≠ 0) :
    (∃ ev : DBEvent,
      (AddEIT c db2 (AddETT c db1 st atsc_major atsc_minor t) atsc_major atsc_minor [e]).db_events
        = st.db_events ++ [ev] ∧
      ev.ett = c.GetBestMatch t.ExtendedTextMessage st.languagePreferences) ∧
    (e.ETMLocation ≠ 0 →
      ∃ ev : DBEvent,
        (AddETT c db2 (AddEIT c db1 st atsc_major atsc_minor [e]) atsc_major atsc_minor
          t).db_events = st.db_events ++ [ev] ∧
        ev.ett = c.GetBestMatch t.ExtendedTextMessage st.languagePreferences) := by
  constructor
  · rw [← hid] at hP hT
    have h1 := AddETT_of_none c db1 st atsc_major atsc_minor t hP
    have hfr := AddETT_unmatched_frame st (atsc_key atsc_major atsc_minor) t.EventID
      (c.GetBestMatch t.ExtendedTextMessage st.languagePreferences)
    have hpend : pendingETT (AddETT c db1 st atsc_major atsc_minor t)
        (atsc_key atsc_major atsc_minor) e.EventID
        = some (c.GetBestMatch t.ExtendedTextMessage st.languagePreferences) := by
      rw [h1, AddETT_unmatched_pendingETT, ← hid, if_pos ⟨rfl, rfl⟩, hT]
      rfl
    have hm := AddEIT_matched_effect c db2 (AddETT c db1 st atsc_major atsc_minor t)
      atsc_major atsc_minor e _ hpend
    have hg : (GetChanID db2 (AddETT c db1 st atsc_major atsc_minor t) atsc_major atsc_minor).1
        = (GetChanID db2 st atsc_major atsc_minor).1 := by
      rw [h1]
      exact GetChanID_fst_congr db2 _ _ _ _ hfr.2.2.1 hfr.2.2.2.1
    rw [← hg] at hchan
    obtain ⟨ev, hq, hett, _⟩ := hm.2.2.1 hchan
    refine ⟨ev, ?_, hett⟩
    rw [hq, h1, hfr.1]
  · intro hetm
    have hs := AddEIT_stored_effect c db1 st atsc_major atsc_minor e hT hetm
    have hpend := hs.2.1 (atsc_key atsc_major atsc_minor) t.EventID
    rw [if_pos ⟨rfl, hid⟩] at hpend
    have ha := AddETT_of_some c db2 (AddEIT c db1 st atsc_major atsc_minor [e])
      atsc_major atsc_minor t _ hpend
    have hg : (GetChanID db2 (AddEIT c db1 st atsc_major atsc_minor [e])
        atsc_major atsc_minor).1 = (GetChanID db2 st atsc_major atsc_minor).1 :=
      GetChanID_fst_congr db2 _ _ _ _ hs.2.2.2.1 hs.2.2.2.2.1
    rw [← hg] at hchan
    obtain ⟨ev, hq, hett, _⟩ := CompleteEvent_enqueued c db2
      (AddEIT c db1 st atsc_major atsc_minor [e]) atsc_major atsc_minor _
      (c.GetBestMatch t.ExtendedTextMessage
        (AddEIT c db1 st atsc_major atsc_minor [e]).languagePreferences) hchan
    refine ⟨ev, ?_, ?_⟩
    · rw [ha.1, hq, hs.1]
    · rw [hett, hs.2.2.2.2.2]

/-! ## The completion queue -/

/-- The loop of `ProcessEvents` hands over a prefix of the queue, in order,
and leaves the rest; the counter never passes `kChunkSize`. -/
theorem ProcessEvents_loop_fifo {PS : Type} (c : Collab EC)
    (UpdateDB : PS → DBEvent → Nat → Nat × PS) :
    ∀ (q : List DBEvent) (i n : Nat) (ps : PS) (h : List DBEvent),
      ∃ k, i + k ≤ max i kChunkSize ∧
        (ProcessEvents_loop c UpdateDB i q n ps h).2.1 = q.drop k ∧
        (ProcessEvents_loop c UpdateDB i q n ps h).2.2.2 = h ++ (q.take k).map c.Fix := by
  intro q
  induction q with
  | nil =>
    intro i n ps h
    exact ⟨0, by simp, by simp [ProcessEvents_loop], by simp [ProcessEvents_loop]⟩
  | cons e rest ih =>
    intro i n ps h
    by_cases hc : i < kChunkSize ∧ i < (e :: rest).length
    · obtain ⟨k, hk, hq, hh⟩ := ih (i + 1) (u32 (n + (UpdateDB ps (c.Fix e) 1000).1))
        (UpdateDB ps (c.Fix e) 1000).2 (h ++ [c.Fix e])
      refine ⟨k + 1, ?_, ?_, ?_⟩
      · have h1 : max (i + 1) kChunkSize = kChunkSize := max_eq_right hc.1
        have h2 : max i kChunkSize = kChunkSize := max_eq_right (le_of_lt hc.1)
        omega
      · simp only [ProcessEvents_loop, if_pos hc]
        rw [hq]
        rfl
      · simp only [ProcessEvents_loop, if_pos hc]
        rw [hh]
        simp
    · refine ⟨0, by simp, ?_, ?_⟩
      · simp only [ProcessEvents_loop, if_neg hc]
        rfl
      · simp only [ProcessEvents_loop, if_neg hc]
        simp

/-- C6.  Every `ProcessEvents` call drains the queue in FIFO order within the
chunk limit: for some `k ≤ kChunkSize`, the events handed to persistence are
the `k` oldest queued events (each passed through `eitfixup->Fix`), in order,
and the events that stay queued are the remaining ones in their order. -/
theorem ProcessEvents_fifo {PS : Type} (c : Collab EC)
    (UpdateDB : PS → DBEvent → Nat → Nat × PS) (ps : PS) (st : EITHelper EC) :
    ∃ k, k ≤ kChunkSize ∧
      (ProcessEvents c UpdateDB ps st).handed = (st.db_events.take k).map c.Fix ∧
      (ProcessEvents c UpdateDB ps st).state.db_events = st.db_events.drop k := by
  unfold ProcessEvents
  split
  · exact ⟨0, Nat.zero_le _, by simp, by simp⟩
  · obtain ⟨k, hk, hq, hh⟩ := ProcessEvents_loop_fifo c UpdateDB st.db_events 0 0 ps []
    refine ⟨k, ?_, ?_, ?_⟩
    · simpa using hk
    · simpa using hh
    · exact hq

set_option maxRecDepth 100000 in
/-- C5, evaluated on the code.  With 25 completed events queued, the first
`ProcessEvents` call hands 13 events to persistence (not 20), the second
hands 6 (not 5), and `GetListSize` returns 6 afterwards (not 0): the loop
condition `i < db_events.size()` is evaluated against the shrinking queue. -/
theorem ProcessEvents_25_events :
    GetListSize Sample.engine25 = 25 ∧
    (ProcessEvents Sample.collab Sample.UpdateDB () Sample.engine25).handed.length = 13 ∧
    (ProcessEvents Sample.collab Sample.UpdateDB ()
      (ProcessEvents Sample.collab Sample.UpdateDB () Sample.engine25).state).handed.length = 6 ∧
    GetListSize (ProcessEvents Sample.collab Sample.UpdateDB ()
      (ProcessEvents Sample.collab Sample.UpdateDB () Sample.engine25).state).state = 6 := by
  refine ⟨?_, ?_, ?_, ?_⟩ <;> rfl

/-! ## The channel resolver: claims -/

/-- A run of `GetChanID` calls in which every call on the cache key of `k` is
answered 0 leaves `k` uncached and the source id as it was. -/
theorem GetChanID_seq_uncached (k : ChanKey) :
    ∀ (calls : List (ChannelDB × ChanKey)) (st : EITHelper EC),
      st.srv_to_chanid.find (k.cache_key st.sourceid) = none →
      (∀ p ∈ calls, p.2.cache_key st.sourceid = k.cache_key st.sourceid →
        chanid_of_result (p.1 (p.2.query st.sourceid)) = 0) →
      (GetChanID_seq calls st).sourceid = st.sourceid ∧
      (GetChanID_seq calls st).srv_to_chanid.find (k.cache_key st.sourceid) = none := by
  intro calls
  induction calls with
  | nil => intro st h _; exact ⟨rfl, h⟩
  | cons p calls ih =>
    intro st h hcalls
    obtain ⟨db, k'⟩ := p
    have hsrc := GetChanID_key_sourceid db st k'
    have hun : (GetChanID_key db st k').2.srv_to_chanid.find (k.cache_key st.sourceid) = none := by
      cases hk' : st.srv_to_chanid.find (k'.cache_key st.sourceid) with
      | some v =>
        rw [GetChanID_key_hit db st k' v hk']
        exact h
      | none =>
        rw [GetChanID_key_miss db st k' hk']
        simp only
        split
        · rename_i hne
          by_cases hkey : k'.cache_key st.sourceid = k.cache_key st.sourceid
          · exact absurd (hcalls (db, k') (List.mem_cons_self _ _) hkey) hne
          · rw [QMap.find_insert_ne _ _ hkey]
            exact h
        · exact h
    have hrec := ih (GetChanID_key db st k').2 (by rw [hsrc]; exact hun)
      (by
        intro p hp hkey
        rw [hsrc] at hkey ⊢
        exact hcalls p (List.mem_cons_of_mem _ hp) hkey)
    rw [hsrc] at hrec
    exact hrec

/-- C9.  For a key that is not cached: when the external lookup fails, finds
no row, or finds a row whose `useonairguide` flag is false, `GetChanID`
returns 0 and leaves the cache unchanged; when it finds a row whose flag is
true, `GetChanID` returns that row's channel id. -/
theorem GetChanID_uncached_lookup (db : ChannelDB) (st : EITHelper EC) (k : ChanKey)
    (h : st.srv_to_chanid.find (k.cache_key st.sourceid) = none) :
    ((db (k.query st.sourceid) = .failed ∨ db (k.query st.sourceid) = .rows [] ∨
        ∃ id rest, db (k.query st.sourceid) = .rows ((id, false) :: rest)) →
      (GetChanID_key db st k).1 = 0 ∧
      (GetChanID_key db st k).2.srv_to_chanid = st.srv_to_chanid) ∧
    (∀ id rest, db (k.query st.sourceid) = .rows ((id, true) :: rest) →
      (GetChanID_key db st k).1 = id.val) := by
  rw [GetChanID_key_miss db st k h]
  constructor
  · rintro (hf | hf | ⟨id, rest, hf⟩) <;> simp [hf, chanid_of_result]
  · intro id rest hf
    simp [hf, chanid_of_result]

/-- C7, as the code has it.  With the source id unchanged, once `GetChanID`
has resolved a key to a non-zero channel id below `2^31`, every later
`GetChanID` call with the same key returns that id and leaves the state,
the log of external lookups included, as it was.  A key that is not cached
and whose lookups yield 0 invokes the external lookup on every call: `n`
calls append `n` statements to the log. -/
theorem GetChanID_cached_stable (c : Collab EC) (db : ChannelDB) (st : EITHelper EC)
    (k : ChanKey) :
    ((GetChanID_key db st k).1 ≠ 0 → (GetChanID_key db st k).1 < 2 ^ 31 →
      ∀ st', Later c (GetChanID_key db st k).2 st' →
        ∀ db', GetChanID_key db' st' k = ((GetChanID_key db st k).1, st')) ∧
    (st.srv_to_chanid.find (k.cache_key st.sourceid) = none →
      ∀ dbs : List ChannelDB,
        (∀ d ∈ dbs, chanid_of_result (d (k.query st.sourceid)) = 0) →
        (GetChanID_seq (dbs.map (fun d => (d, k))) st).db_queries
          = st.db_queries ++ List.replicate dbs.length (k.query st.sourceid)) := by
  constructor
  · intro hne hlt st' hlater db'
    have hsrc := GetChanID_key_sourceid db st k
    have hentry : ∃ v, (GetChanID_key db st k).2.srv_to_chanid.find (k.cache_key st.sourceid)
        = some v ∧ ofInt32 (max v 0) = (GetChanID_key db st k).1 := by
      cases hk : st.srv_to_chanid.find (k.cache_key st.sourceid) with
      | some v =>
        rw [GetChanID_key_hit db st k v hk]
        exact ⟨v, hk, rfl⟩
      | none =>
        rw [GetChanID_key_miss db st k hk] at hne hlt ⊢
        simp only at hne hlt ⊢
        rw [if_pos hne, QMap.find_insert_self]
        refine ⟨_, rfl, ?_⟩
        rw [toInt32_of_lt hlt]
        exact ofInt32_max_natCast (by omega)
    obtain ⟨v, hv, hval⟩ := hentry
    obtain ⟨hs, hext⟩ := Later_cacheExt hlater
    have hv' : st'.srv_to_chanid.find (k.cache_key st'.sourceid) = some v := by
      rw [hs, hsrc]
      exact (hext _).1 v hv
    rw [GetChanID_key_hit db' st' k v hv', hval]
  · intro hun dbs
    induction dbs generalizing st with
    | nil => intro _; simp [GetChanID_seq]
    | cons d dbs ih =>
      intro hall
      have h0 : chanid_of_result (d (k.query st.sourceid)) = 0 :=
        hall d (List.mem_cons_self _ _)
      have hstep : (GetChanID_key d st k).2
          = { st with db_queries := st.db_queries ++ [k.query st.sourceid] } := by
        rw [GetChanID_key_miss d st k hun]
        simp [h0]
      simp only [List.map_cons, GetChanID_seq]
      rw [hstep]
      rw [ih { st with db_queries := st.db_queries ++ [k.query st.sourceid] } hun
        (fun d' hd' => hall d' (List.mem_cons_of_mem _ hd'))]
      simp [List.replicate_succ]

/-- C8, as the code has it.  In every state reachable through the engine's
methods the channel-id cache holds no entry whose value is 0, and a
`GetChanID` call that hits an entry with a positive value returns that value,
a non-zero channel id. -/
theorem reachable_cache_entries (c : Collab EC) (st : EITHelper EC) (hr : Reachable c st) :
    (∀ key v, st.srv_to_chanid.find key = some v → v ≠ 0) ∧
    (∀ (k : ChanKey) (v : Int) (db : ChannelDB),
      st.srv_to_chanid.find (k.cache_key st.sourceid) = some v → 0 < v →
        (GetChanID_key db st k).1 = v.toNat ∧ (GetChanID_key db st k).1 ≠ 0) := by
  have hid := Reachable_isId hr
  refine ⟨fun key v hv => (hid key v hv).1, fun k v db hv hpos => ?_⟩
  obtain ⟨_, _, hlt⟩ := hid _ v hv
  rw [GetChanID_key_hit db st k v hv]
  have h1 : max v 0 = v := max_eq_left (le_of_lt hpos)
  have h2 : v % 2 ^ 32 = v := Int.emod_eq_of_lt (le_of_lt hpos) (by omega)
  simp only [ofInt32, h1, h2]
  exact ⟨trivial, by omega⟩

/-- What a hit returns on the entry stored for the `uint` id `n`: the id when
it is below `2^31`, and 0 otherwise. -/
theorem ofInt32_max_toInt32 {n : Nat} (h : n < 2 ^ 32) :
    ofInt32 (max (toInt32 n) 0) = if n < 2 ^ 31 then n else 0 := by
  by_cases hlt : n < 2 ^ 31
  · rw [toInt32_of_lt hlt, if_pos hlt]
    exact ofInt32_max_natCast h
  · have hneg : toInt32 n ≤ 0 := by
      unfold toInt32 u32
      rw [Nat.mod_eq_of_lt h, if_neg hlt]
      omega
    rw [if_neg hlt, max_eq_right hneg]
    rfl

/-- After a `GetChanID` call has resolved an uncached key to a non-zero id, in
every state reached from there by method calls that keep the source id, a call
of either overload whose key is the same cache key returns that id when it is
below `2^31` and 0 otherwise, whatever the store says now, and leaves the
state, the log of external lookups included, as it was. -/
theorem GetChanID_key_after_resolve (c : Collab EC) (db db' : ChannelDB)
    (st st' : EITHelper EC) (k k' : ChanKey)
    (hkey : k'.cache_key st.sourceid = k.cache_key st.sourceid)
    (hun : st.srv_to_chanid.find (k.cache_key st.sourceid) = none)
    (hne : chanid_of_result (db (k.query st.sourceid)) ≠ 0)
    (hlater : Later c (GetChanID_key db st k).2 st') :
    (GetChanID_key db st k).1 = chanid_of_result (db (k.query st.sourceid)) ∧
    GetChanID_key db' st' k' =
      (if chanid_of_result (db (k.query st.sourceid)) < 2 ^ 31
        then chanid_of_result (db (k.query st.sourceid)) else 0, st') := by
  have hsrc := GetChanID_key_sourceid db st k
  have hfind : (GetChanID_key db st k).2.srv_to_chanid.find (k'.cache_key st.sourceid)
      = some (toInt32 (chanid_of_result (db (k.query st.sourceid)))) := by
    rw [hkey, GetChanID_key_miss db st k hun]
    simp only
    rw [if_pos hne, QMap.find_insert_self]
  obtain ⟨hs, hext⟩ := Later_cacheExt hlater
  have hfind' : st'.srv_to_chanid.find (k'.cache_key st'.sourceid)
      = some (toInt32 (chanid_of_result (db (k.query st.sourceid)))) := by
    rw [hs, hsrc]
    exact (hext _).1 _ hfind
  refine ⟨by rw [GetChanID_key_miss db st k hun], ?_⟩
  rw [GetChanID_key_hit db' st' k' _ hfind', ofInt32_max_toInt32 (chanid_of_result_lt _)]

/-- C10, as the code has it.  A flip of the admission flag is observed without
a restart as long as the key has not been cached: for a key that is not in the
cache, after any sequence of `GetChanID` calls in which the calls on its cache
key were answered 0, the next `GetChanID` call returns what the row of the
store says now, 0 when the flag is false and the channel id when it is true.
For a key that is in the cache, the call returns `max(entry, 0)` whatever the
store says now and leaves the state, the log of lookups included, as it was.
Once a call has resolved the key to a non-zero id from a row whose flag is
true, every later call, after any method calls that keep the source id,
returns that id when it is below `2^31` and 0 when it is `2^31` or more,
whatever the store says now. -/
theorem admission_flip_observed (c : Collab EC) (st : EITHelper EC) (k : ChanKey) :
    (st.srv_to_chanid.find (k.cache_key st.sourceid) = none →
      ∀ calls : List (ChannelDB × ChanKey),
        (∀ p ∈ calls, p.2.cache_key st.sourceid = k.cache_key st.sourceid →
          chanid_of_result (p.1 (p.2.query st.sourceid)) = 0) →
        ∀ (db : ChannelDB) (id : Fin (2 ^ 32)) (flag : Bool) (rest : List (Fin (2 ^ 32) × Bool)),
          db (k.query st.sourceid) = .rows ((id, flag) :: rest) →
          (GetChanID_key db (GetChanID_seq calls st) k).1 = if flag then id.val else 0) ∧
    (∀ v, st.srv_to_chanid.find (k.cache_key st.sourceid) = some v →
      ∀ db : ChannelDB, GetChanID_key db st k = (ofInt32 (max v 0), st)) ∧
    (st.srv_to_chanid.find (k.cache_key st.sourceid) = none →
      ∀ (db : ChannelDB) (id : Fin (2 ^ 32)) (rest : List (Fin (2 ^ 32) × Bool)),
        db (k.query st.sourceid) = .rows ((id, true) :: rest) → id.val ≠ 0 →
        (GetChanID_key db st k).1 = id.val ∧
        ∀ st', Later c (GetChanID_key db st k).2 st' →
          ∀ db' : ChannelDB,
            GetChanID_key db' st' k = (if id.val < 2 ^ 31 then id.val else 0, st')) := by
  refine ⟨?_, ?_, ?_⟩
  · intro hun calls hcalls db id flag rest hrow
    obtain ⟨hs, hfind⟩ := GetChanID_seq_uncached k calls st hun hcalls
    rw [← hs] at hfind
    rw [GetChanID_key_miss db _ k hfind]
    simp only [hs, hrow, chanid_of_result]
  · intro v hv db
    rw [GetChanID_key_hit db st k v hv]
  · intro hun db id rest hrow hne
    have hval : chanid_of_result (db (k.query st.sourceid)) = id.val := by
      rw [hrow]
      rfl
    have hne' : chanid_of_result (db (k.query st.sourceid)) ≠ 0 := by
      rw [hval]
      exact hne
    refine ⟨?_, fun st' hlater db' => ?_⟩
    · rw [(GetChanID_key_after_resolve c db db st _ k k rfl hun hne'
        Relation.ReflTransGen.refl).1, hval]
    · rw [(GetChanID_key_after_resolve c db db' st st' k k rfl hun hne' hlater).2, hval]

/-! ## The claims at concrete inputs -/

/-- C1 fails as stated.  A fresh engine, channel 5.1 admitted as channel 1001,
the primary fragment of event 7 with `ETMLocation = 0` submitted first and the
extended text "Synopsis" for event 7 second: nothing is pending for the key,
the channel resolves to 1001, and yet the queue does not end up holding one
event whose extended text is the ETT fragment's text (the one event enqueued
carries the null text). -/
theorem correlation_eit_first_counterexample :
    pendingEIT Sample.fresh (atsc_key 5 1) 7 = none ∧
    pendingETT Sample.fresh (atsc_key 5 1) 7 = none ∧
    (GetChanID (Sample.store 1001 true) Sample.fresh 5 1).1 = 1001 ∧
    Sample.ett.EventID = (Sample.eit 0).EventID ∧
    ((AddETT Sample.collab (Sample.store 1001 true)
      (AddEIT Sample.collab (Sample.store 1001 true) Sample.fresh 5 1 [Sample.eit 0])
      5 1 Sample.ett).db_events.map DBEvent.ett = [none]) ∧
    ¬ ∃ ev : DBEvent,
      (AddETT Sample.collab (Sample.store 1001 true)
        (AddEIT Sample.collab (Sample.store 1001 true) Sample.fresh 5 1 [Sample.eit 0])
        5 1 Sample.ett).db_events = Sample.fresh.db_events ++ [ev] ∧
      ev.ett = Sample.collab.GetBestMatch Sample.ett.ExtendedTextMessage
        Sample.fresh.languagePreferences := by
  refine ⟨by decide, by decide, by decide, by decide, by decide, ?_⟩
  rintro ⟨ev, hq, hett⟩
  have h1 : (AddETT Sample.collab (Sample.store 1001 true)
      (AddEIT Sample.collab (Sample.store 1001 true) Sample.fresh 5 1 [Sample.eit 0])
      5 1 Sample.ett).db_events.map DBEvent.ett = [none] := by decide
  have h2 : Sample.fresh.db_events = [] := rfl
  rw [hq, h2] at h1
  have h3 : ev.ett = none := by simpa using h1
  rw [h3] at hett
  exact absurd hett (by decide)

/-- C1 at a concrete input: a fresh engine, channel 5.1 admitted as 1001, the
primary fragment of event 7 expecting extended text, and the text "Synopsis":
either order enqueues exactly one event carrying the text. -/
theorem correlation_either_order_witness :
    (∃ ev : DBEvent,
      (AddEIT Sample.collab (Sample.store 1001 true)
        (AddETT Sample.collab (Sample.store 1001 true) Sample.fresh 5 1 Sample.ett)
        5 1 [Sample.eit 1]).db_events = Sample.fresh.db_events ++ [ev] ∧
      ev.ett = some "Synopsis") ∧
    (∃ ev : DBEvent,
      (AddETT Sample.collab (Sample.store 1001 true)
        (AddEIT Sample.collab (Sample.store 1001 true) Sample.fresh 5 1 [Sample.eit 1])
        5 1 Sample.ett).db_events = Sample.fresh.db_events ++ [ev] ∧
      ev.ett = some "Synopsis") :=
  have h := correlation_either_order Sample.collab (Sample.store 1001 true)
    (Sample.store 1001 true) Sample.fresh 5 1 (Sample.eit 1) Sample.ett rfl
    (by decide) (by decide) (by decide)
  ⟨h.1, h.2 (by decide)⟩

/-- C2 fails as stated.  With the text "Synopsis" pending for event 7 of
channel 5.1, submitting the primary fragment of event 7 with
`ETMLocation = 0` removes the pending entry. -/
theorem AddEIT_no_etm_counterexample :
    (Sample.eit 0).ETMLocation = 0 ∧
    pendingETT Sample.engineWithText (atsc_key 5 1) 7 = some (some "Synopsis") ∧
    pendingETT (AddEIT Sample.collab (Sample.store 1001 true) Sample.engineWithText 5 1
      [Sample.eit 0]) (atsc_key 5 1) 7 = none := by
  decide

/-- C2 at a concrete input: the fragment of the counterexample is completed
with the pending text "Synopsis". -/
theorem AddEIT_no_etm_completes_witness :
    pendingETT (AddEIT Sample.collab (Sample.store 1001 true) Sample.engineWithText 5 1
      [Sample.eit 0]) (atsc_key 5 1) 7 = none ∧
    ∃ ev : DBEvent,
      (AddEIT Sample.collab (Sample.store 1001 true) Sample.engineWithText 5 1
        [Sample.eit 0]).db_events = Sample.engineWithText.db_events ++ [ev] ∧
      ev.ett = some "Synopsis" ∧ ev.chanid = 1001 :=
  have h := AddEIT_no_etm_completes Sample.collab (Sample.store 1001 true)
    Sample.engineWithText 5 1 (Sample.eit 0) rfl
  ⟨h.1, h.2.2.2.1 (by decide)⟩

/-- C3 at a concrete input: on a fresh engine the fragment of event 7 is
enqueued with the null text when it expects no extended text and is stored,
with nothing enqueued, when it does. -/
theorem AddEIT_without_pending_text_witness :
    (∃ ev : DBEvent,
      (AddEIT Sample.collab (Sample.store 1001 true) Sample.fresh 5 1
        [Sample.eit 0]).db_events = Sample.fresh.db_events ++ [ev] ∧
      ev.ett = none ∧ ev.chanid = 1001) ∧
    (AddEIT Sample.collab (Sample.store 1001 true) Sample.fresh 5 1
      [Sample.eit 1]).db_events = Sample.fresh.db_events :=
  ⟨((AddEIT_without_pending_text Sample.collab (Sample.store 1001 true) Sample.fresh 5 1
      (Sample.eit 0) (by decide)).1 rfl).2.2.2.1 (by decide),
   ((AddEIT_without_pending_text Sample.collab (Sample.store 1001 true) Sample.fresh 5 1
      (Sample.eit 1) (by decide)).2 (by decide)).1⟩

/-- C4 at a concrete input: the first unmatched text for event 7 is stored on
a fresh engine and nothing is enqueued. -/
theorem AddETT_first_arrival_wins_witness :
    (AddETT Sample.collab (Sample.store 1001 true) Sample.fresh 5 1 Sample.ett).db_events
      = Sample.fresh.db_events ∧
    pendingETT (AddETT Sample.collab (Sample.store 1001 true) Sample.fresh 5 1 Sample.ett)
      (atsc_key 5 1) 7 = some (some "Synopsis") :=
  have h := AddETT_first_arrival_wins Sample.collab (Sample.store 1001 true) Sample.fresh 5 1
    Sample.ett (by decide)
  ⟨h.1, h.2.1 (by decide)⟩

/-- C7 fails as stated.  A store that admits channel 5.1 under the id `2^31`:
the first `GetChanID` call resolves the key to `2^31`, a non-zero id; the next
call with the same key, source id unchanged, returns 0. -/
theorem GetChanID_big_id_counterexample :
    (GetChanID (Sample.store 2147483648 true) Sample.fresh 5 1).1 = 2147483648 ∧
    (GetChanID (Sample.store 2147483648 true) Sample.fresh 5 1).2.sourceid
      = Sample.fresh.sourceid ∧
    (GetChanID (Sample.store 2147483648 true)
      (GetChanID (Sample.store 2147483648 true) Sample.fresh 5 1).2 5 1).1 = 0 := by
  decide

/-- C7 at a concrete input: channel 5.1 resolved to 1001 is answered from the
cache after a later `AddETT` call, even by a store that no longer admits it. -/
theorem GetChanID_cached_stable_witness :
    GetChanID_key (Sample.store 1001 false)
      (AddETT Sample.collab (Sample.store 1001 true) Sample.engineResolved 5 1 Sample.ett)
      (.atsc 5 1)
    = (1001, AddETT Sample.collab (Sample.store 1001 true) Sample.engineResolved 5 1
        Sample.ett) :=
  (GetChanID_cached_stable Sample.collab (Sample.store 1001 true) Sample.fresh (.atsc 5 1)).1
    (by decide) (by decide) _
    (Relation.ReflTransGen.single
      ⟨Step.addETT Sample.engineResolved (Sample.store 1001 true) 5 1 Sample.ett, rfl⟩)
    (Sample.store 1001 false)

/-- C8 fails as stated.  The state reached from a fresh engine by resolving
channel 5.1 against a store that admits it under the id `2^31` has a cache
entry for the key, and the `GetChanID` call that hits it returns 0. -/
theorem cache_hit_zero_counterexample :
    Reachable Sample.collab Sample.engineBigId ∧
    Sample.engineBigId.srv_to_chanid.find (chan_key Sample.engineBigId.sourceid 5 1)
      = some (-2147483648) ∧
    (GetChanID (Sample.store 2147483648 true) Sample.engineBigId 5 1).1 = 0 :=
  ⟨⟨(), 0, Relation.ReflTransGen.single
      (Step.getChanID Sample.fresh (Sample.store 2147483648 true) 5 1)⟩,
    by decide, by decide⟩

/-- C8 at a concrete input: after channel 5.1 was resolved to 1001, a hit on
its entry returns 1001. -/
theorem reachable_cache_entries_witness :
    (GetChanID_key (Sample.store 1001 false) Sample.engineResolved (.atsc 5 1)).1 = 1001 ∧
    (GetChanID_key (Sample.store 1001 false) Sample.engineResolved (.atsc 5 1)).1 ≠ 0 :=
  (reachable_cache_entries Sample.collab Sample.engineResolved
    ⟨(), 0, Relation.ReflTransGen.single
      (Step.getChanID Sample.fresh (Sample.store 1001 true) 5 1)⟩).2
    (.atsc 5 1) 1001 (Sample.store 1001 false) (by decide) (by decide)

/-- C9 at a concrete input: on a fresh engine channel 5.1 resolves to 1001
when the store admits it and to 0, with the cache unchanged, when it does
not. -/
theorem GetChanID_uncached_lookup_witness :
    (GetChanID_key (Sample.store 1001 true) Sample.fresh (.atsc 5 1)).1 = 1001 ∧
    (GetChanID_key (Sample.store 1001 false) Sample.fresh (.atsc 5 1)).1 = 0 ∧
    (GetChanID_key (Sample.store 1001 false) Sample.fresh (.atsc 5 1)).2.srv_to_chanid
      = Sample.fresh.srv_to_chanid :=
  ⟨(GetChanID_uncached_lookup (Sample.store 1001 true) Sample.fresh (.atsc 5 1)
      (by decide)).2 1001 [] rfl,
   (GetChanID_uncached_lookup (Sample.store 1001 false) Sample.fresh (.atsc 5 1)
      (by decide)).1 (Or.inr (Or.inr ⟨1001, [], rfl⟩))⟩

/-- C10 fails as stated.  Channel 5.1 is resolved to 1001 while its admission
flag is true; the flag is then cleared, so that the store now answers 0; the
next `GetChanID` call for the key still returns 1001. -/
theorem admission_flip_counterexample :
    (GetChanID (Sample.store 1001 true) Sample.fresh 5 1).1 = 1001 ∧
    get_chan_id_from_db (Sample.store 1001 false) Sample.engineResolved.sourceid 5 1 = 0 ∧
    (GetChanID (Sample.store 1001 false) Sample.engineResolved 5 1).1 = 1001 := by
  decide

/-- C10 at a concrete input: channel 5.1 is refused twice while its flag is
false and resolved to 1001 by the next call once the flag is true; once 1001 is
cached, the call made after the flag was cleared still returns 1001; and when
the id cached is `2^31`, the next call returns 0. -/
theorem admission_flip_observed_witness :
    (GetChanID_key (Sample.store 1001 true)
      (GetChanID_seq [(Sample.store 1001 false, .atsc 5 1), (Sample.store 1001 false, .atsc 5 1)]
        Sample.fresh) (.atsc 5 1)).1 = 1001 ∧
    (GetChanID_key (Sample.store 1001 false)
      (GetChanID_key (Sample.store 1001 true) Sample.fresh (.atsc 5 1)).2 (.atsc 5 1)).1 = 1001 ∧
    (GetChanID_key (Sample.store 2147483648 true)
      (GetChanID_key (Sample.store 2147483648 true) Sample.fresh (.atsc 5 1)).2
        (.atsc 5 1)).1 = 0 :=
  ⟨(admission_flip_observed Sample.collab Sample.fresh (.atsc 5 1)).1 (by decide)
      [(Sample.store 1001 false, .atsc 5 1), (Sample.store 1001 false, .atsc 5 1)]
      (by
        intro p hp _
        simp only [List.mem_cons, List.mem_singleton, List.not_mem_nil, or_false, or_self] at hp
        subst hp
        decide)
      (Sample.store 1001 true) 1001 true [] rfl,
    (congrArg Prod.fst
      (((admission_flip_observed Sample.collab Sample.fresh (.atsc 5 1)).2.2 (by decide)
        (Sample.store 1001 true) 1001 [] rfl (by decide)).2
          (GetChanID_key (Sample.store 1001 true) Sample.fresh (.atsc 5 1)).2
          Relation.ReflTransGen.refl (Sample.store 1001 false))).trans
      (by decide),
    (congrArg Prod.fst
      (((admission_flip_observed Sample.collab Sample.fresh (.atsc 5 1)).2.2 (by decide)
        (Sample.store 2147483648 true) 2147483648 [] rfl (by decide)).2
          (GetChanID_key (Sample.store 2147483648 true) Sample.fresh (.atsc 5 1)).2
          Relation.ReflTransGen.refl (Sample.store 2147483648 true))).trans
      (by decide)⟩

/-! ## The configured UTC offset: claims -/

/-- The truncated remainder of a division by 60. -/
theorem tmod_60 (s : Int) :
    ∃ q r : Int, s = 60 * q + r ∧ Int.tmod s 60 = r ∧ -60 < r ∧ r < 60 ∧
      (0 ≤ s → 0 ≤ r) ∧ (s ≤ 0 → r ≤ 0) := by
  cases s with
  | ofNat n =>
    refine ⟨((n / 60 : Nat) : Int), ((n % 60 : Nat) : Int), ?_, rfl, ?_, ?_, ?_, ?_⟩
    · have := Nat.div_add_mod n 60
      simp only [Int.ofNat_eq_coe]
      omega
    · omega
    · omega
    · intro _; omega
    · intro h
      simp only [Int.ofNat_eq_coe] at h
      omega
  | negSucc n =>
    refine ⟨-(((n + 1) / 60 : Nat) : Int), -(((n + 1) % 60 : Nat) : Int), ?_, rfl, ?_, ?_, ?_, ?_⟩
    · have := Nat.div_add_mod (n + 1) 60
      have h2 : Int.negSucc n = -((n + 1 : Nat) : Int) := rfl
      rw [h2]
      omega
    · omega
    · omega
    · intro h
      have h2 : Int.negSucc n = -((n + 1 : Nat) : Int) := rfl
      rw [h2] at h
      omega
    · intro _; omega

/-- The "Auto" branch on a measured offset `60 * q + r` whose truncated
remainder is `r`. -/
theorem calc_auto_eq (s q r : Int) (hs : s = 60 * q + r) (hr : Int.tmod s 60 = r) :
    calc_eit_utc_offset "Auto" s =
      if -10 < r ∧ r < 10 then 60 * q
      else if -60 < r ∧ r < -50 then 60 * (q - 1)
      else if 50 < r ∧ r < 60 then 60 * (q + 1)
      else s := by
  unfold calc_eit_utc_offset
  rw [if_pos rfl]
  simp only [hr, abs_lt]
  split_ifs <;> omega

/-- C15.  In "Auto" mode, for every measured local-minus-UTC offset `s` (of
either sign), `calc_eit_utc_offset` returns the multiple of 60 that `s` is less
than 10 seconds away from, and returns `s` unchanged when there is no such
multiple; an offset 3 s past a whole minute collapses to it and an offset 55 s
past it rounds up to the next minute. -/
theorem calc_eit_utc_offset_auto (s : Int) :
    (∀ m : Int, |s - 60 * m| < 10 → calc_eit_utc_offset "Auto" s = 60 * m) ∧
    ((∀ m : Int, 10 ≤ |s - 60 * m|) → calc_eit_utc_offset "Auto" s = s) ∧
    (∀ m : Int, calc_eit_utc_offset "Auto" (60 * m + 3) = 60 * m) ∧
    (∀ m : Int, calc_eit_utc_offset "Auto" (60 * m + 55) = 60 * (m + 1)) := by
  have near : ∀ (s m : Int), |s - 60 * m| < 10 → calc_eit_utc_offset "Auto" s = 60 * m := by
    intro s m hm
    obtain ⟨q, r, hs, hr, h1, h2, _, _⟩ := tmod_60 s
    rw [calc_auto_eq s q r hs hr]
    rw [abs_lt] at hm
    split_ifs <;> omega
  refine ⟨near s, ?_, fun m => near _ m ?_, fun m => near _ (m + 1) ?_⟩
  · intro hfar
    obtain ⟨q, r, hs, hr, h1, h2, _, _⟩ := tmod_60 s
    rw [calc_auto_eq s q r hs hr]
    have f0 := hfar q
    have f1 := hfar (q + 1)
    have f2 := hfar (q - 1)
    rw [le_abs] at f0 f1 f2
    split_ifs <;> omega
  · rw [abs_lt]
    constructor <;> omega
  · rw [abs_lt]
    constructor <;> omega

/-- C16, evaluated on the code.  The string "+0530" gives 19800 s, the offset
it denotes, but "-0530" gives -16200 s where the denoted offset is -19800 s:
in `sign * (hours * 60 * 60) + (minutes * 60)` the sign multiplies the hours
only. -/
theorem calc_eit_utc_offset_signed_string :
    calc_eit_utc_offset "+0530" 0 = 19800 ∧ denoted_offset false 5 30 = 19800 ∧
    calc_eit_utc_offset "-0530" 0 = -16200 ∧ denoted_offset true 5 30 = -19800 := by
  decide

/-! ## The completion queue: what `ProcessEvents` returns -/

/-- The loop of `ProcessEvents` with its running sum and the store: it hands
a prefix of the queue to `UpdateDB`, one call per event, and adds up the
reported counts in `uint` arithmetic. -/
theorem ProcessEvents_loop_trace {PS : Type} (c : Collab EC)
    (UpdateDB : PS → DBEvent → Nat → Nat × PS) :
    ∀ (q : List DBEvent) (i n : Nat) (ps : PS) (h : List DBEvent),
      ∃ k, i + k ≤ max i kChunkSize ∧
        (ProcessEvents_loop c UpdateDB i q n ps h).2.1 = q.drop k ∧
        (ProcessEvents_loop c UpdateDB i q n ps h).2.2.2 = h ++ (q.take k).map c.Fix ∧
        (ProcessEvents_loop c UpdateDB i q n ps h).1 =
          (if k = 0 then n
            else u32 (n + (UpdateDB_counts UpdateDB ps ((q.take k).map c.Fix)).sum)) ∧
        (ProcessEvents_loop c UpdateDB i q n ps h).2.2.1 =
          UpdateDB_store UpdateDB ps ((q.take k).map c.Fix) := by
  intro q
  induction q with
  | nil =>
    intro i n ps h
    exact ⟨0, by simp, by simp [ProcessEvents_loop], by simp [ProcessEvents_loop],
      by simp [ProcessEvents_loop], by simp [ProcessEvents_loop, UpdateDB_store]⟩
  | cons e rest ih =>
    intro i n ps h
    by_cases hc : i < kChunkSize ∧ i < (e :: rest).length
    · obtain ⟨k, hk, hq, hh, hn, hs⟩ := ih (i + 1) (u32 (n + (UpdateDB ps (c.Fix e) 1000).1))
        (UpdateDB ps (c.Fix e) 1000).2 (h ++ [c.Fix e])
      refine ⟨k + 1, ?_, ?_, ?_, ?_, ?_⟩
      · have h1 : max (i + 1) kChunkSize = kChunkSize := max_eq_right hc.1
        have h2 : max i kChunkSize = kChunkSize := max_eq_right (le_of_lt hc.1)
        omega
      · simp only [ProcessEvents_loop, if_pos hc]
        rw [hq]
        rfl
      · simp only [ProcessEvents_loop, if_pos hc]
        rw [hh]
        simp
      · simp only [ProcessEvents_loop, if_pos hc]
        rw [hn]
        simp only [List.take_succ_cons, List.map_cons, UpdateDB_counts, List.sum_cons,
          Nat.succ_ne_zero, if_false]
        by_cases hk0 : k = 0
        · subst hk0
          simp [UpdateDB_counts]
        · rw [if_neg hk0]
          unfold u32
          omega
      · simp only [ProcessEvents_loop, if_pos hc]
        rw [hs]
        simp [UpdateDB_store]
    · refine ⟨0, by simp, ?_, ?_, ?_, ?_⟩
      · simp only [ProcessEvents_loop, if_neg hc]
        rfl
      · simp only [ProcessEvents_loop, if_neg hc]
        simp
      · simp only [ProcessEvents_loop, if_neg hc]
        simp
      · simp only [ProcessEvents_loop, if_neg hc]
        simp [UpdateDB_store]

/-- C19.  `ProcessEvents` returns the number of events inserted.  It dequeues
the `k` oldest events for some `k`, invokes `UpdateDB` exactly once on each of
them, in order (the store goes through exactly these calls), and returns the
sum of the counts those calls reported, computed in `uint` arithmetic: the sum
itself whenever it is below `2^32`.  On an empty queue it returns 0 without
invoking persistence. -/
theorem ProcessEvents_returns_insert_count {PS : Type} (c : Collab EC)
    (UpdateDB : PS → DBEvent → Nat → Nat × PS) (ps : PS) (st : EITHelper EC) :
    (∃ k,
      (ProcessEvents c UpdateDB ps st).handed = (st.db_events.take k).map c.Fix ∧
      (ProcessEvents c UpdateDB ps st).state.db_events = st.db_events.drop k) ∧
    (ProcessEvents c UpdateDB ps st).store
      = UpdateDB_store UpdateDB ps (ProcessEvents c UpdateDB ps st).handed ∧
    (ProcessEvents c UpdateDB ps st).insertCount
      = u32 (UpdateDB_counts UpdateDB ps (ProcessEvents c UpdateDB ps st).handed).sum ∧
    ((UpdateDB_counts UpdateDB ps (ProcessEvents c UpdateDB ps st).handed).sum < 2 ^ 32 →
      (ProcessEvents c UpdateDB ps st).insertCount
        = (UpdateDB_counts UpdateDB ps (ProcessEvents c UpdateDB ps st).handed).sum) ∧
    (st.db_events = [] →
      (ProcessEvents c UpdateDB ps st).insertCount = 0 ∧
      (ProcessEvents c UpdateDB ps st).handed = [] ∧
      (ProcessEvents c UpdateDB ps st).store = ps) := by
  have key : (∃ k,
      (ProcessEvents c UpdateDB ps st).handed = (st.db_events.take k).map c.Fix ∧
      (ProcessEvents c UpdateDB ps st).state.db_events = st.db_events.drop k) ∧
    (ProcessEvents c UpdateDB ps st).store
      = UpdateDB_store UpdateDB ps (ProcessEvents c UpdateDB ps st).handed ∧
    (ProcessEvents c UpdateDB ps st).insertCount
      = u32 (UpdateDB_counts UpdateDB ps (ProcessEvents c UpdateDB ps st).handed).sum := by
    unfold ProcessEvents
    split
    · exact ⟨⟨0, by simp, by simp⟩, by simp [UpdateDB_store], by simp [UpdateDB_counts, u32]⟩
    · obtain ⟨k, _, hq, hh, hn, hs⟩ :=
        ProcessEvents_loop_trace c UpdateDB st.db_events 0 0 ps []
      simp only [List.nil_append] at hh
      refine ⟨⟨k, hh, hq⟩, ?_, ?_⟩
      · simp only
        rw [hs, hh]
      · simp only
        rw [hn, hh]
        by_cases hk0 : k = 0
        · subst hk0
          simp [UpdateDB_counts, u32]
        · simp only [if_neg hk0, Nat.zero_add]
          split
          · rename_i h0
            exact h0.symm
          · rfl
  refine ⟨key.1, key.2.1, key.2.2, fun hlt => ?_, fun hempty => ?_⟩
  · rw [key.2.2]
    exact Nat.mod_eq_of_lt hlt
  · unfold ProcessEvents
    rw [hempty]
    simp

/-! ## The events that are enqueued -/

/-- What `GetChanID` leaves alone, continued. -/
theorem GetChanID_frame_offsets (db : ChannelDB) (st : EITHelper EC)
    (atsc_major atsc_minor : Nat) :
    (GetChanID db st atsc_major atsc_minor).2.gps_offset = st.gps_offset ∧
    (GetChanID db st atsc_major atsc_minor).2.utc_offset = st.utc_offset ∧
    (GetChanID db st atsc_major atsc_minor).2.eitcache = st.eitcache := by
  unfold GetChanID
  simp only
  split
  · simp
  · split <;> simp

theorem GetChanID_dvb_fst_congr (db : ChannelDB) (a b : EITHelper EC)
    (serviceid networkid tsid : Nat)
    (h1 : a.srv_to_chanid = b.srv_to_chanid) (h2 : a.sourceid = b.sourceid) :
    (GetChanID_dvb db a serviceid networkid tsid).1
      = (GetChanID_dvb db b serviceid networkid tsid).1 := by
  unfold GetChanID_dvb
  simp only [h1, h2]
  cases b.srv_to_chanid.find (chan_key_dvb b.sourceid serviceid networkid tsid) with
  | some v => rfl
  | none =>
    simp only
    split <;> rfl

/-- The event `CompleteEvent` enqueues when the channel resolves to a non-zero
id: its channel id, extended text, start time, end time and fix-up mask. -/
theorem CompleteEvent_enqueued_shape (c : Collab EC) (db : ChannelDB) (st : EITHelper EC)
    (atsc_major atsc_minor : Nat) (event : ATSCEvent) (ett : QString)
    (h : (GetChanID db st atsc_major atsc_minor).1 ≠ 0) :
    ∃ ev : DBEvent,
      (CompleteEvent c db st atsc_major atsc_minor event ett).db_events = st.db_events ++ [ev] ∧
      ev.chanid = (GetChanID db st atsc_major atsc_minor).1 ∧
      ev.ett = ett ∧
      ev.starttime = atsc_starttime c st event ∧
      ev.endtime = ev.starttime + toInt32 event.length ∧
      ev.fixup = rule st.fixup (atsc_key atsc_major atsc_minor) := by
  have hf := GetChanID_frame db st atsc_major atsc_minor
  have ho := GetChanID_frame_offsets db st atsc_major atsc_minor
  unfold CompleteEvent
  simp only
  rw [if_neg h]
  simp only [hf.2.1, hf.2.2.2.2.2.2.2, ho.1, ho.2.1]
  exact ⟨_, rfl, rfl, rfl, rfl, rfl, rfl⟩

/-- The three outcomes of the loop body of the DVB `AddEIT`: the event is not
new, its channel resolves to 0, or one event is enqueued. -/
theorem AddEIT_dvb_event_shape (c : Collab EC) (db : ChannelDB)
    (eit : DVBEventInformationTable) (descCompression fix : Nat) (s : EITHelper EC)
    (e : DVBEvent) :
    (AddEIT_dvb_event c db eit descCompression fix s e).eitcache =
      (c.IsNewEIT s.eitcache eit.OriginalNetworkID eit.TSID eit.ServiceID eit.TableID
        eit.Version e.EventID e.EndTimeUnixUTC).2 ∧
    (((c.IsNewEIT s.eitcache eit.OriginalNetworkID eit.TSID eit.ServiceID eit.TableID
          eit.Version e.EventID e.EndTimeUnixUTC).1 = false ∨
        (GetChanID_dvb db s eit.ServiceID eit.OriginalNetworkID eit.TSID).1 = 0) →
      (AddEIT_dvb_event c db eit descCompression fix s e).db_events = s.db_events) ∧
    ((c.IsNewEIT s.eitcache eit.OriginalNetworkID eit.TSID eit.ServiceID eit.TableID
          eit.Version e.EventID e.EndTimeUnixUTC).1 = true →
        (GetChanID_dvb db s eit.ServiceID eit.OriginalNetworkID eit.TSID).1 ≠ 0 →
      ∃ ev : DBEvent,
        (AddEIT_dvb_event c db eit descCompression fix s e).db_events = s.db_events ++ [ev] ∧
        ev.chanid = (GetChanID_dvb db s eit.ServiceID eit.OriginalNetworkID eit.TSID).1 ∧
        ev.starttime = dvb_starttime c e ∧
        ev.endtime = ev.starttime + toInt32 e.DurationInSeconds ∧
        ev.fixup = fix) := by
  have hg : (GetChanID_dvb db
      { s with eitcache := (c.IsNewEIT s.eitcache eit.OriginalNetworkID eit.TSID eit.ServiceID
          eit.TableID eit.Version e.EventID e.EndTimeUnixUTC).2 }
      eit.ServiceID eit.OriginalNetworkID eit.TSID).1
      = (GetChanID_dvb db s eit.ServiceID eit.OriginalNetworkID eit.TSID).1 :=
    GetChanID_dvb_fst_congr db _ _ _ _ _ rfl rfl
  have hfr := GetChanID_dvb_frame db
      { s with eitcache := (c.IsNewEIT s.eitcache eit.OriginalNetworkID eit.TSID eit.ServiceID
          eit.TableID eit.Version e.EventID e.EndTimeUnixUTC).2 }
      eit.ServiceID eit.OriginalNetworkID eit.TSID
  have hec : (GetChanID_dvb db
      { s with eitcache := (c.IsNewEIT s.eitcache eit.OriginalNetworkID eit.TSID eit.ServiceID
          eit.TableID eit.Version e.EventID e.EndTimeUnixUTC).2 }
      eit.ServiceID eit.OriginalNetworkID eit.TSID).2.eitcache
      = (c.IsNewEIT s.eitcache eit.OriginalNetworkID eit.TSID eit.ServiceID
          eit.TableID eit.Version e.EventID e.EndTimeUnixUTC).2 := by
    unfold GetChanID_dvb
    simp only
    split
    · rfl
    · split <;> rfl
  by_cases hnew : (c.IsNewEIT s.eitcache eit.OriginalNetworkID eit.TSID eit.ServiceID
      eit.TableID eit.Version e.EventID e.EndTimeUnixUTC).1 = false
  · have hA : AddEIT_dvb_event c db eit descCompression fix s e =
        { s with eitcache := (c.IsNewEIT s.eitcache eit.OriginalNetworkID eit.TSID
            eit.ServiceID eit.TableID eit.Version e.EventID e.EndTimeUnixUTC).2 } := by
      unfold AddEIT_dvb_event
      simp only
      rw [if_pos hnew]
    rw [hA]
    refine ⟨rfl, fun _ => rfl, fun h => ?_⟩
    rw [hnew] at h
    cases h
  · by_cases hch : (GetChanID_dvb db s eit.ServiceID eit.OriginalNetworkID eit.TSID).1 = 0
    · have hB : AddEIT_dvb_event c db eit descCompression fix s e =
          (GetChanID_dvb db
            { s with eitcache := (c.IsNewEIT s.eitcache eit.OriginalNetworkID eit.TSID
                eit.ServiceID eit.TableID eit.Version e.EventID e.EndTimeUnixUTC).2 }
            eit.ServiceID eit.OriginalNetworkID eit.TSID).2 := by
        unfold AddEIT_dvb_event
        simp only
        rw [if_neg hnew, if_pos (hg.trans hch)]
      rw [hB]
      exact ⟨hec, fun _ => hfr.2.1, fun _ h => absurd hch h⟩
    · have hch' := fun h => hch (hg.symm.trans h)
      have hC : ∃ ev : DBEvent,
          AddEIT_dvb_event c db eit descCompression fix s e =
            { (GetChanID_dvb db
                { s with eitcache := (c.IsNewEIT s.eitcache eit.OriginalNetworkID eit.TSID
                    eit.ServiceID eit.TableID eit.Version e.EventID e.EndTimeUnixUTC).2 }
                eit.ServiceID eit.OriginalNetworkID eit.TSID).2 with
              db_events := (GetChanID_dvb db
                { s with eitcache := (c.IsNewEIT s.eitcache eit.OriginalNetworkID eit.TSID
                    eit.ServiceID eit.TableID eit.Version e.EventID e.EndTimeUnixUTC).2 }
                eit.ServiceID eit.OriginalNetworkID eit.TSID).2.db_events ++ [ev] } ∧
          ev.chanid = (GetChanID_dvb db s eit.ServiceID eit.OriginalNetworkID eit.TSID).1 ∧
          ev.starttime = dvb_starttime c e ∧
          ev.endtime = ev.starttime + toInt32 e.DurationInSeconds ∧
          ev.fixup = fix := by
        unfold AddEIT_dvb_event
        simp only
        rw [if_neg hnew, if_neg hch']
        exact ⟨_, rfl, hg, rfl, rfl, rfl⟩
      obtain ⟨ev, hC, h1, h2, h3, h4⟩ := hC
      rw [hC]
      refine ⟨hec, fun h => ?_, fun _ _ => ⟨ev, ?_, h1, h2, h3, h4⟩⟩
      · rcases h with h | h
        · exact absurd h hnew
        · exact absurd h hch
      · show _ ++ [ev] = _
        rw [hfr.2.1]

/-! ## Every queued event has a channel -/

theorem QueueOK_append {q : List DBEvent} {ev : DBEvent} (h : QueueOK q)
    (hev : ev.chanid ≠ 0) : QueueOK (q ++ [ev]) := by
  intro x hx
  rcases List.mem_append.1 hx with hx | hx
  · exact h x hx
  · rw [List.mem_singleton] at hx
    rw [hx]
    exact hev

theorem foldl_invariant {α : Type} (P : EITHelper EC → Prop) (f : EITHelper EC → α → EITHelper EC)
    (hf : ∀ s a, P s → P (f s a)) : ∀ (l : List α) (s : EITHelper EC), P s → P (l.foldl f s) := by
  intro l
  induction l with
  | nil => intro s h; exact h
  | cons a l ih => intro s h; exact ih (f s a) (hf s a h)

theorem CompleteEvent_queueOK (c : Collab EC) (db : ChannelDB) (st : EITHelper EC)
    (atsc_major atsc_minor : Nat) (event : ATSCEvent) (ett : QString)
    (h : QueueOK st.db_events) :
    QueueOK (CompleteEvent c db st atsc_major atsc_minor event ett).db_events := by
  by_cases hc : (GetChanID db st atsc_major atsc_minor).1 = 0
  · rw [CompleteEvent_dropped c db st atsc_major atsc_minor event ett hc]
    exact h
  · obtain ⟨ev, hq, _, hid⟩ := CompleteEvent_enqueued c db st atsc_major atsc_minor event ett hc
    rw [hq]
    exact QueueOK_append h (by rw [hid]; exact hc)

theorem AddEIT_event_queueOK (c : Collab EC) (db : ChannelDB) (atsc_major atsc_minor : Nat)
    (s : EITHelper EC) (e : EITEvent) (h : QueueOK s.db_events) :
    QueueOK (AddEIT_event c db atsc_major atsc_minor s e).db_events := by
  unfold AddEIT_event
  simp only
  split
  · exact CompleteEvent_queueOK c db s atsc_major atsc_minor _ _ h
  · split
    · exact CompleteEvent_queueOK c db s atsc_major atsc_minor _ _ h
    · exact h

theorem AddEIT_queueOK (c : Collab EC) (db : ChannelDB) (st : EITHelper EC)
    (atsc_major atsc_minor : Nat) (eit : EventInformationTable) (h : QueueOK st.db_events) :
    QueueOK (AddEIT c db st atsc_major atsc_minor eit).db_events :=
  foldl_invariant (fun s => QueueOK s.db_events) _
    (AddEIT_event_queueOK c db atsc_major atsc_minor) eit
    (AddEIT_entry st atsc_major atsc_minor) h

theorem AddETT_queueOK (c : Collab EC) (db : ChannelDB) (st : EITHelper EC)
    (atsc_major atsc_minor : Nat) (t : ExtendedTextTable) (h : QueueOK st.db_events) :
    QueueOK (AddETT c db st atsc_major atsc_minor t).db_events := by
  have hu : ∀ key id text, QueueOK (AddETT_unmatched st key id text).db_events := by
    intro key id text
    rw [(AddETT_unmatched_frame st key id text).1]
    exact h
  unfold AddETT
  simp only
  split
  · exact hu _ _ _
  · split
    · exact hu _ _ _
    · exact CompleteEvent_queueOK c db st atsc_major atsc_minor _ _ h

theorem AddEIT_dvb_event_queueOK (c : Collab EC) (db : ChannelDB)
    (eit : DVBEventInformationTable) (descCompression fix : Nat) (s : EITHelper EC)
    (e : DVBEvent) (h : QueueOK s.db_events) :
    QueueOK (AddEIT_dvb_event c db eit descCompression fix s e).db_events := by
  obtain ⟨_, hdrop, henq⟩ := AddEIT_dvb_event_shape c db eit descCompression fix s e
  by_cases hnew : (c.IsNewEIT s.eitcache eit.OriginalNetworkID eit.TSID eit.ServiceID
      eit.TableID eit.Version e.EventID e.EndTimeUnixUTC).1 = false
  · rw [hdrop (Or.inl hnew)]
    exact h
  · by_cases hch : (GetChanID_dvb db s eit.ServiceID eit.OriginalNetworkID eit.TSID).1 = 0
    · rw [hdrop (Or.inr hch)]
      exact h
    · obtain ⟨ev, hq, hid, _⟩ := henq (by simpa using hnew) hch
      rw [hq]
      exact QueueOK_append h (by rw [hid]; exact hch)

theorem AddEIT_dvb_queueOK (c : Collab EC) (db : ChannelDB) (st : EITHelper EC)
    (eit : DVBEventInformationTable) (h : QueueOK st.db_events) :
    QueueOK (AddEIT_dvb c db st eit).db_events :=
  foldl_invariant (fun s => QueueOK s.db_events) _
    (AddEIT_dvb_event_queueOK c db eit (if eit.TableID > 0x80 then 2 else 1)
      (dvb_fix c st.fixup eit)) eit.events
    { st with fixup := (fixup_keys eit).foldl (fun m k => m.touch k 0) st.fixup } h

theorem ProcessEvents_queueOK {PS : Type} (c : Collab EC)
    (UpdateDB : PS → DBEvent → Nat → Nat × PS) (ps : PS) (st : EITHelper EC)
    (h : QueueOK st.db_events) : QueueOK (ProcessEvents c UpdateDB ps st).state.db_events := by
  unfold ProcessEvents
  split
  · exact h
  · obtain ⟨k, _, hq, _⟩ := ProcessEvents_loop_fifo c UpdateDB st.db_events 0 0 ps []
    simp only
    rw [hq]
    intro ev hev
    exact h ev (List.mem_of_mem_drop hev)

/-- Every method call keeps the channel ids of the queue non-zero. -/
theorem Step_queueOK {c : Collab EC} {a b : EITHelper EC} (h : Step c a b)
    (ha : QueueOK a.db_events) : QueueOK b.db_events := by
  cases h with
  | setFixup => exact ha
  | setLanguagePreferences => exact ha
  | setSourceID => exact ha
  | addEIT db atsc_major atsc_minor eit => exact AddEIT_queueOK c db a atsc_major atsc_minor eit ha
  | addETT db atsc_major atsc_minor t => exact AddETT_queueOK c db a atsc_major atsc_minor t ha
  | addEIT_dvb db eit => exact AddEIT_dvb_queueOK c db a eit ha
  | pruneCache => exact ha
  | processEvents UpdateDB ps => exact ProcessEvents_queueOK c UpdateDB ps a ha
  | getChanID db atsc_major atsc_minor =>
    rw [(GetChanID_frame db a atsc_major atsc_minor).2.1]
    exact ha
  | getChanID_dvb db serviceid networkid tsid =>
    rw [(GetChanID_dvb_frame db a serviceid networkid tsid).2.1]
    exact ha

/-- C11.  In every state reachable through the engine's methods every event
in the completion queue has a non-zero channel id; on the ATSC path
(`CompleteEvent`) and on the DVB path (loop body of `AddEIT`) a fragment whose
channel resolves to 0 is dropped: the queue is left as it was. -/
theorem queue_chanid_nonzero (c : Collab EC) (st : EITHelper EC) (hr : Reachable c st) :
    QueueOK st.db_events ∧
    (∀ (db : ChannelDB) (atsc_major atsc_minor : Nat) (event : ATSCEvent) (ett : QString),
      (GetChanID db st atsc_major atsc_minor).1 = 0 →
      (CompleteEvent c db st atsc_major atsc_minor event ett).db_events = st.db_events) ∧
    (∀ (db : ChannelDB) (eit : DVBEventInformationTable) (descCompression fix : Nat)
        (e : DVBEvent),
      (GetChanID_dvb db st eit.ServiceID eit.OriginalNetworkID eit.TSID).1 = 0 →
      (AddEIT_dvb_event c db eit descCompression fix st e).db_events = st.db_events) := by
  refine ⟨?_, fun db atsc_major atsc_minor event ett h =>
      CompleteEvent_dropped c db st atsc_major atsc_minor event ett h,
    fun db eit descCompression fix e h =>
      (AddEIT_dvb_event_shape c db eit descCompression fix st e).2.1 (Or.inr h)⟩
  obtain ⟨ec, offset, hsteps⟩ := hr
  induction hsteps with
  | refl =>
    intro ev hev
    cases hev
  | tail _ hstep ih => exact Step_queueOK hstep ih

/-- C12, as the code has it.  The end time of an enqueued event is its start
time plus the fragment's duration, so the start time is strictly earlier than
the end time for every duration of at least one second (below `2^31`), on the
ATSC path and on the DVB path; a fragment of duration 0 is enqueued with its
end time equal to its start time. -/
theorem enqueued_start_before_end (c : Collab EC) (db : ChannelDB) (st : EITHelper EC) :
    (∀ (atsc_major atsc_minor : Nat) (event : ATSCEvent) (ett : QString),
      (GetChanID db st atsc_major atsc_minor).1 ≠ 0 →
      ∃ ev : DBEvent,
        (CompleteEvent c db st atsc_major atsc_minor event ett).db_events
          = st.db_events ++ [ev] ∧
        (0 < event.length → event.length < 2 ^ 31 → ev.starttime < ev.endtime) ∧
        (event.length = 0 → ev.endtime = ev.starttime)) ∧
    (∀ (eit : DVBEventInformationTable) (descCompression fix : Nat) (e : DVBEvent),
      (c.IsNewEIT st.eitcache eit.OriginalNetworkID eit.TSID eit.ServiceID eit.TableID
        eit.Version e.EventID e.EndTimeUnixUTC).1 = true →
      (GetChanID_dvb db st eit.ServiceID eit.OriginalNetworkID eit.TSID).1 ≠ 0 →
      ∃ ev : DBEvent,
        (AddEIT_dvb_event c db eit descCompression fix st e).db_events
          = st.db_events ++ [ev] ∧
        (0 < e.DurationInSeconds → e.DurationInSeconds < 2 ^ 31 →
          ev.starttime < ev.endtime) ∧
        (e.DurationInSeconds = 0 → ev.endtime = ev.starttime)) := by
  constructor
  · intro atsc_major atsc_minor event ett hc
    obtain ⟨ev, hq, _, _, _, hend, _⟩ :=
      CompleteEvent_enqueued_shape c db st atsc_major atsc_minor event ett hc
    refine ⟨ev, hq, fun hpos hlt => ?_, fun h0 => ?_⟩
    · rw [hend, toInt32_of_lt hlt]
      have hp : (0 : Int) < (event.length : Int) := by exact_mod_cast hpos
      exact lt_add_of_pos_right _ hp
    · rw [hend, h0]
      simp [toInt32, u32]
  · intro eit descCompression fix e hnew hc
    obtain ⟨ev, hq, _, _, hend, _⟩ :=
      (AddEIT_dvb_event_shape c db eit descCompression fix st e).2.2 hnew hc
    refine ⟨ev, hq, fun hpos hlt => ?_, fun h0 => ?_⟩
    · rw [hend, toInt32_of_lt hlt]
      have hp : (0 : Int) < (e.DurationInSeconds : Int) := by exact_mod_cast hpos
      exact lt_add_of_pos_right _ hp
    · rw [hend, h0]
      simp [toInt32, u32]

/-- C13.  For every completed event, on the ATSC path (`CompleteEvent`) and on
the DVB path (`AddEIT`), the start time is the one left by `TimeFix` and the
end time is that start time plus the fragment's duration, handed to
`addSecs(int)`: plus the duration in seconds for every duration below `2^31`.
A primary fragment of duration 1800 that expects text, followed by the
extended text for the same key, yields exactly one queued event whose end time
is its start time plus 1800 s and whose extended text is that text. -/
theorem enqueued_end_is_start_plus_duration (c : Collab EC) (db : ChannelDB)
    (st : EITHelper EC) :
    (∀ (atsc_major atsc_minor : Nat) (event : ATSCEvent) (ett : QString),
      (GetChanID db st atsc_major atsc_minor).1 ≠ 0 →
      ∃ ev : DBEvent,
        (CompleteEvent c db st atsc_major atsc_minor event ett).db_events
          = st.db_events ++ [ev] ∧
        ev.starttime = atsc_starttime c st event ∧
        ev.endtime = QDateTime.addSecs ev.starttime (toInt32 event.length) ∧
        (event.length < 2 ^ 31 → ev.endtime = ev.starttime + (event.length : Int))) ∧
    (∀ (eit : DVBEventInformationTable) (descCompression fix : Nat) (e : DVBEvent),
      (c.IsNewEIT st.eitcache eit.OriginalNetworkID eit.TSID eit.ServiceID eit.TableID
        eit.Version e.EventID e.EndTimeUnixUTC).1 = true →
      (GetChanID_dvb db st eit.ServiceID eit.OriginalNetworkID eit.TSID).1 ≠ 0 →
      ∃ ev : DBEvent,
        (AddEIT_dvb_event c db eit descCompression fix st e).db_events
          = st.db_events ++ [ev] ∧
        ev.starttime = dvb_starttime c e ∧
        ev.endtime = QDateTime.addSecs ev.starttime (toInt32 e.DurationInSeconds) ∧
        (e.DurationInSeconds < 2 ^ 31 →
          ev.endtime = ev.starttime + (e.DurationInSeconds : Int))) ∧
    (∀ (db1 : ChannelDB) (atsc_major atsc_minor : Nat) (e : EITEvent) (t : ExtendedTextTable),
      t.EventID = e.EventID →
      pendingEIT st (atsc_key atsc_major atsc_minor) e.EventID = none →
      pendingETT st (atsc_key atsc_major atsc_minor) e.EventID = none →
      (GetChanID db st atsc_major atsc_minor).1 ≠ 0 →
      e.ETMLocation ≠ 0 → e.LengthInSeconds = 1800 →
      ∃ ev : DBEvent,
        (AddETT c db (AddEIT c db1 st atsc_major atsc_minor [e]) atsc_major atsc_minor
          t).db_events = st.db_events ++ [ev] ∧
        ev.endtime = ev.starttime + 1800 ∧
        ev.ett = c.GetBestMatch t.ExtendedTextMessage st.languagePreferences) := by
  refine ⟨?_, ?_, ?_⟩
  · intro atsc_major atsc_minor event ett hc
    obtain ⟨ev, hq, _, _, hstart, hend, _⟩ :=
      CompleteEvent_enqueued_shape c db st atsc_major atsc_minor event ett hc
    refine ⟨ev, hq, hstart, hend, fun hlt => ?_⟩
    rw [hend, toInt32_of_lt hlt]
  · intro eit descCompression fix e hnew hc
    obtain ⟨ev, hq, _, hstart, hend, _⟩ :=
      (AddEIT_dvb_event_shape c db eit descCompression fix st e).2.2 hnew hc
    refine ⟨ev, hq, hstart, hend, fun hlt => ?_⟩
    rw [hend, toInt32_of_lt hlt]
  · intro db1 atsc_major atsc_minor e t hid _ hT hchan hetm hlen
    have hs := AddEIT_stored_effect c db1 st atsc_major atsc_minor e hT hetm
    have hpend := hs.2.1 (atsc_key atsc_major atsc_minor) t.EventID
    rw [if_pos ⟨rfl, hid⟩] at hpend
    have ha := AddETT_of_some c db (AddEIT c db1 st atsc_major atsc_minor [e])
      atsc_major atsc_minor t _ hpend
    have hg : (GetChanID db (AddEIT c db1 st atsc_major atsc_minor [e])
        atsc_major atsc_minor).1 = (GetChanID db st atsc_major atsc_minor).1 :=
      GetChanID_fst_congr db _ _ _ _ hs.2.2.2.1 hs.2.2.2.2.1
    rw [← hg] at hchan
    obtain ⟨ev, hq, _, hett, _, hend, _⟩ := CompleteEvent_enqueued_shape c db
      (AddEIT c db1 st atsc_major atsc_minor [e]) atsc_major atsc_minor
      { (ATSCEvent.ofRow c st.languagePreferences e) with
        desc := DescPtr.heap st.heap_next (e.Descriptors.take e.DescriptorsLength) }
      (c.GetBestMatch t.ExtendedTextMessage
        (AddEIT c db1 st atsc_major atsc_minor [e]).languagePreferences) hchan
    refine ⟨ev, ?_, ?_, ?_⟩
    · rw [ha.1, hq, hs.1]
    · rw [hend]
      have hl : ({ (ATSCEvent.ofRow c st.languagePreferences e) with
          desc := DescPtr.heap st.heap_next (e.Descriptors.take e.DescriptorsLength) }
          : ATSCEvent).length = 1800 := hlen
      rw [hl]
      rfl
    · rw [hett, hs.2.2.2.2.2]

/-- C14, as the code has it.  On the DVB path the loop body of `AddEIT` asks
`IsNewEIT` about every event of the table (the cache state afterwards is the
one `IsNewEIT` returned) and enqueues nothing for an event that is reported as
not new.  The correlated ATSC path does not consult the duplicate suppressor:
`AddEIT(atsc_major, atsc_minor, eit)` and `AddETT` give the same result
whatever `IsNewEIT` is. -/
theorem duplicate_suppressor_dvb_only (c : Collab EC) (db : ChannelDB) (st : EITHelper EC) :
    (∀ (eit : DVBEventInformationTable) (descCompression fix : Nat) (e : DVBEvent),
      (AddEIT_dvb_event c db eit descCompression fix st e).eitcache =
        (c.IsNewEIT st.eitcache eit.OriginalNetworkID eit.TSID eit.ServiceID eit.TableID
          eit.Version e.EventID e.EndTimeUnixUTC).2 ∧
      ((c.IsNewEIT st.eitcache eit.OriginalNetworkID eit.TSID eit.ServiceID eit.TableID
          eit.Version e.EventID e.EndTimeUnixUTC).1 = false →
        (AddEIT_dvb_event c db eit descCompression fix st e).db_events = st.db_events)) ∧
    (∀ (f : EC → Nat → Nat → Nat → Nat → Nat → Nat → Nat → Bool × EC)
        (atsc_major atsc_minor : Nat) (eit : EventInformationTable) (t : ExtendedTextTable),
      AddEIT { c with IsNewEIT := f } db st atsc_major atsc_minor eit
        = AddEIT c db st atsc_major atsc_minor eit ∧
      AddETT { c with IsNewEIT := f } db st atsc_major atsc_minor t
        = AddETT c db st atsc_major atsc_minor t) := by
  constructor
  · intro eit descCompression fix e
    have h := AddEIT_dvb_event_shape c db eit descCompression fix st e
    exact ⟨h.1, fun hnew => h.2.1 (Or.inl hnew)⟩
  · intro f atsc_major atsc_minor eit t
    exact ⟨rfl, rfl⟩

/-- C20, evaluated on the code.  The destructor leaves the blocks that `AddEIT`
allocated for pending primary fragments as they are: it only dequeues
completed events.  After a primary fragment that expects extended text was
stored, block 0 holds its descriptors, and the block is still allocated when
the destructor has run. -/
theorem destructor_leaves_pending_blocks :
    (∀ st : EITHelper EC, (destructor st).heap_live = st.heap_live) ∧
    (pendingEIT
        (AddEIT Sample.collab (Sample.store 1001 true) Sample.fresh 5 1 [Sample.eit 1])
        (atsc_key 5 1) 7).map ATSCEvent.desc = some (DescPtr.heap 0 []) ∧
    (AddEIT Sample.collab (Sample.store 1001 true) Sample.fresh 5 1 [Sample.eit 1]).heap_live
      = [0] ∧
    (destructor
      (AddEIT Sample.collab (Sample.store 1001 true) Sample.fresh 5 1 [Sample.eit 1])).heap_live
      = [0] :=
  ⟨fun _ => rfl, by decide, by decide, by decide⟩

/-! ## The fix-up mask of the DVB path -/

theorem QMap_find_append {V : Type} (a b : QMap V) (k : Nat) :
    QMap.find (a ++ b) k = match QMap.find a k with
      | some v => some v
      | none => QMap.find b k := by
  induction a with
  | nil => simp [QMap.find]
  | cons p a ih =>
    obtain ⟨k0, v0⟩ := p
    by_cases h : k0 = k
    · simp [QMap.find, h]
    · simpa [QMap.find, h] using ih

theorem QMap_find_none_of_keys {V : Type} (m : QMap V) (k : Nat)
    (h : ∀ p ∈ m, p.1 ≠ k) : QMap.find m k = none := by
  induction m with
  | nil => rfl
  | cons p m ih =>
    obtain ⟨k0, v0⟩ := p
    have h0 : k0 ≠ k := h (k0, v0) (List.mem_cons_self _ _)
    simp only [QMap.find, if_neg h0]
    exact ih (fun q hq => h q (List.mem_cons_of_mem _ hq))

/-- A table built by successive assignments holds, for each key, the value of
the last assignment to it. -/
theorem QMap_find_foldl_insert (g : Nat → Nat) :
    ∀ (rules : List (Nat × Nat)) (m0 : QMap Nat) (k : Nat),
      QMap.find (rules.foldl (fun m r => QMap.insert m r.1 (g r.2)) m0) k =
        match QMap.find rules.reverse k with
        | some v => some (g v)
        | none => QMap.find m0 k := by
  intro rules
  induction rules with
  | nil => intro m0 k; simp [QMap.find]
  | cons r rs ih =>
    intro m0 k
    simp only [List.foldl_cons, List.reverse_cons]
    rw [ih, QMap_find_append]
    cases QMap.find rs.reverse k with
    | some v => rfl
    | none =>
      obtain ⟨k0, v0⟩ := r
      by_cases h : k0 = k
      · subst h
        simp [QMap.find, QMap.find_insert_self]
      · simp [QMap.find, h, QMap.find_insert_ne _ _ h]

theorem init_fixup_find (b : FixUpBits) (k : Nat) :
    QMap.find (init_fixup b []) k =
      match QMap.find (init_fixup_rules b).reverse k with
      | some v => some (u32 v)
      | none => none := by
  unfold init_fixup
  rw [QMap_find_foldl_insert u32]
  rfl

theorem init_fixup_rules_keys (b : FixUpBits) :
    (init_fixup_rules b).map Prod.fst = init_fixup_keys := rfl

/-- No rule of `init_fixup` has a key that is not among `init_fixup_keys`. -/
theorem init_fixup_find_none (b : FixUpBits) (k : Nat) (h : k ∉ init_fixup_keys) :
    QMap.find (init_fixup b []) k = none := by
  rw [init_fixup_find]
  have hn : QMap.find (init_fixup_rules b).reverse k = none := by
    apply QMap_find_none_of_keys
    intro p hp hk
    apply h
    rw [← init_fixup_rules_keys b, ← hk]
    exact List.mem_map_of_mem Prod.fst (List.mem_reverse.1 hp)
  rw [hn]

/-- The value `fix` as the OR of the four rule-table values and the generic
DVB bit. -/
theorem dvb_fix_eq (c : Collab EC) (fixup : QMap Nat) (eit : DVBEventInformationTable) :
    dvb_fix c fixup eit =
      u32 (rule fixup (u32 (u32 eit.OriginalNetworkID <<< 16))
        ||| rule fixup
          (u64 (u64 (u32 eit.TSID <<< 32) ||| u32 (u32 eit.OriginalNetworkID <<< 16)))
        ||| rule fixup (u32 (u32 (u32 eit.OriginalNetworkID <<< 16) ||| u32 eit.ServiceID))
        ||| rule fixup
          (u64 (u64 (u64 (u32 eit.TSID <<< 32) ||| u32 (u32 eit.OriginalNetworkID <<< 16))
            ||| u32 eit.ServiceID))
        ||| c.bits.kFixGenericDVB) := by
  simp [dvb_fix, fixup_keys, rule]

/-- The events the DVB `AddEIT` appends to the queue carry the mask `fix`. -/
theorem AddEIT_dvb_fold_news (c : Collab EC) (db : ChannelDB) (eit : DVBEventInformationTable)
    (descCompression fix : Nat) :
    ∀ (events : List DVBEvent) (s : EITHelper EC),
      ∃ news : List DBEvent,
        (events.foldl (AddEIT_dvb_event c db eit descCompression fix) s).db_events
          = s.db_events ++ news ∧
        ∀ ev ∈ news, ev.fixup = fix := by
  intro events
  induction events with
  | nil => intro s; exact ⟨[], by simp, by simp⟩
  | cons e events ih =>
    intro s
    obtain ⟨news, hq, hfix⟩ := ih (AddEIT_dvb_event c db eit descCompression fix s e)
    obtain ⟨_, hdrop, henq⟩ := AddEIT_dvb_event_shape c db eit descCompression fix s e
    simp only [List.foldl_cons]
    by_cases hnew : (c.IsNewEIT s.eitcache eit.OriginalNetworkID eit.TSID eit.ServiceID
        eit.TableID eit.Version e.EventID e.EndTimeUnixUTC).1 = false
    · rw [hdrop (Or.inl hnew)] at hq
      exact ⟨news, hq, hfix⟩
    · by_cases hch : (GetChanID_dvb db s eit.ServiceID eit.OriginalNetworkID eit.TSID).1 = 0
      · rw [hdrop (Or.inr hch)] at hq
        exact ⟨news, hq, hfix⟩
      · obtain ⟨ev, hq1, _, _, _, hf⟩ := henq (by simpa using hnew) hch
        rw [hq1] at hq
        refine ⟨ev :: news, by simpa using hq, ?_⟩
        intro x hx
        rcases List.mem_cons.1 hx with hx | hx
        · rw [hx]
          exact hf
        · exact hfix x hx

theorem u32_or_left (a b : Nat) : u32 (u32 a ||| b) = u32 (a ||| b) := by
  apply Nat.eq_of_testBit_eq
  intro i
  simp only [u32, Nat.testBit_mod_two_pow, Nat.testBit_or]
  by_cases hi : i < 32 <;> simp [hi]

theorem u32_or_right (a b : Nat) : u32 (a ||| u32 b) = u32 (a ||| b) := by
  rw [Nat.lor_comm, u32_or_left, Nat.lor_comm]

theorem or_mask_norm (C S G X Y : Nat) (hX : X = u32 C ∨ X = 0) (hY : Y = u32 S ∨ Y = 0) :
    u32 (u32 C ||| X ||| u32 S ||| Y ||| G) = u32 (C ||| S ||| G) := by
  apply Nat.eq_of_testBit_eq
  intro i
  rcases hX with hX | hX <;> rcases hY with hY | hY <;> subst hX <;> subst hY <;>
    simp only [u32, Nat.testBit_mod_two_pow, Nat.testBit_or, Nat.zero_testBit] <;>
    by_cases hi : i < 32 <;> simp [hi]

/-- The keys of `init_fixup` whose low 32 bits are those of network 40999, or
of network 40999 with service 1070, have no stream part. -/
theorem init_fixup_keys_comhem :
    (∀ key ∈ init_fixup_keys, key % 2 ^ 32 = 2686910464 → key < 2 ^ 32) ∧
    (∀ key ∈ init_fixup_keys, key % 2 ^ 32 = 2686911534 → key < 2 ^ 32) := by
  decide

/-- The rules of a fresh engine for network 40999 and service 1070, on any
stream `t`. -/
theorem init_fixup_comhem (b : FixUpBits) (t : Nat) :
    rule (init_fixup b []) 2686910464 = u32 b.kFixComHem ∧
    rule (init_fixup b []) 2686911534 = u32 b.kFixSubtitle ∧
    (rule (init_fixup b []) (2 ^ 32 * t + 2686910464) = u32 b.kFixComHem ∨
      rule (init_fixup b []) (2 ^ 32 * t + 2686910464) = 0) ∧
    (rule (init_fixup b []) (2 ^ 32 * t + 2686911534) = u32 b.kFixSubtitle ∨
      rule (init_fixup b []) (2 ^ 32 * t + 2686911534) = 0) := by
  have h1 : rule (init_fixup b []) 2686910464 = u32 b.kFixComHem := by
    unfold rule QMap.value
    rw [init_fixup_find]
    rfl
  have h3 : rule (init_fixup b []) 2686911534 = u32 b.kFixSubtitle := by
    unfold rule QMap.value
    rw [init_fixup_find]
    rfl
  refine ⟨h1, h3, ?_, ?_⟩
  · by_cases ht : t = 0
    · subst ht
      exact Or.inl h1
    · right
      unfold rule QMap.value
      rw [init_fixup_find_none]
      · rfl
      · intro hmem
        have := init_fixup_keys_comhem.1 _ hmem (by omega)
        omega
  · by_cases ht : t = 0
    · subst ht
      exact Or.inl h3
    · right
      unfold rule QMap.value
      rw [init_fixup_find_none]
      · rfl
      · intro hmem
        have := init_fixup_keys_comhem.2 _ hmem (by omega)
        omega

/-- C17.  For every DVB table, the events that `AddEIT` enqueues carry the
mask `fix`, the bitwise OR of the rule-table values (0 where the table has no
rule) for the keys network-only, stream+network, network+service and
stream+network+service, OR-ed with the generic DVB bit.  While the rule
table reads as `init_fixup` built it (as on a freshly constructed engine),
network 40999 with service 1070 gets
`kFixComHem | kFixSubtitle | kFixGenericDVB` on every stream, and a
broadcaster without a rule under any of its four keys gets exactly
`kFixGenericDVB`. -/
theorem dvb_fixup_mask (c : Collab EC) (db : ChannelDB) (st : EITHelper EC)
    (eit : DVBEventInformationTable) :
    (∃ news : List DBEvent,
      (AddEIT_dvb c db st eit).db_events = st.db_events ++ news ∧
      ∀ ev ∈ news, ev.fixup =
        u32 (rule st.fixup (u32 (u32 eit.OriginalNetworkID <<< 16))
          ||| rule st.fixup
            (u64 (u64 (u32 eit.TSID <<< 32) ||| u32 (u32 eit.OriginalNetworkID <<< 16)))
          ||| rule st.fixup (u32 (u32 (u32 eit.OriginalNetworkID <<< 16) ||| u32 eit.ServiceID))
          ||| rule st.fixup
            (u64 (u64 (u64 (u32 eit.TSID <<< 32) ||| u32 (u32 eit.OriginalNetworkID <<< 16))
              ||| u32 eit.ServiceID))
          ||| c.bits.kFixGenericDVB)) ∧
    ((∀ key, rule st.fixup key = rule (init_fixup c.bits []) key) →
      eit.OriginalNetworkID = 40999 → eit.ServiceID = 1070 →
      dvb_fix c st.fixup eit
        = u32 (c.bits.kFixComHem ||| c.bits.kFixSubtitle ||| c.bits.kFixGenericDVB)) ∧
    ((∀ key ∈ fixup_keys eit, st.fixup.find key = none) →
      dvb_fix c st.fixup eit = u32 c.bits.kFixGenericDVB) := by
  refine ⟨?_, ?_, ?_⟩
  · obtain ⟨news, hq, hfix⟩ := AddEIT_dvb_fold_news c db eit
      (if eit.TableID > 0x80 then 2 else 1) (dvb_fix c st.fixup eit) eit.events
      { st with fixup := (fixup_keys eit).foldl (fun m k => m.touch k 0) st.fixup }
    refine ⟨news, hq, fun ev hev => ?_⟩
    rw [hfix ev hev, dvb_fix_eq]
  · intro hfix h1 h2
    have ht : u32 eit.TSID < 2 ^ 32 := Nat.mod_lt _ (by norm_num)
    have e1 : u32 (u32 40999 <<< 16) = 2686910464 := by decide
    have e3 : u32 (2686910464 ||| u32 1070) = 2686911534 := by decide
    have hL1 : 2686910464 < 2 ^ 32 := by norm_num
    have hL3 : 2686911534 < 2 ^ 32 := by norm_num
    have e2 : u64 (u64 (u32 eit.TSID <<< 32) ||| 2686910464)
        = 2 ^ 32 * u32 eit.TSID + 2686910464 := by
      have hlt : 2 ^ 32 * u32 eit.TSID < 2 ^ 64 := by omega
      have hu : u64 (u32 eit.TSID <<< 32) = 2 ^ 32 * u32 eit.TSID := by
        rw [Nat.shiftLeft_eq, Nat.mul_comm]
        exact Nat.mod_eq_of_lt hlt
      rw [hu, ← @Nat.mul_add_lt_is_or 32 2686910464 hL1 (u32 eit.TSID)]
      exact Nat.mod_eq_of_lt (by omega)
    have e4 : u64 (2 ^ 32 * u32 eit.TSID + 2686910464 ||| u32 1070)
        = 2 ^ 32 * u32 eit.TSID + 2686911534 := by
      have h1070 : u32 1070 = 1070 := by decide
      have hor : 2686910464 ||| 1070 = 2686911534 := by decide
      rw [h1070, @Nat.mul_add_lt_is_or 32 2686910464 hL1 (u32 eit.TSID), Nat.lor_assoc, hor,
        ← @Nat.mul_add_lt_is_or 32 2686911534 hL3 (u32 eit.TSID)]
      exact Nat.mod_eq_of_lt (by omega)
    obtain ⟨r1, r3, r2, r4⟩ := init_fixup_comhem c.bits (u32 eit.TSID)
    rw [dvb_fix_eq, h1, h2, e1, e2, e3, e4, hfix, hfix, hfix, hfix, r1, r3]
    generalize rule (init_fixup c.bits []) (2 ^ 32 * u32 eit.TSID + 2686910464) = X at r2 ⊢
    generalize rule (init_fixup c.bits []) (2 ^ 32 * u32 eit.TSID + 2686911534) = Y at r4 ⊢
    exact or_mask_norm c.bits.kFixComHem c.bits.kFixSubtitle c.bits.kFixGenericDVB X Y r2 r4
  · intro hnone
    have hr : ∀ key ∈ fixup_keys eit, rule st.fixup key = 0 := by
      intro key hkey
      unfold rule QMap.value
      rw [hnone key hkey]
      rfl
    unfold dvb_fix
    have hfold : ∀ (keys : List Nat) (acc : Nat), (∀ key ∈ keys, rule st.fixup key = 0) →
        keys.foldl (fun fix k => fix ||| st.fixup.value k 0) acc = acc := by
      intro keys
      induction keys with
      | nil => intro acc _; rfl
      | cons k keys ih =>
        intro acc hk
        simp only [List.foldl_cons]
        have h0 : st.fixup.value k 0 = 0 := hk k (List.mem_cons_self _ _)
        rw [h0, Nat.or_zero]
        exact ih acc (fun key hkey => hk key (List.mem_cons_of_mem _ hkey))
    rw [hfold (fixup_keys eit) 0 hr, Nat.zero_or]

/-! ## Language preferences -/

/-- The loop of `SetLanguagePreferences` performs the assignments
`languagePreferences[key] = priority++` for the canonical keys of the non-empty
entries, in list order. -/
theorem SetLanguagePreferences_loop_eq (c : Collab EC) :
    ∀ (langPref : List String) (prefs : QMap Nat) (priority : Nat),
      (SetLanguagePreferences_loop c langPref (prefs, priority)).1
        = assign_priorities (canonical_keys c langPref) prefs priority := by
  intro langPref
  induction langPref with
  | nil => intro prefs priority; rfl
  | cons it rest ih =>
    intro prefs priority
    by_cases h : it ≠ ""
    · simp only [SetLanguagePreferences_loop, if_pos h]
      rw [ih]
      simp [canonical_keys, List.filter, h, assign_priorities]
    · simp only [SetLanguagePreferences_loop, if_neg h]
      rw [ih]
      simp [canonical_keys, List.filter, h]

theorem assign_priorities_find_not_mem :
    ∀ (keys : List Nat) (prefs : QMap Nat) (priority key : Nat), key ∉ keys →
      QMap.find (assign_priorities keys prefs priority) key = QMap.find prefs key := by
  intro keys
  induction keys with
  | nil => intro prefs priority key _; rfl
  | cons k0 keys ih =>
    intro prefs priority key hmem
    have h0 : k0 ≠ key := fun h => hmem (by rw [h]; exact List.mem_cons_self _ _)
    have h1 : key ∉ keys := fun h => hmem (List.mem_cons_of_mem _ h)
    simp only [assign_priorities]
    rw [ih _ _ _ h1, QMap.find_insert_ne _ _ h0]

/-- After the assignments, the key at position `k` (from 0) holds the priority
of its position unless the key occurs again further on. -/
theorem assign_priorities_find :
    ∀ (keys : List Nat) (prefs : QMap Nat) (priority k key : Nat),
      keys[k]? = some key → (∀ j, k < j → keys[j]? ≠ some key) →
      priority + keys.length ≤ 2 ^ 32 →
      QMap.find (assign_priorities keys prefs priority) key = some (priority + k) := by
  intro keys
  induction keys with
  | nil =>
    intro prefs priority k key hk
    simp at hk
  | cons k0 keys ih =>
    intro prefs priority k key hk hlater hlen
    simp only [assign_priorities]
    cases k with
    | zero =>
      have hkey : k0 = key := by simpa using hk
      subst hkey
      have hnot : k0 ∉ keys := by
        intro hmem
        obtain ⟨n, hn⟩ := List.mem_iff_getElem?.1 hmem
        exact hlater (n + 1) (Nat.succ_pos n) (by simpa using hn)
      rw [assign_priorities_find_not_mem keys _ _ k0 hnot, QMap.find_insert_self]
      rfl
    | succ k' =>
      have hk' : keys[k']? = some key := by simpa using hk
      have hne : keys ≠ [] := by
        intro h
        rw [h] at hk'
        simp at hk'
      have hpos : 0 < keys.length := List.length_pos.2 hne
      simp only [List.length_cons] at hlen
      have hu : u32 (priority + 1) = priority + 1 := Nat.mod_eq_of_lt (by omega)
      rw [hu, ih _ (priority + 1) k' key hk'
        (fun j hj => by
          have := hlater (j + 1) (by omega)
          simpa using this)
        (by omega)]
      congr 1
      omega

/-- C18, as the code has it.  For every preference list with fewer than `2^32`
non-empty entries given to `SetLanguagePreferences` on a fresh engine, the
canonical language key of the k-th non-empty entry (empty entries are skipped
and consume no number; the first non-empty entry is number 1) is mapped to
priority k, unless a later non-empty entry has the same canonical key. -/
theorem language_priorities (c : Collab EC) (ec : EC) (offset : Int) (langPref : List String)
    (hlen : (canonical_keys c langPref).length < 2 ^ 32) (k key : Nat)
    (hk : (canonical_keys c langPref)[k]? = some key)
    (hlast : ∀ j, k < j → (canonical_keys c langPref)[j]? ≠ some key) :
    (SetLanguagePreferences c (new c ec offset) langPref).languagePreferences.find key
      = some (k + 1) := by
  have h := assign_priorities_find (canonical_keys c langPref) [] 1 k key hk hlast (by omega)
  unfold SetLanguagePreferences
  simp only
  rw [SetLanguagePreferences_loop_eq]
  rw [Nat.add_comm k 1]
  exact h

/-! ## The claims at concrete inputs, continued -/

/-- C11 at a concrete input: the 25 events queued for channel 5.1, admitted as
channel 1001, all carry a non-zero channel id. -/
theorem queue_chanid_nonzero_witness : QueueOK Sample.engine25.db_events :=
  (queue_chanid_nonzero Sample.collab Sample.engine25
    ⟨(), 0, Relation.ReflTransGen.single
      (Step.addEIT Sample.fresh (Sample.store 1001 true) 5 1 Sample.eit25)⟩).1

/-- C12 fails as stated.  A primary fragment of duration 0 that expects no
extended text, on a channel admitted as 1001: one event is enqueued and its
start time is not earlier than its end time. -/
theorem zero_duration_counterexample :
    Sample.eitZeroLength.LengthInSeconds = 0 ∧
    (AddEIT Sample.collab (Sample.store 1001 true) Sample.fresh 5 1
      [Sample.eitZeroLength]).db_events.map
        (fun ev => decide (ev.starttime < ev.endtime)) = [false] := by
  decide

/-- C12 at a concrete input: the event completed for the fragment of event 7,
of duration 1800, starts before it ends. -/
theorem enqueued_start_before_end_witness :
    ∃ ev : DBEvent,
      (CompleteEvent Sample.collab (Sample.store 1001 true) Sample.fresh 5 1
        (ATSCEvent.ofRow Sample.collab [] (Sample.eit 0)) none).db_events
        = Sample.fresh.db_events ++ [ev] ∧
      ev.starttime < ev.endtime := by
  obtain ⟨ev, hq, hlt, _⟩ :=
    (enqueued_start_before_end Sample.collab (Sample.store 1001 true) Sample.fresh).1 5 1
      (ATSCEvent.ofRow Sample.collab [] (Sample.eit 0)) none (by decide)
  exact ⟨ev, hq, hlt (by decide) (by decide)⟩

/-- C13 at a concrete input: the fragment of event 7 (duration 1800, expects
text) followed by the text "Synopsis" yields one event that ends 1800 s after
it starts and carries the text. -/
theorem enqueued_end_is_start_plus_duration_witness :
    ∃ ev : DBEvent,
      (AddETT Sample.collab (Sample.store 1001 true)
        (AddEIT Sample.collab (Sample.store 1001 true) Sample.fresh 5 1 [Sample.eit 1])
        5 1 Sample.ett).db_events = Sample.fresh.db_events ++ [ev] ∧
      ev.endtime = ev.starttime + 1800 ∧
      ev.ett = some "Synopsis" :=
  (enqueued_end_is_start_plus_duration Sample.collab (Sample.store 1001 true)
    Sample.fresh).2.2 (Sample.store 1001 true) 5 1 (Sample.eit 1) Sample.ett rfl
    (by decide) (by decide) (by decide) (by decide) rfl

/-- C14 fails as stated.  With a duplicate suppressor that reports every event
as already seen, the fragment of event 7 submitted through
`AddEIT(atsc_major, atsc_minor, eit)` is enqueued all the same, and submitting
it again unchanged enqueues a second event. -/
theorem atsc_path_not_suppressed_counterexample :
    (Sample.collabNoNew.IsNewEIT () 0 0 0 0 0 7 0).1 = false ∧
    (AddEIT Sample.collabNoNew (Sample.store 1001 true) Sample.fresh 5 1
      [Sample.eit 0]).db_events.length = 1 ∧
    (AddEIT Sample.collabNoNew (Sample.store 1001 true)
      (AddEIT Sample.collabNoNew (Sample.store 1001 true) Sample.fresh 5 1 [Sample.eit 0])
      5 1 [Sample.eit 0]).db_events.length = 2 := by
  decide

/-- C14 at a concrete input: with the same suppressor the DVB path enqueues
nothing for the event of the table. -/
theorem duplicate_suppressor_dvb_only_witness :
    (AddEIT_dvb_event Sample.collabNoNew (Sample.store 1001 true) Sample.dvbTable 1 49
      Sample.fresh Sample.dvbEvent).db_events = Sample.fresh.db_events :=
  ((duplicate_suppressor_dvb_only Sample.collabNoNew (Sample.store 1001 true)
    Sample.fresh).1 Sample.dvbTable 1 49 Sample.dvbEvent).2 rfl

/-- C15 at concrete inputs: 3603 s collapses to 3600 s and 3655 s rounds up to
3660 s. -/
theorem calc_eit_utc_offset_auto_witness :
    calc_eit_utc_offset "Auto" (60 * 60 + 3) = 60 * 60 ∧
    calc_eit_utc_offset "Auto" (60 * 60 + 55) = 60 * (60 + 1) :=
  ⟨(calc_eit_utc_offset_auto 0).2.2.1 60, (calc_eit_utc_offset_auto 0).2.2.2 60⟩

/-- C17 at a concrete input: on a fresh engine the table of network 40999,
stream 5, service 1070 gets the three bits `0x10 | 0x20 | 0x01`. -/
theorem dvb_fixup_mask_witness :
    dvb_fix Sample.collab Sample.fresh.fixup Sample.dvbTable = 49 :=
  (dvb_fixup_mask Sample.collab (Sample.store 1001 true) Sample.fresh Sample.dvbTable).2.1
    (fun _ => rfl) rfl rfl

/-- C18 fails as stated.  In the list "eng", "eng" the first non-empty entry
has the canonical key of "eng", and that key is mapped to priority 2. -/
theorem repeated_language_counterexample :
    (canonical_keys Sample.collab ["eng", "eng"])[0]? = some 6647399 ∧
    (SetLanguagePreferences Sample.collab Sample.fresh
      ["eng", "eng"]).languagePreferences.find 6647399 = some 2 := by
  decide

/-- C18 at a concrete input: in the list "eng", "", "fre" the entry "fre" is
the second non-empty one and its key is mapped to priority 2. -/
theorem language_priorities_witness :
    (SetLanguagePreferences Sample.collab Sample.fresh
      ["eng", "", "fre"]).languagePreferences.find 6713957 = some 2 :=
  language_priorities Sample.collab () 0 ["eng", "", "fre"] (by decide) 1 6713957
    (by decide)
    (by
      intro j hj
      have hnone : (canonical_keys Sample.collab ["eng", "", "fre"])[j]? = none :=
        List.getElem?_eq_none (by
          have hl : (canonical_keys Sample.collab ["eng", "", "fre"]).length = 2 := by decide
          omega)
      rw [hnone]
      exact fun h => Option.noConfusion h)

/-! ## How many events the two dequeueing loops take -/

/-- The loop of `ProcessEvents` runs `drain_rounds kChunkSize i n` rounds on a
queue of `n` events: its condition compares the counter with the size of the
queue that the body shortens. -/
theorem ProcessEvents_loop_count {PS : Type} (c : Collab EC)
    (UpdateDB : PS → DBEvent → Nat → Nat × PS) :
    ∀ (q : List DBEvent) (i n : Nat) (ps : PS) (h : List DBEvent),
      (ProcessEvents_loop c UpdateDB i q n ps h).2.1.length
        = q.length - drain_rounds kChunkSize i q.length ∧
      (ProcessEvents_loop c UpdateDB i q n ps h).2.2.2.length
        = h.length + drain_rounds kChunkSize i q.length := by
  intro q
  induction q with
  | nil =>
    intro i n ps h
    simp only [ProcessEvents_loop, List.length_nil, drain_rounds, kChunkSize]
    omega
  | cons e rest ih =>
    intro i n ps h
    by_cases hc : i < kChunkSize ∧ i < (e :: rest).length
    · obtain ⟨h1, h2⟩ := ih (i + 1) (u32 (n + (UpdateDB ps (c.Fix e) 1000).1))
        (UpdateDB ps (c.Fix e) 1000).2 (h ++ [c.Fix e])
      simp only [ProcessEvents_loop, if_pos hc]
      rw [h1, h2]
      simp only [List.length_cons, List.length_append, List.length_nil, drain_rounds,
        kChunkSize] at hc ⊢
      omega
    · simp only [ProcessEvents_loop, if_neg hc]
      simp only [List.length_cons, drain_rounds, kChunkSize] at hc ⊢
      omega

/-- The loop of the destructor leaves the younger half of the queue. -/
theorem destructor_loop_count :
    ∀ (q : List DBEvent) (i : Nat),
      destructor_loop i q = q.drop ((q.length - i + 1) / 2) := by
  intro q
  induction q with
  | nil => intro i; simp [destructor_loop]
  | cons e rest ih =>
    intro i
    by_cases hc : i < (e :: rest).length
    · simp only [destructor_loop, if_pos hc]
      rw [ih (i + 1)]
      simp only [List.length_cons] at hc ⊢
      have h1 : (rest.length + 1 - i + 1) / 2 = (rest.length - (i + 1) + 1) / 2 + 1 := by omega
      rw [h1, List.drop_succ_cons]
    · simp only [destructor_loop, if_neg hc]
      simp only [List.length_cons] at hc ⊢
      have h1 : (rest.length + 1 - i + 1) / 2 = 0 := by omega
      rw [h1, List.drop_zero]

/-- C21, evaluated on the code.  A `ProcessEvents` call on a queue of `n`
events hands `min(kChunkSize, ceil(n/2))` events to persistence, not
`min(n, kChunkSize)`, and leaves the rest queued: of two queued events it hands
over one and leaves one. -/
theorem ProcessEvents_hands_half {PS : Type} (c : Collab EC)
    (UpdateDB : PS → DBEvent → Nat → Nat × PS) (ps : PS) (st : EITHelper EC) :
    (ProcessEvents c UpdateDB ps st).handed.length
      = min kChunkSize ((st.db_events.length + 1) / 2) ∧
    (ProcessEvents c UpdateDB ps st).state.db_events.length
      = st.db_events.length - min kChunkSize ((st.db_events.length + 1) / 2) ∧
    GetListSize Sample.engine2 = 2 ∧
    (ProcessEvents Sample.collab Sample.UpdateDB () Sample.engine2).handed.length = 1 ∧
    GetListSize (ProcessEvents Sample.collab Sample.UpdateDB () Sample.engine2).state = 1 := by
  refine ⟨?_, ?_, by decide, by decide, by decide⟩
  · unfold ProcessEvents
    split
    · rename_i h0
      simp only [h0, List.length_nil, kChunkSize]
      omega
    · have h := (ProcessEvents_loop_count c UpdateDB st.db_events 0 0 ps []).2
      simp only [List.length_nil, drain_rounds, Nat.sub_zero, Nat.zero_add] at h
      exact h
  · unfold ProcessEvents
    split
    · rename_i h0
      simp only [h0, kChunkSize]
      omega
    · have h := (ProcessEvents_loop_count c UpdateDB st.db_events 0 0 ps []).1
      simp only [drain_rounds, Nat.sub_zero] at h
      exact h

/-- C22, evaluated on the code.  The destructor's loop dequeues and deletes the
`ceil(n/2)` oldest of `n` queued events and leaves the other `floor(n/2)` in
the queue: of two queued events one is still queued when the loop ends. -/
theorem destructor_leaves_half :
    (∀ st : EITHelper EC,
      (destructor st).db_events = st.db_events.drop ((st.db_events.length + 1) / 2) ∧
      (destructor st).db_events.length = st.db_events.length / 2) ∧
    GetListSize Sample.engine2 = 2 ∧
    GetListSize (destructor Sample.engine2) = 1 := by
  refine ⟨fun st => ?_, by decide, by decide⟩
  have h := destructor_loop_count st.db_events 0
  simp only [Nat.sub_zero] at h
  refine ⟨h, ?_⟩
  show (destructor_loop 0 st.db_events).length = _
  rw [h, List.length_drop]
  omega

/-! ## The two pending maps never hold the same event -/

theorem GetChanID_dvb_frame_fixup (db : ChannelDB) (st : EITHelper EC)
    (serviceid networkid tsid : Nat) :
    (GetChanID_dvb db st serviceid networkid tsid).2.fixup = st.fixup := by
  unfold GetChanID_dvb
  simp only
  split
  · rfl
  · split <;> rfl

/-- What the loop body of the DVB `AddEIT` leaves alone. -/
theorem AddEIT_dvb_event_frame (c : Collab EC) (db : ChannelDB)
    (eit : DVBEventInformationTable) (descCompression fix : Nat) (s : EITHelper EC)
    (e : DVBEvent) :
    (AddEIT_dvb_event c db eit descCompression fix s e).incomplete_events
      = s.incomplete_events ∧
    (AddEIT_dvb_event c db eit descCompression fix s e).unmatched_etts = s.unmatched_etts ∧
    (AddEIT_dvb_event c db eit descCompression fix s e).fixup = s.fixup := by
  have hfr := GetChanID_dvb_frame db
      { s with eitcache := (c.IsNewEIT s.eitcache eit.OriginalNetworkID eit.TSID eit.ServiceID
          eit.TableID eit.Version e.EventID e.EndTimeUnixUTC).2 }
      eit.ServiceID eit.OriginalNetworkID eit.TSID
  have hfx := GetChanID_dvb_frame_fixup db
      { s with eitcache := (c.IsNewEIT s.eitcache eit.OriginalNetworkID eit.TSID eit.ServiceID
          eit.TableID eit.Version e.EventID e.EndTimeUnixUTC).2 }
      eit.ServiceID eit.OriginalNetworkID eit.TSID
  unfold AddEIT_dvb_event
  simp only
  split
  · exact ⟨rfl, rfl, rfl⟩
  · split
    · exact ⟨hfr.2.2.1, hfr.2.2.2, hfx⟩
    · exact ⟨hfr.2.2.1, hfr.2.2.2, hfx⟩

/-- A state with the same two pending maps has the same disjointness. -/
theorem PendingDisjoint_congr {a b : EITHelper EC} (h1 : b.incomplete_events = a.incomplete_events)
    (h2 : b.unmatched_etts = a.unmatched_etts) (h : PendingDisjoint a) : PendingDisjoint b := by
  intro k i
  have := h k i
  unfold pendingEIT pendingETT at this ⊢
  rw [h1, h2]
  exact this

theorem AddEIT_event_disjoint (c : Collab EC) (db : ChannelDB) (atsc_major atsc_minor : Nat)
    (s : EITHelper EC) (e : EITEvent) (h : PendingDisjoint s) :
    PendingDisjoint (AddEIT_event c db atsc_major atsc_minor s e) := by
  intro k i
  cases hp : pendingETT s (atsc_key atsc_major atsc_minor) e.EventID with
  | some x =>
    have hfr := CompleteEvent_frame c db s atsc_major atsc_minor
      (ATSCEvent.ofRow c s.languagePreferences e) x
    rw [AddEIT_event_matched c db s atsc_major atsc_minor e x hp]
    simp only [pendingEIT, pendingETT]
    rw [hfr.2.1, hfr.2.2.1, find2_remove]
    by_cases hki : k = atsc_key atsc_major atsc_minor ∧ i = e.EventID
    · right
      rw [if_pos hki]
    · rw [if_neg hki]
      exact h k i
  | none =>
    by_cases hetm : e.ETMLocation = 0
    · have hfr := CompleteEvent_frame c db s atsc_major atsc_minor
        (ATSCEvent.ofRow c s.languagePreferences e) none
      rw [AddEIT_event_immediate c db s atsc_major atsc_minor e hp hetm]
      simp only [pendingEIT, pendingETT]
      rw [hfr.2.1, hfr.2.2.1]
      exact h k i
    · rw [AddEIT_event_stored c db s atsc_major atsc_minor e hp hetm]
      simp only [pendingEIT, pendingETT]
      rw [find2_store]
      by_cases hki : k = atsc_key atsc_major atsc_minor ∧ i = e.EventID
      · right
        rw [hki.1, hki.2]
        exact hp
      · rw [if_neg hki]
        exact h k i

theorem AddEIT_disjoint (c : Collab EC) (db : ChannelDB) (st : EITHelper EC)
    (atsc_major atsc_minor : Nat) (eit : EventInformationTable) (h : PendingDisjoint st) :
    PendingDisjoint (AddEIT c db st atsc_major atsc_minor eit) :=
  foldl_invariant PendingDisjoint _ (AddEIT_event_disjoint c db atsc_major atsc_minor) eit
    (AddEIT_entry st atsc_major atsc_minor)
    (fun k i => by
      rw [AddEIT_entry_pendingEIT, AddEIT_entry_pendingETT]
      exact h k i)

theorem AddETT_disjoint (c : Collab EC) (db : ChannelDB) (st : EITHelper EC)
    (atsc_major atsc_minor : Nat) (t : ExtendedTextTable) (h : PendingDisjoint st) :
    PendingDisjoint (AddETT c db st atsc_major atsc_minor t) := by
  intro k i
  cases hp : pendingEIT st (atsc_key atsc_major atsc_minor) t.EventID with
  | none =>
    rw [AddETT_of_none c db st atsc_major atsc_minor t hp, AddETT_unmatched_pendingETT]
    have hE : pendingEIT (AddETT_unmatched st (atsc_key atsc_major atsc_minor) t.EventID
        (c.GetBestMatch t.ExtendedTextMessage st.languagePreferences)) k i = pendingEIT st k i := by
      unfold pendingEIT
      rw [(AddETT_unmatched_frame st _ _ _).2.1]
    rw [hE]
    by_cases hki : k = atsc_key atsc_major atsc_minor ∧ i = t.EventID
    · left
      rw [hki.1, hki.2]
      exact hp
    · rw [if_neg hki]
      exact h k i
  | some ev0 =>
    obtain ⟨_, hU, hE⟩ := AddETT_of_some c db st atsc_major atsc_minor t ev0 hp
    have hT : pendingETT (AddETT c db st atsc_major atsc_minor t) k i = pendingETT st k i := by
      unfold pendingETT
      rw [hU]
    rw [hT, hE k i]
    by_cases hki : k = atsc_key atsc_major atsc_minor ∧ i = t.EventID
    · left
      rw [if_pos hki]
    · rw [if_neg hki]
      exact h k i

theorem AddEIT_dvb_disjoint (c : Collab EC) (db : ChannelDB) (st : EITHelper EC)
    (eit : DVBEventInformationTable) (h : PendingDisjoint st) :
    PendingDisjoint (AddEIT_dvb c db st eit) :=
  foldl_invariant PendingDisjoint _
    (fun s e hs =>
      PendingDisjoint_congr
        (AddEIT_dvb_event_frame c db eit (if eit.TableID > 0x80 then 2 else 1)
          (dvb_fix c st.fixup eit) s e).1
        (AddEIT_dvb_event_frame c db eit (if eit.TableID > 0x80 then 2 else 1)
          (dvb_fix c st.fixup eit) s e).2.1 hs)
    eit.events
    { st with fixup := (fixup_keys eit).foldl (fun m k => m.touch k 0) st.fixup }
    (PendingDisjoint_congr rfl rfl h)

/-- Every method call keeps the two pending maps disjoint. -/
theorem Step_disjoint {c : Collab EC} {a b : EITHelper EC} (h : Step c a b)
    (ha : PendingDisjoint a) : PendingDisjoint b := by
  cases h with
  | setFixup => exact PendingDisjoint_congr rfl rfl ha
  | setLanguagePreferences => exact PendingDisjoint_congr rfl rfl ha
  | setSourceID => exact PendingDisjoint_congr rfl rfl ha
  | addEIT db atsc_major atsc_minor eit => exact AddEIT_disjoint c db a atsc_major atsc_minor eit ha
  | addETT db atsc_major atsc_minor t => exact AddETT_disjoint c db a atsc_major atsc_minor t ha
  | addEIT_dvb db eit => exact AddEIT_dvb_disjoint c db a eit ha
  | pruneCache => exact PendingDisjoint_congr rfl rfl ha
  | processEvents UpdateDB ps =>
    refine PendingDisjoint_congr ?_ ?_ ha
    · unfold ProcessEvents
      split <;> rfl
    · unfold ProcessEvents
      split <;> rfl
  | getChanID db atsc_major atsc_minor =>
    exact PendingDisjoint_congr (GetChanID_frame db a atsc_major atsc_minor).2.2.1
      (GetChanID_frame db a atsc_major atsc_minor).2.2.2.1 ha
  | getChanID_dvb db serviceid networkid tsid =>
    exact PendingDisjoint_congr (GetChanID_dvb_frame db a serviceid networkid tsid).2.2.1
      (GetChanID_dvb_frame db a serviceid networkid tsid).2.2.2 ha

/-- C23.  In every state reachable from a fresh engine through the engine's
methods (the two-argument-channel `AddEIT` and `AddETT` among them) no
(channel key, event id) is present both in `incomplete_events` and in
`unmatched_etts`; one more `AddEIT` or `AddETT` call keeps it so. -/
theorem pending_maps_disjoint (c : Collab EC) (st : EITHelper EC) (hr : Reachable c st) :
    PendingDisjoint st ∧
    (∀ (db : ChannelDB) (atsc_major atsc_minor : Nat) (eit : EventInformationTable),
      PendingDisjoint (AddEIT c db st atsc_major atsc_minor eit)) ∧
    (∀ (db : ChannelDB) (atsc_major atsc_minor : Nat) (ett : ExtendedTextTable),
      PendingDisjoint (AddETT c db st atsc_major atsc_minor ett)) := by
  have hst : PendingDisjoint st := by
    obtain ⟨ec, offset, hsteps⟩ := hr
    induction hsteps with
    | refl => exact fun _ _ => Or.inl rfl
    | tail _ hstep ih => exact Step_disjoint hstep ih
  exact ⟨hst, fun db atsc_major atsc_minor eit => AddEIT_disjoint c db st atsc_major atsc_minor eit hst,
    fun db atsc_major atsc_minor ett => AddETT_disjoint c db st atsc_major atsc_minor ett hst⟩

/-! ## The two key schemas of the channel resolver -/

theorem chan_key_eq (sid M m : Nat) (hM : M < 2 ^ 16) (hm : m < 2 ^ 16) :
    chan_key sid M m = 2 ^ 32 * M + (u32 sid ||| m * 2 ^ 16) ∧
    (u32 sid ||| m * 2 ^ 16) < 2 ^ 32 := by
  have h1 : u32 sid < 2 ^ 32 := Nat.mod_lt _ (by norm_num)
  have h2 : m * 2 ^ 16 < 2 ^ 32 := by omega
  have h3 : (u32 sid ||| m * 2 ^ 16) < 2 ^ 32 := Nat.or_lt_two_pow h1 h2
  refine ⟨?_, h3⟩
  have hm32 : u32 m = m := Nat.mod_eq_of_lt (by omega)
  have hM32 : u32 M = M := Nat.mod_eq_of_lt (by omega)
  have e1 : u64 (m * 2 ^ 16) = m * 2 ^ 16 := Nat.mod_eq_of_lt (by omega)
  have e2 : u64 (u32 sid ||| m * 2 ^ 16) = (u32 sid ||| m * 2 ^ 16) := Nat.mod_eq_of_lt (by omega)
  have e3 : u64 (M * 2 ^ 32) = M * 2 ^ 32 := Nat.mod_eq_of_lt (by omega)
  have e4 : ((u32 sid ||| m * 2 ^ 16) ||| M * 2 ^ 32) = 2 ^ 32 * M + (u32 sid ||| m * 2 ^ 16) := by
    rw [Nat.lor_comm, Nat.mul_comm M, ← Nat.mul_add_lt_is_or h3]
  unfold chan_key
  rw [hm32, hM32, Nat.shiftLeft_eq, Nat.shiftLeft_eq, e1, e2, e3, e4]
  exact Nat.mod_eq_of_lt (by omega)

theorem chan_key_dvb_eq (sid s n t : Nat) (hs : s < 2 ^ 16) (hn : n < 2 ^ 16)
    (ht : t < 2 ^ 16) :
    chan_key_dvb sid s n t = 2 ^ 48 * t + chan_key sid n s := by
  obtain ⟨hk, hlt⟩ := chan_key_eq sid n s hn hs
  have hA : chan_key sid n s < 2 ^ 48 := by omega
  have ht32 : u32 t = t := Nat.mod_eq_of_lt (by omega)
  have e3 : u64 (t * 2 ^ 48) = t * 2 ^ 48 := Nat.mod_eq_of_lt (by omega)
  have e4 : (chan_key sid n s ||| t * 2 ^ 48) = 2 ^ 48 * t + chan_key sid n s := by
    rw [Nat.lor_comm, Nat.mul_comm t, ← Nat.mul_add_lt_is_or hA]
  show u64 (chan_key sid n s ||| u64 (u32 t <<< 48)) = _
  rw [ht32, Nat.shiftLeft_eq, e3, e4]
  exact Nat.mod_eq_of_lt (by omega)

theorem chan_key_dvb_tsid_zero (sid M m : Nat) :
    chan_key_dvb sid m M 0 = chan_key sid M m := by
  show u64 (chan_key sid M m ||| u64 (u32 0 <<< 48)) = _
  have h0 : u64 (u32 0 <<< 48) = 0 := by decide
  rw [h0, Nat.or_zero]
  exact Nat.mod_eq_of_lt (Nat.mod_lt _ (by norm_num))

/-- A `GetChanID` call leaves every entry under another key as it was. -/
theorem GetChanID_key_find_other (db : ChannelDB) (st : EITHelper EC) (k : ChanKey) (key : Nat)
    (h : k.cache_key st.sourceid ≠ key) :
    (GetChanID_key db st k).2.srv_to_chanid.find key = st.srv_to_chanid.find key := by
  cases hk : st.srv_to_chanid.find (k.cache_key st.sourceid) with
  | some v => rw [GetChanID_key_hit db st k v hk]
  | none =>
    rw [GetChanID_key_miss db st k hk]
    simp only
    split
    · exact QMap.find_insert_ne _ _ h
    · rfl

/-- A `GetChanID` call on a key that an earlier call with another key found
uncached performs the external lookup: it appends its statement to the log and
returns what the store answers. -/
theorem GetChanID_key_own_lookup (db db' : ChannelDB) (st : EITHelper EC) (k k' : ChanKey)
    (hne : k.cache_key st.sourceid ≠ k'.cache_key st.sourceid)
    (hun : st.srv_to_chanid.find (k'.cache_key st.sourceid) = none) :
    (GetChanID_key db' (GetChanID_key db st k).2 k').2.db_queries
      = (GetChanID_key db st k).2.db_queries ++ [k'.query st.sourceid] ∧
    (GetChanID_key db' (GetChanID_key db st k).2 k').1
      = chanid_of_result (db' (k'.query st.sourceid)) := by
  have hsrc := GetChanID_key_sourceid db st k
  have hun' : (GetChanID_key db st k).2.srv_to_chanid.find
      (k'.cache_key (GetChanID_key db st k).2.sourceid) = none := by
    rw [hsrc, GetChanID_key_find_other db st k _ hne]
    exact hun
  rw [GetChanID_key_miss db' _ k' hun']
  simp only [hsrc]
  exact ⟨trivial, trivial⟩

/-- C24 fails as stated.  With source id 0, `GetChanID(5, 1)` caches channel
id 1001; `GetChanID(serviceid 1, networkid 5, tsid 0)` then returns 1001 from
that entry without a lookup, although the store would answer 2002 to its own
statement.  The other way round, the id 2002 cached by the three-field call is
returned by `GetChanID(5, 1)` without a lookup. -/
theorem key_schemas_share_counterexample :
    (GetChanID (Sample.store 1001 true) Sample.fresh 5 1).1 = 1001 ∧
    get_chan_id_from_db_dvb (Sample.store 2002 true) Sample.engineResolved.sourceid 1 5 0 = 2002 ∧
    (GetChanID_dvb (Sample.store 2002 true) Sample.engineResolved 1 5 0).1 = 1001 ∧
    (GetChanID_dvb (Sample.store 2002 true) Sample.engineResolved 1 5 0).2.db_queries
      = Sample.engineResolved.db_queries ∧
    (GetChanID_dvb (Sample.store 2002 true) Sample.fresh 1 5 0).1 = 2002 ∧
    (GetChanID (Sample.store 1001 true)
      (GetChanID_dvb (Sample.store 2002 true) Sample.fresh 1 5 0).2 5 1).1 = 2002 ∧
    (GetChanID (Sample.store 1001 true)
      (GetChanID_dvb (Sample.store 2002 true) Sample.fresh 1 5 0).2 5 1).2.db_queries
      = (GetChanID_dvb (Sample.store 2002 true) Sample.fresh 1 5 0).2.db_queries := by
  decide

/-- C24, as the code has it.  For 16-bit field values the key of
`GetChanID(serviceid, networkid, tsid)` is `2^48 * tsid` plus the key of
`GetChanID(networkid, serviceid)`.  With `tsid = 0`, `networkid = atsc_major`
and `serviceid = atsc_minor` the two schemas share one cache entry: on a hit
either overload returns `max(entry, 0)` without a lookup, so after one overload
has resolved the key to a non-zero channel id the other, called then or after
any method calls that keep the source id, returns that id when it is below
`2^31` and 0 when it is `2^31` or more, in both cases without a lookup of its
own.  With `tsid ≠ 0` the keys differ (for a source id below `2^16` the
keys are equal exactly when `tsid = 0`, `networkid = atsc_major` and
`serviceid = atsc_minor`), and calls with different keys do not share: the call
for an uncached key that follows a call of the other overload sends its own
statement to the store and returns the store's answer. -/
theorem key_schemas_share_iff_tsid_zero (c : Collab EC) (st : EITHelper EC) (M m s n t : Nat)
    (hM : M < 2 ^ 16) (hm : m < 2 ^ 16) (hs : s < 2 ^ 16) (hn : n < 2 ^ 16) (ht : t < 2 ^ 16) :
    chan_key_dvb st.sourceid s n t = 2 ^ 48 * t + chan_key st.sourceid n s ∧
    chan_key_dvb st.sourceid m M 0 = chan_key st.sourceid M m ∧
    (t ≠ 0 → chan_key_dvb st.sourceid s n t ≠ chan_key st.sourceid M m) ∧
    (st.sourceid < 2 ^ 16 →
      (chan_key_dvb st.sourceid s n t = chan_key st.sourceid M m ↔ t = 0 ∧ n = M ∧ s = m)) ∧
    (∀ (db : ChannelDB) (v : Int),
      st.srv_to_chanid.find (chan_key st.sourceid M m) = some v →
      GetChanID_dvb db st m M 0 = (ofInt32 (max v 0), st) ∧
      GetChanID db st M m = (ofInt32 (max v 0), st)) ∧
    (chan_key_dvb st.sourceid s n t ≠ chan_key st.sourceid M m →
      (st.srv_to_chanid.find (chan_key_dvb st.sourceid s n t) = none →
        ∀ db db' : ChannelDB,
          (GetChanID_dvb db' (GetChanID db st M m).2 s n t).2.db_queries
            = (GetChanID db st M m).2.db_queries ++ [.dvb st.sourceid s n t] ∧
          (GetChanID_dvb db' (GetChanID db st M m).2 s n t).1
            = get_chan_id_from_db_dvb db' st.sourceid s n t) ∧
      (st.srv_to_chanid.find (chan_key st.sourceid M m) = none →
        ∀ db db' : ChannelDB,
          (GetChanID db' (GetChanID_dvb db st s n t).2 M m).2.db_queries
            = (GetChanID_dvb db st s n t).2.db_queries ++ [.atsc st.sourceid M m] ∧
          (GetChanID db' (GetChanID_dvb db st s n t).2 M m).1
            = get_chan_id_from_db db' st.sourceid M m)) ∧
    (st.srv_to_chanid.find (chan_key st.sourceid M m) = none →
      (∀ db : ChannelDB, get_chan_id_from_db db st.sourceid M m ≠ 0 →
        (GetChanID db st M m).1 = get_chan_id_from_db db st.sourceid M m ∧
        ∀ st', Later c (GetChanID db st M m).2 st' →
          ∀ db' : ChannelDB,
            GetChanID_dvb db' st' m M 0
              = (if get_chan_id_from_db db st.sourceid M m < 2 ^ 31
                  then get_chan_id_from_db db st.sourceid M m else 0, st')) ∧
      (∀ db : ChannelDB, get_chan_id_from_db_dvb db st.sourceid m M 0 ≠ 0 →
        (GetChanID_dvb db st m M 0).1 = get_chan_id_from_db_dvb db st.sourceid m M 0 ∧
        ∀ st', Later c (GetChanID_dvb db st m M 0).2 st' →
          ∀ db' : ChannelDB,
            GetChanID db' st' M m
              = (if get_chan_id_from_db_dvb db st.sourceid m M 0 < 2 ^ 31
                  then get_chan_id_from_db_dvb db st.sourceid m M 0 else 0, st'))) := by
  have hd := chan_key_dvb_eq st.sourceid s n t hs hn ht
  have hz := chan_key_dvb_tsid_zero st.sourceid M m
  obtain ⟨ha, halt⟩ := chan_key_eq st.sourceid M m hM hm
  obtain ⟨hb, hblt⟩ := chan_key_eq st.sourceid n s hn hs
  refine ⟨hd, hz, fun ht0 heq => ?_, fun hsrc => ?_,
    fun db v hv => ⟨?_, ?_⟩, fun hne => ⟨fun hun db db' => ?_, fun hun db db' => ?_⟩,
    fun hun => ⟨fun db hne => ⟨?_, fun st' hlater db' => ?_⟩,
      fun db hne => ⟨?_, fun st' hlater db' => ?_⟩⟩⟩
  · rw [hd, hb, ha] at heq
    omega
  · have h32 : u32 st.sourceid = st.sourceid := Nat.mod_eq_of_lt (by omega)
    have e1 : (u32 st.sourceid ||| m * 2 ^ 16) = 2 ^ 16 * m + st.sourceid := by
      rw [h32, Nat.lor_comm, Nat.mul_comm m, ← Nat.mul_add_lt_is_or hsrc]
    have e2 : (u32 st.sourceid ||| s * 2 ^ 16) = 2 ^ 16 * s + st.sourceid := by
      rw [h32, Nat.lor_comm, Nat.mul_comm s, ← Nat.mul_add_lt_is_or hsrc]
    rw [hd, hb, ha, e1, e2]
    omega
  · exact GetChanID_key_hit db st (.dvb m M 0) v
      (by
        show st.srv_to_chanid.find (chan_key_dvb st.sourceid m M 0) = some v
        rw [chan_key_dvb_tsid_zero]
        exact hv)
  · exact GetChanID_key_hit db st (.atsc M m) v hv
  · exact GetChanID_key_own_lookup db db' st (.atsc M m) (.dvb s n t) (fun h => hne h.symm) hun
  · exact GetChanID_key_own_lookup db db' st (.dvb s n t) (.atsc M m) hne hun
  · exact (GetChanID_key_after_resolve c db db st _ (.atsc M m) (.dvb m M 0) hz hun hne
      Relation.ReflTransGen.refl).1
  · exact (GetChanID_key_after_resolve c db db' st st' (.atsc M m) (.dvb m M 0) hz hun hne
      hlater).2
  · exact (GetChanID_key_after_resolve c db db st _ (.dvb m M 0) (.atsc M m) hz.symm
      (by
        show st.srv_to_chanid.find (chan_key_dvb st.sourceid m M 0) = none
        rw [hz]
        exact hun) hne Relation.ReflTransGen.refl).1
  · exact (GetChanID_key_after_resolve c db db' st st' (.dvb m M 0) (.atsc M m) hz.symm
      (by
        show st.srv_to_chanid.find (chan_key_dvb st.sourceid m M 0) = none
        rw [hz]
        exact hun) hne hlater).2

/-- C24 at a concrete input: the key of service 1070 of network 40999 on
stream 5 differs from the key of channel 5.1, and after `GetChanID(5, 1)` has
cached 1001 the three-field call sends its own statement and returns the
store's answer 2002; the three-field call for service 1, network 5, stream 0
returns the cached 1001 instead, and 0 when the id that `GetChanID(5, 1)`
resolved is `2^31`. -/
theorem key_schemas_share_iff_tsid_zero_witness :
    chan_key_dvb Sample.fresh.sourceid 1070 40999 5 ≠ chan_key Sample.fresh.sourceid 5 1 ∧
    ((GetChanID_dvb (Sample.store 2002 true)
        (GetChanID (Sample.store 1001 true) Sample.fresh 5 1).2 1070 40999 5).2.db_queries
      = (GetChanID (Sample.store 1001 true) Sample.fresh 5 1).2.db_queries
        ++ [.dvb Sample.fresh.sourceid 1070 40999 5] ∧
    (GetChanID_dvb (Sample.store 2002 true)
        (GetChanID (Sample.store 1001 true) Sample.fresh 5 1).2 1070 40999 5).1
      = get_chan_id_from_db_dvb (Sample.store 2002 true) Sample.fresh.sourceid 1070 40999 5) ∧
    (GetChanID_dvb (Sample.store 2002 true)
        (GetChanID (Sample.store 1001 true) Sample.fresh 5 1).2 1 5 0).1 = 1001 ∧
    (GetChanID_dvb (Sample.store 2002 true)
        (GetChanID (Sample.store 2147483648 true) Sample.fresh 5 1).2 1 5 0).1 = 0 :=
  ⟨(key_schemas_share_iff_tsid_zero Sample.collab Sample.fresh 5 1 1070 40999 5 (by decide) (by decide)
      (by decide) (by decide) (by decide)).2.2.1 (by decide),
    ((key_schemas_share_iff_tsid_zero Sample.collab Sample.fresh 5 1 1070 40999 5 (by decide) (by decide)
      (by decide) (by decide) (by decide)).2.2.2.2.2.1
        ((key_schemas_share_iff_tsid_zero Sample.collab Sample.fresh 5 1 1070 40999 5 (by decide) (by decide)
          (by decide) (by decide) (by decide)).2.2.1 (by decide))).1 (by decide)
      (Sample.store 1001 true) (Sample.store 2002 true),
    (congrArg Prod.fst
      ((((key_schemas_share_iff_tsid_zero Sample.collab Sample.fresh 5 1 1070 40999 5 (by decide) (by decide)
        (by decide) (by decide) (by decide)).2.2.2.2.2.2 (by decide)).1
          (Sample.store 1001 true) (by decide)).2
            (GetChanID (Sample.store 1001 true) Sample.fresh 5 1).2
            Relation.ReflTransGen.refl (Sample.store 2002 true))).trans (by decide),
    (congrArg Prod.fst
      ((((key_schemas_share_iff_tsid_zero Sample.collab Sample.fresh 5 1 1070 40999 5 (by decide) (by decide)
        (by decide) (by decide) (by decide)).2.2.2.2.2.2 (by decide)).1
          (Sample.store 2147483648 true) (by decide)).2
            (GetChanID (Sample.store 2147483648 true) Sample.fresh 5 1).2
            Relation.ReflTransGen.refl (Sample.store 2002 true))).trans
      (by decide)⟩

/-- C23 at a concrete input: with the extended text of event 7 of channel 5.1
pending and no primary fragment pending, the two maps are disjoint. -/
theorem pending_maps_disjoint_witness :
    PendingDisjoint Sample.engineWithText ∧
    pendingETT Sample.engineWithText (atsc_key 5 1) 7 = some (some "Synopsis") ∧
    pendingEIT Sample.engineWithText (atsc_key 5 1) 7 = none :=
  ⟨(pending_maps_disjoint Sample.collab Sample.engineWithText
      ⟨(), 0, Relation.ReflTransGen.single
        (Step.addETT Sample.fresh (Sample.store 1001 true) 5 1 Sample.ett)⟩).1,
    by decide, by decide⟩

/-! ## The rule table on the ATSC path -/

/-- A read through the non-const `operator[]` leaves every rule as it reads. -/
theorem rule_touch (m : QMap Nat) (k key : Nat) : rule (m.touch k 0) key = rule m key := by
  by_cases h : k = key
  · subst h
    unfold rule
    show (QMap.find (QMap.touch m k 0) k).getD 0 = _
    rw [QMap.find_touch_self]
    rfl
  · unfold rule QMap.value
    rw [QMap.find_touch_ne m 0 h]

theorem rule_foldl_touch (key : Nat) :
    ∀ (keys : List Nat) (m : QMap Nat),
      rule (keys.foldl (fun m k => m.touch k 0) m) key = rule m key := by
  intro keys
  induction keys with
  | nil => intro m; rfl
  | cons k keys ih =>
    intro m
    rw [List.foldl_cons, ih, rule_touch]

theorem rule_insert_ne (m : QMap Nat) {k key : Nat} (v : Nat) (h : k ≠ key) :
    rule (m.insert k v) key = rule m key := by
  unfold rule QMap.value
  rw [QMap.find_insert_ne m v h]

theorem CompleteEvent_rule (c : Collab EC) (db : ChannelDB) (st : EITHelper EC)
    (atsc_major atsc_minor : Nat) (event : ATSCEvent) (ett : QString) (key : Nat) :
    rule (CompleteEvent c db st atsc_major atsc_minor event ett).fixup key
      = rule st.fixup key := by
  have hf := (GetChanID_frame db st atsc_major atsc_minor).2.2.2.2.2.2.2
  unfold CompleteEvent
  simp only
  split
  · rw [hf]
  · simp only
    rw [rule_touch, hf]

theorem AddEIT_event_rule (c : Collab EC) (db : ChannelDB) (atsc_major atsc_minor : Nat)
    (s : EITHelper EC) (e : EITEvent) (key : Nat) :
    rule (AddEIT_event c db atsc_major atsc_minor s e).fixup key = rule s.fixup key := by
  unfold AddEIT_event
  simp only
  split
  · exact CompleteEvent_rule c db s atsc_major atsc_minor _ _ key
  · split
    · exact CompleteEvent_rule c db s atsc_major atsc_minor _ _ key
    · rfl

theorem AddEIT_rule (c : Collab EC) (db : ChannelDB) (st : EITHelper EC)
    (atsc_major atsc_minor : Nat) (eit : EventInformationTable) (key : Nat) :
    rule (AddEIT c db st atsc_major atsc_minor eit).fixup key = rule st.fixup key :=
  foldl_invariant (fun s => rule s.fixup key = rule st.fixup key) _
    (fun s e hs => (AddEIT_event_rule c db atsc_major atsc_minor s e key).trans hs) eit
    (AddEIT_entry st atsc_major atsc_minor) rfl

theorem AddETT_rule (c : Collab EC) (db : ChannelDB) (st : EITHelper EC)
    (atsc_major atsc_minor : Nat) (t : ExtendedTextTable) (key : Nat) :
    rule (AddETT c db st atsc_major atsc_minor t).fixup key = rule st.fixup key := by
  have hu : ∀ k id text, (AddETT_unmatched st k id text).fixup = st.fixup := by
    intro k id text
    unfold AddETT_unmatched
    simp only
    split <;> rfl
  unfold AddETT
  simp only
  split
  · rw [hu]
  · split
    · rw [hu]
    · exact CompleteEvent_rule c db st atsc_major atsc_minor _ _ key

theorem AddEIT_dvb_rule (c : Collab EC) (db : ChannelDB) (st : EITHelper EC)
    (eit : DVBEventInformationTable) (key : Nat) :
    rule (AddEIT_dvb c db st eit).fixup key = rule st.fixup key :=
  foldl_invariant (fun s => rule s.fixup key = rule st.fixup key) _
    (fun s e hs => by
      show rule (AddEIT_dvb_event c db eit (if eit.TableID > 0x80 then 2 else 1)
        (dvb_fix c st.fixup eit) s e).fixup key = _
      rw [(AddEIT_dvb_event_frame c db eit _ _ s e).2.2]
      exact hs)
    eit.events
    { st with fixup := (fixup_keys eit).foldl (fun m k => m.touch k 0) st.fixup }
    (rule_foldl_touch key (fixup_keys eit) st.fixup)

/-- A method call other than `SetFixup` for the key leaves the rule under the
key as it reads. -/
theorem Step_rule {c : Collab EC} {a b : EITHelper EC} (key : Nat) (h : Step c a b)
    (hno : ¬ ∃ atsc_major atsc_minor eitfixup,
      atsc_key atsc_major atsc_minor = key ∧ b = SetFixup a atsc_major atsc_minor eitfixup) :
    rule b.fixup key = rule a.fixup key := by
  cases h with
  | setFixup atsc_major atsc_minor eitfixup =>
    by_cases hk : atsc_key atsc_major atsc_minor = key
    · exact absurd ⟨atsc_major, atsc_minor, eitfixup, hk, rfl⟩ hno
    · exact rule_insert_ne a.fixup _ hk
  | setLanguagePreferences => rfl
  | setSourceID => rfl
  | addEIT db atsc_major atsc_minor eit => exact AddEIT_rule c db a atsc_major atsc_minor eit key
  | addETT db atsc_major atsc_minor t => exact AddETT_rule c db a atsc_major atsc_minor t key
  | addEIT_dvb db eit => exact AddEIT_dvb_rule c db a eit key
  | pruneCache => rfl
  | processEvents UpdateDB ps =>
    unfold ProcessEvents
    split <;> rfl
  | getChanID db atsc_major atsc_minor =>
    rw [(GetChanID_frame db a atsc_major atsc_minor).2.2.2.2.2.2.2]
  | getChanID_dvb db serviceid networkid tsid =>
    rw [GetChanID_dvb_frame_fixup]

/-- Without a `SetFixup` call for the key, the rule under it is the one
`init_fixup` installed, or none. -/
theorem rule_of_reachableWithoutSetFixup {c : Collab EC} {key : Nat} {st : EITHelper EC}
    (hr : ReachableWithoutSetFixup c key st) :
    rule st.fixup key = rule (init_fixup c.bits []) key := by
  obtain ⟨ec, offset, hsteps⟩ := hr
  have h0 : (new c ec offset).fixup = init_fixup c.bits [] := by simp only [new]
  induction hsteps with
  | refl => rw [h0]
  | tail _ hstep ih => exact (Step_rule key hstep.1 hstep.2).trans ih

set_option maxRecDepth 100000 in
/-- C25 fails as stated.  On a fresh engine, for which `SetFixup` was never
called, a primary fragment of ATSC channel 256.0 that expects no extended text
is completed with the fix-up mask `kFixBell`, not 0: `init_fixup` installed
that rule under the key `256 << 16`, which is the key of channel 256.0. -/
theorem atsc_static_rule_counterexample :
    ReachableWithoutSetFixup Sample.collab (atsc_key 256 0) Sample.fresh ∧
    Sample.collab.bits.kFixBell = 2 ∧
    (AddEIT Sample.collab (Sample.store 1001 true) Sample.fresh 256 0
      [Sample.eit 0]).db_events.map DBEvent.fixup = [2] ∧
    (CompleteEvent Sample.collab (Sample.store 1001 true) Sample.fresh 256 0
      (ATSCEvent.ofRow Sample.collab [] (Sample.eit 0)) none).db_events.map DBEvent.fixup
      = [2] :=
  ⟨⟨(), 0, Relation.ReflTransGen.refl⟩, by decide, by decide, by decide⟩

/-- C25, as the code has it.  In a state reached from a fresh engine without a
`SetFixup` call for the key of channel (atsc_major, atsc_minor), the event that
`CompleteEvent` enqueues for that channel carries the rule `init_fixup`
installed under the key `(atsc_major << 16) | atsc_minor`, and 0 when there is
no such rule.  The mask is 0 for a channel whose key is not a key of
`init_fixup`; for the key `256 << 16` it is `kFixBell`. -/
theorem atsc_fixup_is_static_rule (c : Collab EC) (db : ChannelDB) (st : EITHelper EC)
    (atsc_major atsc_minor : Nat) (event : ATSCEvent) (ett : QString)
    (hr : ReachableWithoutSetFixup c (atsc_key atsc_major atsc_minor) st)
    (h : (GetChanID db st atsc_major atsc_minor).1 ≠ 0) :
    (CompleteEvent c db st atsc_major atsc_minor event ett).db_events.map DBEvent.fixup
      = st.db_events.map DBEvent.fixup
        ++ [rule (init_fixup c.bits []) (atsc_key atsc_major atsc_minor)] ∧
    (atsc_key atsc_major atsc_minor ∉ init_fixup_keys →
      rule (init_fixup c.bits []) (atsc_key atsc_major atsc_minor) = 0) ∧
    (atsc_key atsc_major atsc_minor = 256 <<< 16 →
      rule (init_fixup c.bits []) (atsc_key atsc_major atsc_minor) = u32 c.bits.kFixBell) := by
  refine ⟨?_, fun hk => ?_, fun hk => ?_⟩
  · obtain ⟨ev, hq, _, _, _, _, hfix⟩ :=
      CompleteEvent_enqueued_shape c db st atsc_major atsc_minor event ett h
    rw [hq, List.map_append, List.map_singleton, hfix, rule_of_reachableWithoutSetFixup hr]
  · unfold rule QMap.value
    rw [init_fixup_find_none _ _ hk]
    rfl
  · rw [hk]
    unfold rule QMap.value
    rw [init_fixup_find]
    rfl

set_option maxRecDepth 100000 in
/-- C25 at a concrete input: on a fresh engine the event completed for channel
5.1, whose key has no rule, carries the mask 0, and the one completed for
channel 256.0 carries `kFixBell`. -/
theorem atsc_fixup_is_static_rule_witness :
    rule (init_fixup Sample.collab.bits []) (atsc_key 5 1) = 0 ∧
    (CompleteEvent Sample.collab (Sample.store 1001 true) Sample.fresh 256 0
      (ATSCEvent.ofRow Sample.collab [] (Sample.eit 0)) none).db_events.map DBEvent.fixup
      = Sample.fresh.db_events.map DBEvent.fixup
        ++ [rule (init_fixup Sample.collab.bits []) (atsc_key 256 0)] ∧
    rule (init_fixup Sample.collab.bits []) (atsc_key 256 0) = u32 Sample.collab.bits.kFixBell :=
  ⟨(atsc_fixup_is_static_rule Sample.collab (Sample.store 1001 true) Sample.fresh 5 1
      (ATSCEvent.ofRow Sample.collab [] (Sample.eit 0)) none
      ⟨(), 0, Relation.ReflTransGen.refl⟩ (by decide)).2.1 (by decide),
    (atsc_fixup_is_static_rule Sample.collab (Sample.store 1001 true) Sample.fresh 256 0
      (ATSCEvent.ofRow Sample.collab [] (Sample.eit 0)) none
      ⟨(), 0, Relation.ReflTransGen.refl⟩ (by decide)).1,
    (atsc_fixup_is_static_rule Sample.collab (Sample.store 1001 true) Sample.fresh 256 0
      (ATSCEvent.ofRow Sample.collab [] (Sample.eit 0)) none
      ⟨(), 0, Relation.ReflTransGen.refl⟩ (by decide)).2.2 (by decide)⟩

end EITHelper

end MythTV
